import Mathlib

/-!
# Device discovery and selection of go-mtpfs (`mtp/select.go`)

A shallow embedding of `candidateFromDeviceDescriptor`, `FindDevices` and
`selectDevice`, followed by the properties proved about them.

Bytes (`byte`, `uint8`) are natural numbers; the only arithmetic done on them
is masking and comparison, neither of which can overflow, and the loop
counter of the configuration loop stays below the declared count.

`select.go` imports the USB binding `github.com/hanwen/usb` and uses the
type `Device` of its own package, declared in another file.  The descriptor
types, the constants and the two accessors `Direction` and `TransferType` of
the binding are written out below with the values of the USB standard (bit 7
of the endpoint address is the direction, the low two attribute bits are the
transfer type).  Everything else that is called from outside (descriptor
retrieval, `Open`, `ID`, `Close`, `Done`, the configuration calls,
`regexp.Compile`, the terminal) is a field of a structure, so the properties
hold whatever those calls answer, and every call is recorded in a log so that
statements about which calls were issued can be made.
-/

namespace mtp

/-! ## Descriptor data of the USB binding -/

namespace usb

/-- Go: `usb.ENDPOINT_IN`. -/
def ENDPOINT_IN : Nat := 0x80
/-- Go: `usb.ENDPOINT_OUT`. -/
def ENDPOINT_OUT : Nat := 0x00
/-- Go: `usb.ENDPOINT_DIR_MASK`. -/
def ENDPOINT_DIR_MASK : Nat := 0x80
/-- Go: `usb.TRANSFER_TYPE_MASK`. -/
def TRANSFER_TYPE_MASK : Nat := 0x03
/-- Go: `usb.TRANSFER_TYPE_BULK`. -/
def TRANSFER_TYPE_BULK : Nat := 2
/-- Go: `usb.TRANSFER_TYPE_INTERRUPT`. -/
def TRANSFER_TYPE_INTERRUPT : Nat := 3

/-- Go: `usb.EndpointDescriptor`, the two bytes `select.go` reads from it. -/
structure EndpointDescriptor where
  EndpointAddress : Nat
  Attributes : Nat
  deriving DecidableEq, Repr

/-- Go: `(*EndpointDescriptor).Direction`, bit 7 of the endpoint address. -/
def EndpointDescriptor.Direction (e : EndpointDescriptor) : Nat :=
  e.EndpointAddress &&& ENDPOINT_DIR_MASK

/-- Go: `(*EndpointDescriptor).TransferType`, the low two attribute bits. -/
def EndpointDescriptor.TransferType (e : EndpointDescriptor) : Nat :=
  e.Attributes &&& TRANSFER_TYPE_MASK

/-- Go: `usb.InterfaceDescriptor`, one alternate setting of an interface. -/
structure InterfaceDescriptor where
  InterfaceNumber : Nat
  AlternateSetting : Nat
  EndPoints : List EndpointDescriptor
  deriving DecidableEq, Repr

/-- Go: `usb.Interface`, the alternate settings of one interface. -/
structure Interface where
  AltSetting : List InterfaceDescriptor
  deriving DecidableEq, Repr

/-- Go: `usb.ConfigDescriptor`. -/
structure ConfigDescriptor where
  ConfigurationValue : Nat
  Interfaces : List Interface
  deriving DecidableEq, Repr

/-- Go: `usb.DeviceDescriptor`. -/
structure DeviceDescriptor where
  IdVendor : Nat
  IdProduct : Nat
  NumConfigurations : Nat
  deriving DecidableEq, Repr

/-- Go: `usb.Error`, a libusb error code. -/
abbrev Error := Int

/-- Go: `*usb.Device`.  `ptr` is the address of the libusb device; the two
functions are what the device answers to the descriptor queries. -/
structure Device where
  ptr : Nat
  GetDeviceDescriptor : Except Error DeviceDescriptor
  GetConfigDescriptor : Nat → Except Error ConfigDescriptor

/-- The calls `candidateFromDeviceDescriptor` makes on a `*usb.Device`. -/
inductive Call where
  | GetDeviceDescriptor
  | GetConfigDescriptor (i : Nat)
  | Ref
  deriving DecidableEq, Repr

/-- Go: `*usb.Context`, seen through `GetDeviceList`. -/
structure Context where
  GetDeviceList : Except Error (List Device)

/-- Go: `(usb.DeviceList).Done` of the binding, which frees the list through
the address of its first element (`&d[0]`).  On an empty list that index is
out of range and the call ends with a run-time fault; `none` is that fault. -/
def DeviceList.Done : List Device → Option Unit
  | [] => none
  | _ :: _ => some ()

end usb

/-! ## The candidate record -/

/-- Go: `mtp.Device`, the fields `select.go` assigns.  `dev` is the reference
to the USB device (`none` is the nil pointer).  The handle `h`, set by `Open`,
is not a field here: calls on it are answered by the world, see `World`. -/
structure Device where
  dev : Option Nat := none
  devDescr : usb.DeviceDescriptor := ⟨0, 0, 0⟩
  ifaceDescr : usb.InterfaceDescriptor := ⟨0, 0, []⟩
  configValue : Nat := 0
  sendEP : Nat := 0
  fetchEP : Nat := 0
  eventEP : Nat := 0
  deriving DecidableEq, Repr

/-! ## `candidateFromDeviceDescriptor` -/

/-- The `switch` of lines 28-35: one endpoint is assigned to at most one of
the three slots of `m`. -/
def classify (m : Device) (s : usb.EndpointDescriptor) : Device :=
  if s.Direction = usb.ENDPOINT_IN ∧ s.TransferType = usb.TRANSFER_TYPE_INTERRUPT then
    { m with eventEP := s.EndpointAddress }
  else if s.Direction = usb.ENDPOINT_IN ∧ s.TransferType = usb.TRANSFER_TYPE_BULK then
    { m with fetchEP := s.EndpointAddress }
  else if s.Direction = usb.ENDPOINT_OUT ∧ s.TransferType = usb.TRANSFER_TYPE_BULK then
    { m with sendEP := s.EndpointAddress }
  else m

/-- The loop of lines 27-36 over the endpoints of one alternate setting. -/
def scanEndPoints (m : Device) : List usb.EndpointDescriptor → Device
  | [] => m
  | s :: rest => scanEndPoints (classify m s) rest

/-- The loop of lines 22-44 over the alternate settings of one interface:
the first alternate setting with three endpoints and three filled slots is
returned as a candidate. -/
def scanAltSettings (d : usb.Device) (dd : usb.DeviceDescriptor) (cdecs : usb.ConfigDescriptor) :
    List usb.InterfaceDescriptor → Option Device
  | [] => none
  | a :: rest =>
    if a.EndPoints.length ≠ 3 then scanAltSettings d dd cdecs rest
    else
      let m := scanEndPoints {} a.EndPoints
      if m.sendEP > 0 ∧ m.fetchEP > 0 ∧ m.eventEP > 0 then
        some { m with
          devDescr := dd
          ifaceDescr := a
          dev := some d.ptr
          configValue := cdecs.ConfigurationValue }
      else scanAltSettings d dd cdecs rest

/-- The loop of lines 21-45 over the interfaces of one configuration. -/
def scanInterfaces (d : usb.Device) (dd : usb.DeviceDescriptor) (cdecs : usb.ConfigDescriptor) :
    List usb.Interface → Option Device
  | [] => none
  | iface :: rest =>
    match scanAltSettings d dd cdecs iface.AltSetting with
    | some m => some m
    | none => scanInterfaces d dd cdecs rest

/-- The loop of lines 16-46: `i` is the configuration index and `n` the
number of indices still to visit (`dd.NumConfigurations - i`).  The second
component is the log of calls made on the device. -/
def scanConfigs (d : usb.Device) (dd : usb.DeviceDescriptor) :
    Nat → Nat → Option Device × List usb.Call
  | 0, _ => (none, [])
  | n + 1, i =>
    match d.GetConfigDescriptor i with
    | .error _ => (none, [usb.Call.GetConfigDescriptor i])
    | .ok cdecs =>
      match scanInterfaces d dd cdecs cdecs.Interfaces with
      | some m => (some m, [usb.Call.GetConfigDescriptor i, usb.Call.Ref])
      | none =>
        let r := scanConfigs d dd n (i + 1)
        (r.1, usb.Call.GetConfigDescriptor i :: r.2)

/-- Go: `candidateFromDeviceDescriptor`.  Returns the candidate (`none` is
`nil`) and the log of calls made on the device. -/
def candidateFromDeviceDescriptor (d : usb.Device) : Option Device × List usb.Call :=
  match d.GetDeviceDescriptor with
  | .error _ => (none, [usb.Call.GetDeviceDescriptor])
  | .ok dd =>
    let r := scanConfigs d dd dd.NumConfigurations 0
    (r.1, usb.Call.GetDeviceDescriptor :: r.2)

/-! ## `FindDevices` -/

/-- The loop of lines 59-64: candidates are appended in device-list order. -/
def collect (cands : List Device) : List usb.Device → List Device
  | [] => cands
  | d :: rest =>
    match (candidateFromDeviceDescriptor d).1 with
    | some cand => collect (cands ++ [cand]) rest
    | none => collect cands rest

/-- Go: `FindDevices`.  The pair is Go's `([]*Device, error)`, the nil slice
being the empty list; `none` is a run-time fault.  After the loop the device
list is released with `l.Done()` (line 65), whatever the loop found. -/
def FindDevices (c : usb.Context) : Option (List Device × Option usb.Error) :=
  match c.GetDeviceList with
  | .error err => some ([], some err)
  | .ok l =>
    match usb.DeviceList.Done l with
    | none => none
    | some _ => some (collect [] l, none)

/-! ## The world `selectDevice` runs in -/

/-- Go: `*regexp.Regexp`, seen through the location of the leftmost match
(`FindStringIndex`): `none` when the expression has no match in the string,
otherwise the start and end of the match, counted in characters. -/
structure Regexp where
  FindStringIndex : String → Option (Nat × Nat)

/-- Go: `(*Regexp).FindString`, the text of the leftmost match; the empty
string when there is no match, and also when the match is empty. -/
def Regexp.FindString (re : Regexp) (s : String) : String :=
  match re.FindStringIndex s with
  | none => ""
  | some (a, b) => String.mk ((s.data.drop a).take (b - a))

/-- Go: `(*Regexp).MatchString`, whether the string contains any match. -/
def Regexp.MatchString (re : Regexp) (s : String) : Bool :=
  (re.FindStringIndex s).isSome

/-- The calls `selectDevice` makes on candidates and on the terminal, with
what they answered. -/
inductive Event where
  | Open (cand : Device) (ok : Bool)
  | ID (cand : Device) (ok : Bool)
  | Close (cand : Device)
  | Done (cand : Device)
  | GetConfiguration (cand : Device) (config : Option Nat)
  | SetConfiguration (cand : Device) (config : Nat) (ok : Bool)
  | Print (text : String)
  | Scanf (stored : Option Int)
  deriving DecidableEq, Repr

/-- Everything outside `select.go` that `selectDevice` calls.  Each answer may
depend on the calls made so far (the log) and on the candidate.  An error is
its message; `none` in `Open` and `SetConfiguration` is the nil error.
`Scanf` is the integer the read stores into `deviceSelection`, `none` when it
stores nothing. -/
structure World where
  Compile : String → Except String Regexp
  Open : List Event → Device → Option String
  ID : List Event → Device → Except String String
  GetConfiguration : List Event → Device → Except String Nat
  SetConfiguration : List Event → Device → Nat → Option String
  Scanf : List Event → Option Int

/-- The errors `selectDevice` returns. -/
inductive SelectError where
  | compile (err : String)
  | noDevices
  | id (i : Nat) (err : String)
  | noMatch
  | getConfiguration (ident : String) (err : String)
  | setConfiguration (ident : String) (err : String)
  deriving DecidableEq, Repr

/-- The message of each error, as `fmt.Errorf` builds it. -/
def SelectError.Error : SelectError → String
  | .compile err => err
  | .noDevices => "no MTP devices found"
  | .id i err => "Id dev " ++ toString i ++ ": " ++ err
  | .noMatch => "no device matched"
  | .getConfiguration ident err => "could not get configuration of " ++ ident ++ ": " ++ err
  | .setConfiguration ident err => "could not set configuration of " ++ ident ++ ": " ++ err

/-- How a call of `selectDevice` ends: with a candidate and a nil error, with
an error and a nil candidate, or with a run-time fault (index out of
range). -/
inductive Outcome where
  | ok (cand : Device)
  | error (err : SelectError)
  | fault
  deriving DecidableEq, Repr

/-! ## `selectDevice` -/

/-- Go: `s[k]` for a slice `s` and an `int` `k`; `none` is the index out of
range fault. -/
def index {α : Type} (s : List α) (k : Int) : Option α :=
  if k < 0 then none else s[k.toNat]?

/-- The open pass, lines 78-84: `found` collects the candidates that open. -/
def openPass (w : World) : List Event → List Device → List Device → List Device × List Event
  | tr, found, [] => (found, tr)
  | tr, found, cand :: rest =>
    match w.Open tr cand with
    | some _ => openPass w (tr ++ [Event.Open cand false]) found rest
    | none => openPass w (tr ++ [Event.Open cand true]) (found ++ [cand]) rest

/-- The identity and filter pass, lines 94-108: `i` is the loop index, `found`
and `ids` the two slices being built. -/
def filterPass (w : World) (pattern : String) (re : Regexp) :
    List Event → Nat → List Device → List String → List Device →
      Except SelectError (List Device × List String) × List Event
  | tr, _, found, ids, [] => (.ok (found, ids), tr)
  | tr, i, found, ids, cand :: rest =>
    match w.ID tr cand with
    | .error err => (.error (SelectError.id i err), tr ++ [Event.ID cand false, Event.Close cand])
    | .ok id =>
      if pattern = "" ∨ re.FindString id ≠ "" then
        filterPass w pattern re (tr ++ [Event.ID cand true]) (i + 1)
          (found ++ [cand]) (ids ++ [id]) rest
      else
        filterPass w pattern re (tr ++ [Event.ID cand true, Event.Close cand, Event.Done cand])
          (i + 1) found ids rest

/-- The loop of lines 116-118: one numbered line per identity. -/
def listing : Nat → List String → List Event
  | _, [] => []
  | i, id :: rest => Event.Print (toString i ++ ". " ++ id ++ "\n") :: listing (i + 1) rest

/-- The prompt of lines 115-120; returns the value of `deviceSelection` after
the read (it was 0 before). -/
def prompt (w : World) (tr : List Event) (ids : List String) : Int × List Event :=
  let tr1 := tr ++ ([Event.Print "More than 1 device found!\n"] ++ listing 0 ids ++
    [Event.Print "Enter the device no : "])
  ((w.Scanf tr1).getD 0, tr1 ++ [Event.Scanf (w.Scanf tr1)])

/-- Lines 122-135: pick `found[deviceSelection]` and bring its configuration
to the declared value. -/
def reconcile (w : World) (tr : List Event) (found : List Device) (ids : List String)
    (deviceSelection : Int) : Outcome × List Event :=
  match index found deviceSelection with
  | none => (Outcome.fault, tr)
  | some cand =>
    match w.GetConfiguration tr cand with
    | .error err =>
      match index ids deviceSelection with
      | none => (Outcome.fault, tr ++ [Event.GetConfiguration cand none])
      | some id =>
        (Outcome.error (SelectError.getConfiguration id err),
          tr ++ [Event.GetConfiguration cand none])
    | .ok config =>
      if config ≠ cand.configValue then
        match w.SetConfiguration (tr ++ [Event.GetConfiguration cand (some config)]) cand
            cand.configValue with
        | some err =>
          match index ids deviceSelection with
          | none =>
            (Outcome.fault, tr ++ [Event.GetConfiguration cand (some config),
              Event.SetConfiguration cand cand.configValue false])
          | some id =>
            (Outcome.error (SelectError.setConfiguration id err),
              tr ++ [Event.GetConfiguration cand (some config),
                Event.SetConfiguration cand cand.configValue false])
        | none =>
          (Outcome.ok cand, tr ++ [Event.GetConfiguration cand (some config),
            Event.SetConfiguration cand cand.configValue true])
      else (Outcome.ok cand, tr ++ [Event.GetConfiguration cand (some config)])

/-- Lines 110-135, after the filter pass. -/
def choose (w : World) (tr : List Event) (found : List Device) (ids : List String) :
    Outcome × List Event :=
  if found.length = 0 then (Outcome.error SelectError.noMatch, tr)
  else if found.length > 1 then
    reconcile w (prompt w tr ids).2 found ids (prompt w tr ids).1
  else reconcile w tr found ids 0

/-- Go: `selectDevice`.  Returns how the call ends and the log of the calls it
made. -/
def selectDevice (w : World) (cands : List Device) (pattern : String) : Outcome × List Event :=
  match w.Compile pattern with
  | .error err => (Outcome.error (SelectError.compile err), [])
  | .ok re =>
    match openPass w [] [] cands with
    | (found, tr) =>
      if found.length = 0 then (Outcome.error SelectError.noDevices, tr)
      else
        match filterPass w pattern re tr 0 [] [] found with
        | (.error err, tr2) => (Outcome.error err, tr2)
        | (.ok (found2, ids), tr2) => choose w tr2 found2 ids

/-! ## Vocabulary of the properties -/

/-- An interrupt-in endpoint. -/
def isInterruptIn (e : usb.EndpointDescriptor) : Prop :=
  e.Direction = usb.ENDPOINT_IN ∧ e.TransferType = usb.TRANSFER_TYPE_INTERRUPT

/-- A bulk-in endpoint. -/
def isBulkIn (e : usb.EndpointDescriptor) : Prop :=
  e.Direction = usb.ENDPOINT_IN ∧ e.TransferType = usb.TRANSFER_TYPE_BULK

/-- A bulk-out endpoint. -/
def isBulkOut (e : usb.EndpointDescriptor) : Prop :=
  e.Direction = usb.ENDPOINT_OUT ∧ e.TransferType = usb.TRANSFER_TYPE_BULK

instance : DecidablePred isInterruptIn := fun e => by unfold isInterruptIn; infer_instance
instance : DecidablePred isBulkIn := fun e => by unfold isBulkIn; infer_instance
instance : DecidablePred isBulkOut := fun e => by unfold isBulkOut; infer_instance

/-- Exactly three endpoints: one interrupt-in, one bulk-in and one bulk-out,
in any of the six orders. -/
def ThreeRoles (a : usb.InterfaceDescriptor) : Prop :=
  ∃ e f s, a.EndPoints.Perm [e, f, s] ∧ isInterruptIn e ∧ isBulkIn f ∧ isBulkOut s

/-- The endpoints cover the three roles. -/
def CoversRoles (a : usb.InterfaceDescriptor) : Prop :=
  (∃ e ∈ a.EndPoints, isInterruptIn e) ∧ (∃ f ∈ a.EndPoints, isBulkIn f) ∧
    (∃ s ∈ a.EndPoints, isBulkOut s)

instance : DecidablePred CoversRoles := fun a => by unfold CoversRoles; infer_instance

/-- The three-endpoint shape with a bulk-out address other than zero. -/
def Qualifies (a : usb.InterfaceDescriptor) : Prop :=
  ∃ e f s, a.EndPoints.Perm [e, f, s] ∧ isInterruptIn e ∧ isBulkIn f ∧ isBulkOut s ∧
    0 < s.EndpointAddress

/-- The test of lines 23 and 37 on one alternate setting. -/
def passes (a : usb.InterfaceDescriptor) : Prop :=
  a.EndPoints.length = 3 ∧
    0 < (scanEndPoints {} a.EndPoints).sendEP ∧ 0 < (scanEndPoints {} a.EndPoints).fetchEP ∧
      0 < (scanEndPoints {} a.EndPoints).eventEP

instance : DecidablePred passes := fun a => by unfold passes; infer_instance

/-- The record built at lines 38-41 for alternate setting `a` of configuration
`cdecs`. -/
def candidateOf (d : usb.Device) (dd : usb.DeviceDescriptor) (cdecs : usb.ConfigDescriptor)
    (a : usb.InterfaceDescriptor) : Device :=
  { scanEndPoints {} a.EndPoints with
    devDescr := dd
    ifaceDescr := a
    dev := some d.ptr
    configValue := cdecs.ConfigurationValue }

/-- A write to or a read from the terminal. -/
def Event.isTerminal : Event → Bool
  | Event.Print _ => true
  | Event.Scanf _ => true
  | _ => false

/-- An interactive read. -/
def Event.isScanf : Event → Bool
  | Event.Scanf _ => true
  | _ => false

/-- The terminal traffic of a log: what was printed and read, in order. -/
def terminal (tr : List Event) : List Event :=
  tr.filter Event.isTerminal

/-- The test of line 101: the candidate with identity `ident` is kept. -/
def keeps (pattern : String) (re : Regexp) (ident : String) : Prop :=
  pattern = "" ∨ re.FindString ident ≠ ""

instance (pattern : String) (re : Regexp) : DecidablePred (keeps pattern re) :=
  fun ident => by unfold keeps; infer_instance

/-- One step of following the handle of `d` through a log: a successful
`Open` opens it, a `Close` closes it. -/
def openStep (d : Device) (st : Bool) (ev : Event) : Bool :=
  if ev = Event.Open d true then true
  else if ev = Event.Close d then false
  else st

/-- Whether `d` is in the opened state after the calls of the log. -/
def isOpen (tr : List Event) (d : Device) : Bool :=
  tr.foldl (openStep d) false

/-- One step of following the active configuration of `d` through a log: a
successful query tells it, and a successful set-configuration call makes the
given value active. -/
def configStep (d : Device) (st : Option Nat) (ev : Event) : Option Nat :=
  match ev with
  | Event.GetConfiguration c (some v) => if c = d then some v else st
  | Event.SetConfiguration c v true => if c = d then some v else st
  | _ => st

/-- The active configuration of `d` after the calls of the log, as far as the
log tells it. -/
def activeConfiguration (tr : List Event) (d : Device) : Option Nat :=
  tr.foldl (configStep d) none

/-- A set-configuration call. -/
def Event.isSetConfiguration : Event → Bool
  | Event.SetConfiguration _ _ _ => true
  | _ => false

/-- A configuration query or a set-configuration call. -/
def Event.isConfigCall : Event → Bool
  | Event.GetConfiguration _ _ => true
  | Event.SetConfiguration _ _ _ => true
  | _ => false

/-- The calls of the filter pass for one candidate whose identity is
`p.2`: the identity query, followed by `Close` and `Done` when the candidate
is not kept. -/
def filterEvents (pattern : String) (re : Regexp) (p : Device × String) : List Event :=
  if keeps pattern re p.2 then [Event.ID p.1 true]
  else [Event.ID p.1 true, Event.Close p.1, Event.Done p.1]

/-- The candidates that opened, in discovery order, `oks` being the answers of
the `Open` calls (`true` for success), one per candidate. -/
def opened (cands : List Device) (oks : List Bool) : List Device :=
  ((cands.zip oks).filter (fun p => p.2)).map (fun p => p.1)

/-- The opened candidates that pass the test of the filter, each with its
identity, in discovery order, `all` being the identities computed, one per
opened candidate. -/
def keptPairs (pattern : String) (re : Regexp) (found : List Device) (all : List String) :
    List (Device × String) :=
  (found.zip all).filter (fun p => keeps pattern re p.2)

/-- The configuration calls of a run `r` (result and log) over the candidates
`found`: none, and no candidate returned; one failed query, and the
configuration error returned; one query that finds the declared value, and
the candidate returned; one query that finds another value followed by one
set-configuration call with the declared value, which succeeds, and the
candidate returned, or which fails, and the configuration error returned. -/
def ConfigShape (found : List Device) (r : Outcome × List Event) : Prop :=
  (r.2.filter Event.isConfigCall = [] ∧ ∀ c, r.1 ≠ Outcome.ok c) ∨
  (∃ c ident e, c ∈ found ∧ r.2.filter Event.isConfigCall = [Event.GetConfiguration c none] ∧
    r.1 = Outcome.error (SelectError.getConfiguration ident e)) ∨
  (∃ c, c ∈ found ∧
    r.2.filter Event.isConfigCall = [Event.GetConfiguration c (some c.configValue)] ∧
    r.1 = Outcome.ok c) ∨
  (∃ c config, c ∈ found ∧ config ≠ c.configValue ∧
    r.2.filter Event.isConfigCall =
      [Event.GetConfiguration c (some config), Event.SetConfiguration c c.configValue true] ∧
    r.1 = Outcome.ok c) ∨
  (∃ c ident config e, c ∈ found ∧ config ≠ c.configValue ∧
    r.2.filter Event.isConfigCall =
      [Event.GetConfiguration c (some config), Event.SetConfiguration c c.configValue false] ∧
    r.1 = Outcome.error (SelectError.setConfiguration ident e))

/-! ## Sample descriptors and devices -/

/-- An interrupt-in endpoint, address `0x83`. -/
def epEvent : usb.EndpointDescriptor := ⟨0x83, 3⟩
/-- A bulk-in endpoint, address `0x81`. -/
def epFetch : usb.EndpointDescriptor := ⟨0x81, 2⟩
/-- A bulk-out endpoint, address `0x02`. -/
def epSend : usb.EndpointDescriptor := ⟨0x02, 2⟩
/-- A bulk-out endpoint whose address byte is zero. -/
def epSendZero : usb.EndpointDescriptor := ⟨0x00, 2⟩
/-- A bulk-in endpoint that repeats the address of `epTwinEvent`. -/
def epTwinFetch : usb.EndpointDescriptor := ⟨0x81, 2⟩
/-- An interrupt-in endpoint, address `0x81`. -/
def epTwinEvent : usb.EndpointDescriptor := ⟨0x81, 3⟩

/-- The three endpoints of an MTP interface, bulk endpoints first. -/
def altMTP : usb.InterfaceDescriptor := ⟨0, 0, [epFetch, epSend, epEvent]⟩
/-- The same three endpoints in another order, as alternate setting 1. -/
def altMTP1 : usb.InterfaceDescriptor := ⟨0, 1, [epEvent, epFetch, epSend]⟩
/-- A second interface with the three endpoints. -/
def altMTP2 : usb.InterfaceDescriptor := ⟨1, 0, [epSend, epEvent, epFetch]⟩
/-- A mass-storage style alternate setting: two bulk endpoints. -/
def altStorage : usb.InterfaceDescriptor := ⟨0, 0, [epFetch, epSend]⟩
/-- Three endpoints of the three roles, the bulk-out address being zero. -/
def altZeroOut : usb.InterfaceDescriptor := ⟨0, 0, [epEvent, epFetch, epSendZero]⟩
/-- Three endpoints of the three roles, two of them with the same address. -/
def altTwin : usb.InterfaceDescriptor := ⟨0, 0, [epTwinEvent, epTwinFetch, epSend]⟩

/-- Three bulk endpoints: three endpoints, no interrupt-in among them. -/
def altThreeBulk : usb.InterfaceDescriptor := ⟨0, 1, [epFetch, epSend, ⟨0x84, 2⟩]⟩

/-- A device at address `ptr` all of whose descriptors can be retrieved:
`configs` are its configurations, by index. -/
def deviceWith (ptr : Nat) (configs : List usb.ConfigDescriptor) : usb.Device where
  ptr := ptr
  GetDeviceDescriptor := .ok ⟨0x18d1, 0x4ee1, configs.length⟩
  GetConfigDescriptor := fun i =>
    match configs[i]? with
    | some c => .ok c
    | none => .error (-2)

/-- One configuration, value 1, one interface, one alternate setting. -/
def deviceOf (ptr : Nat) (a : usb.InterfaceDescriptor) : usb.Device :=
  deviceWith ptr [⟨1, [⟨[a]⟩]⟩]

/-- A device with two interfaces: the first has a storage setting and an MTP
setting, the second an MTP setting. -/
def deviceTwoHits : usb.Device :=
  deviceWith 7 [⟨1, [⟨[altStorage, altMTP1]⟩, ⟨[altMTP2]⟩]⟩]

/-- A device with a two-endpoint setting and a three-bulk-endpoint setting. -/
def deviceNoRoles : usb.Device :=
  deviceWith 3 [⟨1, [⟨[altStorage, altThreeBulk]⟩]⟩]

/-- A device declaring two configurations; the descriptor of the first cannot
be retrieved, the second holds an MTP interface. -/
def deviceBrokenConfig : usb.Device where
  ptr := 9
  GetDeviceDescriptor := .ok ⟨0x18d1, 0x4ee1, 2⟩
  GetConfigDescriptor := fun i => if i = 1 then .ok ⟨2, [⟨[altMTP]⟩]⟩ else .error (-1)

/-- A device whose device descriptor cannot be retrieved. -/
def deviceNoDescriptor : usb.Device where
  ptr := 11
  GetDeviceDescriptor := .error (-4)
  GetConfigDescriptor := fun _ => .ok ⟨1, [⟨[altMTP]⟩]⟩

/-- A transport context with three attached devices, the second of which has
an MTP interface under configuration 1, interface 0, alternate setting 0. -/
def contextThree : usb.Context where
  GetDeviceList := .ok [deviceOf 1 altStorage, deviceOf 2 altMTP, deviceNoRoles]

/-- A transport context with no device attached: the enumeration succeeds and
the list is empty. -/
def contextEmpty : usb.Context where
  GetDeviceList := .ok []

/-- A transport context whose device list cannot be enumerated. -/
def contextBroken : usb.Context where
  GetDeviceList := .error (-99)

/-! ## A sample world -/

/-- One item of a pattern of the sample: a literal character, or a literal
character under `*`. -/
inductive Item where
  | lit (c : Char)
  | star (c : Char)
  deriving DecidableEq, Repr

/-- The characters with a special meaning in a regular expression. -/
def isMeta (c : Char) : Bool :=
  "\\.+*?()|[]\x7b\x7d^$".data.contains c

/-- One step of reading a pattern from the left; `acc` holds the items read
so far, the last one first.  A `*` turns the last literal into a repetition;
with nothing before it, or after another `*`, it is the error Go reports.  Any
other character with a special meaning is outside the sample. -/
def parseStep (acc : Except String (List Item)) (c : Char) : Except String (List Item) :=
  match acc with
  | .error err => .error err
  | .ok items =>
    if c = '*' then
      match items with
      | [] => .error "error parsing regexp: missing argument to repetition operator: `*`"
      | Item.lit x :: rest => .ok (Item.star x :: rest)
      | Item.star _ :: _ =>
        .error "error parsing regexp: invalid nested repetition operator: `**`"
    else if isMeta c then .error "pattern outside the sample"
    else .ok (Item.lit c :: items)

/-- Reads a pattern made of literal characters, each optionally followed by
`*`. -/
def parseItems (cs : List Char) : Except String (List Item) :=
  match cs.foldl parseStep (.ok []) with
  | .ok items => .ok items.reverse
  | .error err => .error err

/-- Greedy repetition of `c` followed by the continuation `k`: the longest run
of `c` after which `k` matches. -/
def starHere (c : Char) (k : List Char → Option Nat) : List Char → Option Nat
  | [] => k []
  | x :: xs =>
    if x = c then
      match starHere c k xs with
      | some n => some (n + 1)
      | none => k (x :: xs)
    else k (x :: xs)

/-- The length of the match of the items at the start of the text, if any. -/
def matchHere : List Item → List Char → Option Nat
  | [], _ => some 0
  | Item.lit c :: rest, cs =>
    match cs with
    | [] => none
    | x :: xs =>
      if x = c then
        match matchHere rest xs with
        | some n => some (n + 1)
        | none => none
      else none
  | Item.star c :: rest, cs => starHere c (matchHere rest) cs

/-- The leftmost match of the items in the text, `pos` being the number of
characters already skipped. -/
def search (items : List Item) : List Char → Nat → Option (Nat × Nat)
  | [], pos =>
    match matchHere items [] with
    | some n => some (pos, pos + n)
    | none => none
  | x :: xs, pos =>
    match matchHere items (x :: xs) with
    | some n => some (pos, pos + n)
    | none => search items xs (pos + 1)

/-- The compile function of the sample worlds.  It is not the whole of
`regexp.Compile`: on a pattern made of literal characters, each optionally
followed by `*`, it gives the expression Go gives, with Go's leftmost match
and greedy repetition, and on a `*` that has nothing to repeat it gives Go's
error; every other pattern (`^`, `a?`, `Vendor.*`, ...) is outside the sample
and is answered with an error of the sample's own, although Go compiles many
of them.  The properties that hold for every world do not depend on it. -/
def compileSample (pattern : String) : Except String Regexp :=
  match parseItems pattern.data with
  | .ok items => .ok ⟨fun s => search items s.data 0⟩
  | .error err => .error err

/-- A world in which every candidate opens, `ident` gives the identities,
`config` the active configurations, every set-configuration call succeeds and
the operator types `input`. -/
def sampleWorld (ident : Device → Except String String) (config : Device → Nat)
    (input : Option Int) : World where
  Compile := compileSample
  Open := fun _ _ => none
  ID := fun _ cand => ident cand
  GetConfiguration := fun _ cand => .ok (config cand)
  SetConfiguration := fun _ _ _ => none
  Scanf := fun _ => input

/-- Two candidates, as `FindDevices` returns them for two MTP devices. -/
def candOne : Device :=
  { dev := some 1, devDescr := ⟨0x18d1, 0x4ee1, 1⟩, ifaceDescr := altMTP, configValue := 1,
    sendEP := 0x02, fetchEP := 0x81, eventEP := 0x83 }

/-- The second candidate. -/
def candTwo : Device :=
  { dev := some 2, devDescr := ⟨0x18d1, 0x4ee1, 1⟩, ifaceDescr := altMTP, configValue := 1,
    sendEP := 0x02, fetchEP := 0x81, eventEP := 0x83 }

/-- The identities of the two candidates. -/
def identTwo (cand : Device) : Except String String :=
  if cand = candOne then .ok "Vendor:0x1 Bus:1"
  else if cand = candTwo then .ok "Vendor:2 Bus:2"
  else .error "device not open"

/-- A world in which `opens` tells which candidates open, `ident` gives the
identities, `config` answers the configuration query, `setOk` tells whether
set-configuration calls succeed, and the operator types `input`. -/
def faultyWorld (opens : Device → Bool) (ident : Device → Except String String)
    (config : Device → Except String Nat) (setOk : Bool) (input : Option Int) : World where
  Compile := compileSample
  Open := fun _ cand => if opens cand then none else some "LIBUSB_ERROR_ACCESS"
  ID := fun _ cand => ident cand
  GetConfiguration := fun _ cand => config cand
  SetConfiguration := fun _ _ _ => if setOk then none else some "LIBUSB_ERROR_BUSY"
  Scanf := fun _ => input

/-- Identities of the two candidates when the second cannot be identified. -/
def identFirstOnly (cand : Device) : Except String String :=
  if cand = candOne then .ok "Vendor:0x1 Bus:1" else .error "LIBUSB_ERROR_IO"

/-! ## Properties of the endpoint classification -/

theorem isInterruptIn_not_bulkIn {e : usb.EndpointDescriptor} (h : isInterruptIn e) :
    ¬ isBulkIn e := by
  intro h2
  have := h.2.symm.trans h2.2
  simp [usb.TRANSFER_TYPE_INTERRUPT, usb.TRANSFER_TYPE_BULK] at this

theorem isInterruptIn_not_bulkOut {e : usb.EndpointDescriptor} (h : isInterruptIn e) :
    ¬ isBulkOut e := by
  intro h2
  have := h.2.symm.trans h2.2
  simp [usb.TRANSFER_TYPE_INTERRUPT, usb.TRANSFER_TYPE_BULK] at this

theorem isBulkIn_not_bulkOut {e : usb.EndpointDescriptor} (h : isBulkIn e) :
    ¬ isBulkOut e := by
  intro h2
  have := h.1.symm.trans h2.1
  simp [usb.ENDPOINT_IN, usb.ENDPOINT_OUT] at this

theorem classify_event {m : Device} {s : usb.EndpointDescriptor} (h : isInterruptIn s) :
    classify m s = { m with eventEP := s.EndpointAddress } := by
  unfold isInterruptIn at h
  unfold classify
  rw [if_pos h]

theorem classify_fetch {m : Device} {s : usb.EndpointDescriptor} (h : isBulkIn s) :
    classify m s = { m with fetchEP := s.EndpointAddress } := by
  have h1 : ¬ isInterruptIn s := fun h0 => isInterruptIn_not_bulkIn h0 h
  unfold isInterruptIn at h1
  unfold isBulkIn at h
  unfold classify
  rw [if_neg h1, if_pos h]

theorem classify_send {m : Device} {s : usb.EndpointDescriptor} (h : isBulkOut s) :
    classify m s = { m with sendEP := s.EndpointAddress } := by
  have h1 : ¬ isInterruptIn s := fun h0 => isInterruptIn_not_bulkOut h0 h
  have h2 : ¬ isBulkIn s := fun h0 => isBulkIn_not_bulkOut h0 h
  unfold isInterruptIn at h1
  unfold isBulkIn at h2
  unfold isBulkOut at h
  unfold classify
  rw [if_neg h1, if_neg h2, if_pos h]

theorem classify_other {m : Device} {s : usb.EndpointDescriptor} (h1 : ¬ isInterruptIn s)
    (h2 : ¬ isBulkIn s) (h3 : ¬ isBulkOut s) : classify m s = m := by
  unfold isInterruptIn at h1
  unfold isBulkIn at h2
  unfold isBulkOut at h3
  unfold classify
  rw [if_neg h1, if_neg h2, if_neg h3]

theorem role_cases (s : usb.EndpointDescriptor) :
    isInterruptIn s ∨ isBulkIn s ∨ isBulkOut s ∨
      (¬ isInterruptIn s ∧ ¬ isBulkIn s ∧ ¬ isBulkOut s) := by
  by_cases h1 : isInterruptIn s
  · exact Or.inl h1
  by_cases h2 : isBulkIn s
  · exact Or.inr (Or.inl h2)
  by_cases h3 : isBulkOut s
  · exact Or.inr (Or.inr (Or.inl h3))
  exact Or.inr (Or.inr (Or.inr ⟨h1, h2, h3⟩))

/-- If scanning three endpoints fills all three slots, the endpoints are one
interrupt-in, one bulk-in and one bulk-out, and the slots hold their
addresses. -/
theorem scan_three_filled (x y z : usb.EndpointDescriptor)
    (h : 0 < (scanEndPoints {} [x, y, z]).sendEP ∧ 0 < (scanEndPoints {} [x, y, z]).fetchEP ∧
      0 < (scanEndPoints {} [x, y, z]).eventEP) :
    ∃ e f s, [x, y, z].Perm [e, f, s] ∧ isInterruptIn e ∧ isBulkIn f ∧ isBulkOut s ∧
      (scanEndPoints {} [x, y, z]).eventEP = e.EndpointAddress ∧
      (scanEndPoints {} [x, y, z]).fetchEP = f.EndpointAddress ∧
      (scanEndPoints {} [x, y, z]).sendEP = s.EndpointAddress := by
  rcases role_cases x with hx | hx | hx | hx <;>
  rcases role_cases y with hy | hy | hy | hy <;>
  rcases role_cases z with hz | hz | hz | hz <;>
  simp only [scanEndPoints, classify_event, classify_fetch, classify_send,
    classify_other, hx, hy, hz, not_false_eq_true, lt_irrefl, false_and, and_false] at h ⊢ <;>
  first
  | exact ⟨x, y, z, List.Perm.refl _, hx, hy, hz, rfl, rfl, rfl⟩
  | exact ⟨x, z, y, (List.Perm.swap z y []).cons x, hx, hz, hy, rfl, rfl, rfl⟩
  | exact ⟨y, x, z, List.Perm.swap y x [z], hy, hx, hz, rfl, rfl, rfl⟩
  | exact ⟨z, x, y, ((List.Perm.swap z y []).cons x).trans (List.Perm.swap z x [y]),
      hz, hx, hy, rfl, rfl, rfl⟩
  | exact ⟨y, z, x, (List.Perm.swap y x [z]).trans ((List.Perm.swap z x []).cons y),
      hy, hz, hx, rfl, rfl, rfl⟩
  | exact ⟨z, y, x, ((List.Perm.swap y x [z]).trans ((List.Perm.swap z x []).cons y)).trans
      (List.Perm.swap z y [x]), hz, hy, hx, rfl, rfl, rfl⟩

/-- Three endpoints that are one of each role fill the slots with their
addresses, whatever their order. -/
theorem scan_three_roles (x y z e f s : usb.EndpointDescriptor)
    (he : e ∈ [x, y, z]) (hf : f ∈ [x, y, z]) (hs : s ∈ [x, y, z])
    (hE : isInterruptIn e) (hF : isBulkIn f) (hS : isBulkOut s) :
    (scanEndPoints {} [x, y, z]).eventEP = e.EndpointAddress ∧
      (scanEndPoints {} [x, y, z]).fetchEP = f.EndpointAddress ∧
      (scanEndPoints {} [x, y, z]).sendEP = s.EndpointAddress := by
  simp only [List.mem_cons, List.mem_singleton, List.not_mem_nil, or_false] at he hf hs
  rcases he with rfl | rfl | rfl <;> rcases hf with rfl | rfl | rfl <;>
  rcases hs with rfl | rfl | rfl <;>
  first
  | exact absurd hF (isInterruptIn_not_bulkIn hE)
  | exact absurd hS (isInterruptIn_not_bulkOut hE)
  | exact absurd hS (isBulkIn_not_bulkOut hF)
  | simp [scanEndPoints, classify_event hE, classify_fetch hF, classify_send hS]

theorem in_address_pos {e : usb.EndpointDescriptor} (h : e.Direction = usb.ENDPOINT_IN) :
    0 < e.EndpointAddress := by
  rcases Nat.eq_zero_or_pos e.EndpointAddress with h0 | h0
  · simp [usb.EndpointDescriptor.Direction, h0, usb.ENDPOINT_IN] at h
  · exact h0

theorem in_out_address_ne {e s : usb.EndpointDescriptor} (he : e.Direction = usb.ENDPOINT_IN)
    (hs : s.Direction = usb.ENDPOINT_OUT) : s.EndpointAddress ≠ e.EndpointAddress := by
  intro h
  unfold usb.EndpointDescriptor.Direction at he hs
  rw [h, he] at hs
  simp [usb.ENDPOINT_IN, usb.ENDPOINT_OUT] at hs

/-- What the test of lines 23 and 37 means for the endpoints. -/
theorem passes_elim {a : usb.InterfaceDescriptor} (h : passes a) :
    ∃ e f s, a.EndPoints.Perm [e, f, s] ∧ isInterruptIn e ∧ isBulkIn f ∧ isBulkOut s ∧
      (scanEndPoints {} a.EndPoints).eventEP = e.EndpointAddress ∧
      (scanEndPoints {} a.EndPoints).fetchEP = f.EndpointAddress ∧
      (scanEndPoints {} a.EndPoints).sendEP = s.EndpointAddress ∧ 0 < s.EndpointAddress := by
  obtain ⟨hlen, hpos⟩ := h
  obtain ⟨x, y, z, hl⟩ := List.length_eq_three.mp hlen
  rw [hl] at hpos ⊢
  obtain ⟨e, f, s, hp, hE, hF, hS, h1, h2, h3⟩ := scan_three_filled x y z hpos
  exact ⟨e, f, s, hp, hE, hF, hS, h1, h2, h3, h3 ▸ hpos.1⟩

theorem passes_of_roles {a : usb.InterfaceDescriptor} {e f s : usb.EndpointDescriptor}
    (hlen : a.EndPoints.length = 3) (he : e ∈ a.EndPoints) (hf : f ∈ a.EndPoints)
    (hs : s ∈ a.EndPoints) (hE : isInterruptIn e) (hF : isBulkIn f) (hS : isBulkOut s)
    (hpos : 0 < s.EndpointAddress) : passes a := by
  obtain ⟨x, y, z, hl⟩ := List.length_eq_three.mp hlen
  rw [hl] at he hf hs
  obtain ⟨h1, h2, h3⟩ := scan_three_roles x y z e f s he hf hs hE hF hS
  refine ⟨hlen, ?_, ?_, ?_⟩
  · rw [hl, h3]; exact hpos
  · rw [hl, h2]; exact in_address_pos hF.1
  · rw [hl, h1]; exact in_address_pos hE.1

theorem passes_iff_qualifies (a : usb.InterfaceDescriptor) : passes a ↔ Qualifies a := by
  constructor
  · intro h
    obtain ⟨e, f, s, hp, hE, hF, hS, _, _, _, hpos⟩ := passes_elim h
    exact ⟨e, f, s, hp, hE, hF, hS, hpos⟩
  · rintro ⟨e, f, s, hp, hE, hF, hS, hpos⟩
    have hlen : a.EndPoints.length = 3 := by simpa using hp.length_eq
    exact passes_of_roles hlen (hp.mem_iff.mpr (by simp)) (hp.mem_iff.mpr (by simp))
      (hp.mem_iff.mpr (by simp)) hE hF hS hpos

/-! ## Properties of the traversal loops -/

theorem scanAltSettings_cons_pass (d : usb.Device) (dd : usb.DeviceDescriptor)
    (c : usb.ConfigDescriptor) (a : usb.InterfaceDescriptor) (rest : List usb.InterfaceDescriptor)
    (h : passes a) : scanAltSettings d dd c (a :: rest) = some (candidateOf d dd c a) := by
  obtain ⟨hlen, hpos⟩ := h
  simp only [scanAltSettings, hlen, ne_eq, not_true_eq_false, if_false, gt_iff_lt]
  rw [if_pos hpos]
  rfl

theorem scanAltSettings_cons_fail (d : usb.Device) (dd : usb.DeviceDescriptor)
    (c : usb.ConfigDescriptor) (a : usb.InterfaceDescriptor) (rest : List usb.InterfaceDescriptor)
    (h : ¬ passes a) : scanAltSettings d dd c (a :: rest) = scanAltSettings d dd c rest := by
  unfold passes at h
  by_cases hlen : a.EndPoints.length = 3
  · have hpos := fun hp => h ⟨hlen, hp⟩
    simp only [scanAltSettings, hlen, ne_eq, not_true_eq_false, if_false, gt_iff_lt]
    rw [if_neg hpos]
  · simp only [scanAltSettings, ne_eq, hlen, not_false_eq_true, if_true]

theorem scanAltSettings_none (d : usb.Device) (dd : usb.DeviceDescriptor)
    (c : usb.ConfigDescriptor) (l : List usb.InterfaceDescriptor)
    (h : ∀ a ∈ l, ¬ passes a) : scanAltSettings d dd c l = none := by
  induction l with
  | nil => rfl
  | cons a rest ih =>
    rw [scanAltSettings_cons_fail d dd c a rest (h a (List.mem_cons_self a rest))]
    exact ih (fun b hb => h b (List.mem_cons_of_mem a hb))

theorem scanAltSettings_some (d : usb.Device) (dd : usb.DeviceDescriptor)
    (c : usb.ConfigDescriptor) (l : List usb.InterfaceDescriptor) (m : Device)
    (h : scanAltSettings d dd c l = some m) :
    ∃ a ∈ l, passes a ∧ m = candidateOf d dd c a := by
  induction l with
  | nil => simp [scanAltSettings] at h
  | cons a rest ih =>
    by_cases hp : passes a
    · rw [scanAltSettings_cons_pass d dd c a rest hp] at h
      exact ⟨a, List.mem_cons_self a rest, hp, (Option.some.inj h).symm⟩
    · rw [scanAltSettings_cons_fail d dd c a rest hp] at h
      obtain ⟨b, hb, hpb, hm⟩ := ih h
      exact ⟨b, List.mem_cons_of_mem a hb, hpb, hm⟩

/-- The alternate setting at the least passing index is the one returned. -/
theorem scanAltSettings_first (d : usb.Device) (dd : usb.DeviceDescriptor)
    (c : usb.ConfigDescriptor) (l : List usb.InterfaceDescriptor) (k : Nat)
    (a : usb.InterfaceDescriptor) (hk : l[k]? = some a) (hp : passes a)
    (hfirst : ∀ k2 b, k2 < k → l[k2]? = some b → ¬ passes b) :
    scanAltSettings d dd c l = some (candidateOf d dd c a) := by
  induction l generalizing k with
  | nil => simp at hk
  | cons x rest ih =>
    cases k with
    | zero =>
      simp only [List.getElem?_cons_zero, Option.some.injEq] at hk
      subst hk
      exact scanAltSettings_cons_pass d dd c x rest hp
    | succ k =>
      rw [scanAltSettings_cons_fail d dd c x rest (hfirst 0 x (Nat.succ_pos k) (by simp))]
      simp only [List.getElem?_cons_succ] at hk
      exact ih k hk (fun k2 b h2 hb => hfirst (k2 + 1) b (Nat.succ_lt_succ h2) (by simpa using hb))

theorem scanInterfaces_none (d : usb.Device) (dd : usb.DeviceDescriptor)
    (c : usb.ConfigDescriptor) (l : List usb.Interface)
    (h : ∀ iface ∈ l, scanAltSettings d dd c iface.AltSetting = none) :
    scanInterfaces d dd c l = none := by
  induction l with
  | nil => rfl
  | cons x rest ih =>
    simp only [scanInterfaces, h x (List.mem_cons_self x rest)]
    exact ih (fun y hy => h y (List.mem_cons_of_mem x hy))

theorem scanInterfaces_some (d : usb.Device) (dd : usb.DeviceDescriptor)
    (c : usb.ConfigDescriptor) (l : List usb.Interface) (m : Device)
    (h : scanInterfaces d dd c l = some m) :
    ∃ iface ∈ l, scanAltSettings d dd c iface.AltSetting = some m := by
  induction l with
  | nil => simp [scanInterfaces] at h
  | cons x rest ih =>
    cases hx : scanAltSettings d dd c x.AltSetting with
    | some m2 =>
      simp only [scanInterfaces, hx, Option.some.injEq] at h
      exact ⟨x, List.mem_cons_self x rest, by rw [hx, h]⟩
    | none =>
      simp only [scanInterfaces, hx] at h
      obtain ⟨y, hy, hm⟩ := ih h
      exact ⟨y, List.mem_cons_of_mem x hy, hm⟩

/-- The interface at the least index with a hit decides the result. -/
theorem scanInterfaces_first (d : usb.Device) (dd : usb.DeviceDescriptor)
    (c : usb.ConfigDescriptor) (l : List usb.Interface) (j : Nat) (iface : usb.Interface)
    (m : Device) (hj : l[j]? = some iface)
    (hm : scanAltSettings d dd c iface.AltSetting = some m)
    (hfirst : ∀ j2 y, j2 < j → l[j2]? = some y → scanAltSettings d dd c y.AltSetting = none) :
    scanInterfaces d dd c l = some m := by
  induction l generalizing j with
  | nil => simp at hj
  | cons x rest ih =>
    cases j with
    | zero =>
      simp only [List.getElem?_cons_zero, Option.some.injEq] at hj
      subst hj
      simp only [scanInterfaces, hm]
    | succ j =>
      simp only [scanInterfaces, hfirst 0 x (Nat.succ_pos j) (by simp)]
      simp only [List.getElem?_cons_succ] at hj
      exact ih j hj (fun j2 y h2 hy => hfirst (j2 + 1) y (Nat.succ_lt_succ h2) (by simpa using hy))

/-- A hit of the configuration loop comes from a configuration whose index
lies in the visited range and whose descriptor was retrieved. -/
theorem scanConfigs_some (d : usb.Device) (dd : usb.DeviceDescriptor) (n i0 : Nat) (m : Device)
    (h : (scanConfigs d dd n i0).1 = some m) :
    ∃ i c, i0 ≤ i ∧ i < i0 + n ∧ d.GetConfigDescriptor i = .ok c ∧
      scanInterfaces d dd c c.Interfaces = some m := by
  induction n generalizing i0 with
  | zero => simp [scanConfigs] at h
  | succ n ih =>
    unfold scanConfigs at h
    cases hc : d.GetConfigDescriptor i0 with
    | error e => simp [hc] at h
    | ok c =>
      cases hs : scanInterfaces d dd c c.Interfaces with
      | some m2 =>
        simp only [hc, hs, Option.some.injEq] at h
        exact ⟨i0, c, le_refl _, by omega, hc, by rw [hs, h]⟩
      | none =>
        simp only [hc, hs] at h
        obtain ⟨i, c2, h1, h2, h3, h4⟩ := ih (i0 + 1) h
        exact ⟨i, c2, by omega, by omega, h3, h4⟩

/-- The configuration at the least index with a hit decides the result, and
the log shows the descriptor queries for the indices up to it, one each, then
the reference taken. -/
theorem scanConfigs_first (d : usb.Device) (dd : usb.DeviceDescriptor) (n i0 i : Nat)
    (c : usb.ConfigDescriptor) (m : Device) (h0 : i0 ≤ i) (hn : i < i0 + n)
    (hc : d.GetConfigDescriptor i = .ok c) (hm : scanInterfaces d dd c c.Interfaces = some m)
    (hfirst : ∀ i2, i0 ≤ i2 → i2 < i → ∃ c2, d.GetConfigDescriptor i2 = .ok c2 ∧
      scanInterfaces d dd c2 c2.Interfaces = none) :
    scanConfigs d dd n i0 =
      (some m, (List.range' i0 (i + 1 - i0)).map usb.Call.GetConfigDescriptor ++ [usb.Call.Ref]) := by
  induction n generalizing i0 with
  | zero => omega
  | succ n ih =>
    unfold scanConfigs
    rcases Nat.eq_or_lt_of_le h0 with heq | hlt
    · subst heq
      simp [hc, hm]
    · obtain ⟨c2, hc2, hs2⟩ := hfirst i0 (le_refl _) hlt
      simp only [hc2, hs2]
      rw [ih (i0 + 1) hlt (by omega) (fun i2 h1 h2 => hfirst i2 (by omega) h2)]
      have : i + 1 - i0 = (i + 1 - (i0 + 1)) + 1 := by omega
      rw [this, List.range'_succ]
      simp

/-- A failed retrieval before any hit ends the loop without a candidate and
without a reference taken. -/
theorem scanConfigs_error (d : usb.Device) (dd : usb.DeviceDescriptor) (n i0 i : Nat)
    (e : usb.Error) (h0 : i0 ≤ i) (hn : i < i0 + n)
    (hc : d.GetConfigDescriptor i = .error e)
    (hfirst : ∀ i2, i0 ≤ i2 → i2 < i → ∃ c2, d.GetConfigDescriptor i2 = .ok c2 ∧
      scanInterfaces d dd c2 c2.Interfaces = none) :
    scanConfigs d dd n i0 =
      (none, (List.range' i0 (i + 1 - i0)).map usb.Call.GetConfigDescriptor) := by
  induction n generalizing i0 with
  | zero => omega
  | succ n ih =>
    unfold scanConfigs
    rcases Nat.eq_or_lt_of_le h0 with heq | hlt
    · subst heq
      simp [hc]
    · obtain ⟨c2, hc2, hs2⟩ := hfirst i0 (le_refl _) hlt
      simp only [hc2, hs2]
      rw [ih (i0 + 1) hlt (by omega) (fun i2 h1 h2 => hfirst i2 (by omega) h2)]
      have : i + 1 - i0 = (i + 1 - (i0 + 1)) + 1 := by omega
      rw [this, List.range'_succ]
      simp

theorem scanAltSettings_none_elim (d : usb.Device) (dd : usb.DeviceDescriptor)
    (c : usb.ConfigDescriptor) (l : List usb.InterfaceDescriptor)
    (h : scanAltSettings d dd c l = none) : ∀ a ∈ l, ¬ passes a := by
  induction l with
  | nil => intro a ha; simp at ha
  | cons x rest ih =>
    by_cases hp : passes x
    · rw [scanAltSettings_cons_pass d dd c x rest hp] at h
      simp at h
    · rw [scanAltSettings_cons_fail d dd c x rest hp] at h
      intro a ha
      rcases List.mem_cons.mp ha with rfl | ha2
      · exact hp
      · exact ih h a ha2

theorem scanInterfaces_none_elim (d : usb.Device) (dd : usb.DeviceDescriptor)
    (c : usb.ConfigDescriptor) (l : List usb.Interface)
    (h : scanInterfaces d dd c l = none) :
    ∀ iface ∈ l, scanAltSettings d dd c iface.AltSetting = none := by
  induction l with
  | nil => intro a ha; simp at ha
  | cons x rest ih =>
    cases hx : scanAltSettings d dd c x.AltSetting with
    | some m2 => simp [scanInterfaces, hx] at h
    | none =>
      simp only [scanInterfaces, hx] at h
      intro y hy
      rcases List.mem_cons.mp hy with rfl | hy2
      · exact hx
      · exact ih h y hy2

/-- A configuration none of whose alternate settings passes the test gives no
candidate. -/
theorem scanInterfaces_none_of_not_passes (d : usb.Device) (dd : usb.DeviceDescriptor)
    (c : usb.ConfigDescriptor)
    (h : ∀ iface ∈ c.Interfaces, ∀ a ∈ iface.AltSetting, ¬ passes a) :
    scanInterfaces d dd c c.Interfaces = none :=
  scanInterfaces_none d dd c c.Interfaces
    (fun iface hi => scanAltSettings_none d dd c iface.AltSetting (h iface hi))

/-- A candidate returned for a device was built from an alternate setting of
one of its retrieved configurations that passes the test. -/
theorem candidate_sound (d : usb.Device) (m : Device)
    (h : (candidateFromDeviceDescriptor d).1 = some m) :
    ∃ dd i c iface a, d.GetDeviceDescriptor = .ok dd ∧ i < dd.NumConfigurations ∧
      d.GetConfigDescriptor i = .ok c ∧ iface ∈ c.Interfaces ∧ a ∈ iface.AltSetting ∧
      passes a ∧ m = candidateOf d dd c a := by
  unfold candidateFromDeviceDescriptor at h
  cases hdd : d.GetDeviceDescriptor with
  | error e => simp [hdd] at h
  | ok dd =>
    simp only [hdd] at h
    obtain ⟨i, c, _, hi, hc, hs⟩ := scanConfigs_some d dd dd.NumConfigurations 0 m h
    obtain ⟨iface, hif, ha⟩ := scanInterfaces_some d dd c c.Interfaces m hs
    obtain ⟨a, hmem, hp, hm⟩ := scanAltSettings_some d dd c iface.AltSetting m ha
    exact ⟨dd, i, c, iface, a, rfl, by omega, hc, hif, hmem, hp, hm⟩

/-- The first passing alternate setting in (configuration, interface,
alternate setting) order is the one returned, and the log is the device
descriptor query, the configuration queries for indices `0..i`, and the
reference. -/
theorem candidate_first (d : usb.Device) (dd : usb.DeviceDescriptor) (i j k : Nat)
    (c : usb.ConfigDescriptor) (iface : usb.Interface) (a : usb.InterfaceDescriptor)
    (hdd : d.GetDeviceDescriptor = .ok dd) (hi : i < dd.NumConfigurations)
    (hret : ∀ i2, i2 < i → ∃ c2, d.GetConfigDescriptor i2 = .ok c2)
    (hc : d.GetConfigDescriptor i = .ok c) (hj : c.Interfaces[j]? = some iface)
    (hk : iface.AltSetting[k]? = some a) (hp : passes a)
    (hfirst : ∀ i2 j2 k2 c2 iface2 a2, d.GetConfigDescriptor i2 = .ok c2 →
      c2.Interfaces[j2]? = some iface2 → iface2.AltSetting[k2]? = some a2 →
      (i2 < i ∨ (i2 = i ∧ (j2 < j ∨ (j2 = j ∧ k2 < k)))) → ¬ passes a2) :
    candidateFromDeviceDescriptor d =
      (some (candidateOf d dd c a),
        usb.Call.GetDeviceDescriptor ::
          ((List.range (i + 1)).map usb.Call.GetConfigDescriptor ++ [usb.Call.Ref])) := by
  have halt : scanAltSettings d dd c iface.AltSetting = some (candidateOf d dd c a) :=
    scanAltSettings_first d dd c iface.AltSetting k a hk hp
      (fun k2 b h2 hb => hfirst i j k2 c iface b hc hj hb (Or.inr ⟨rfl, Or.inr ⟨rfl, h2⟩⟩))
  have hifc : scanInterfaces d dd c c.Interfaces = some (candidateOf d dd c a) :=
    scanInterfaces_first d dd c c.Interfaces j iface _ hj halt
      (fun j2 y h2 hy => scanAltSettings_none d dd c y.AltSetting (fun b hb => by
        obtain ⟨k2, hk2⟩ := List.mem_iff_getElem?.mp hb
        exact hfirst i j2 k2 c y b hc hy hk2 (Or.inr ⟨rfl, Or.inl h2⟩)))
  have hcfg := scanConfigs_first d dd dd.NumConfigurations 0 i c _ (Nat.zero_le i)
    (by omega) hc hifc (fun i2 _ h2 => by
      obtain ⟨c2, hc2⟩ := hret i2 h2
      refine ⟨c2, hc2, scanInterfaces_none_of_not_passes d dd c2 (fun y hy b hb => ?_)⟩
      obtain ⟨j2, hj2⟩ := List.mem_iff_getElem?.mp hy
      obtain ⟨k2, hk2⟩ := List.mem_iff_getElem?.mp hb
      exact hfirst i2 j2 k2 c2 y b hc2 hj2 hk2 (Or.inl h2))
  unfold candidateFromDeviceDescriptor
  simp only [hdd, hcfg, Nat.sub_zero, List.range_eq_range']

/-- Some candidate is returned as soon as one retrieved configuration, with
every configuration before it retrieved, has a passing alternate setting. -/
theorem candidate_exists (d : usb.Device) (dd : usb.DeviceDescriptor) (i : Nat)
    (c : usb.ConfigDescriptor) (iface : usb.Interface) (a : usb.InterfaceDescriptor)
    (hdd : d.GetDeviceDescriptor = .ok dd) (hi : i < dd.NumConfigurations)
    (hret : ∀ i2, i2 < i → ∃ c2, d.GetConfigDescriptor i2 = .ok c2)
    (hc : d.GetConfigDescriptor i = .ok c) (hif : iface ∈ c.Interfaces)
    (ha : a ∈ iface.AltSetting) (hp : passes a) :
    ∃ m, (candidateFromDeviceDescriptor d).1 = some m := by
  classical
  let P : Nat → Prop := fun i2 =>
    ∃ c2, d.GetConfigDescriptor i2 = .ok c2 ∧ scanInterfaces d dd c2 c2.Interfaces ≠ none
  have hPi : P i := by
    refine ⟨c, hc, fun hnone => ?_⟩
    exact scanAltSettings_none_elim d dd c iface.AltSetting
      (scanInterfaces_none_elim d dd c c.Interfaces hnone iface hif) a ha hp
  have hex : ∃ i2, P i2 := ⟨i, hPi⟩
  obtain ⟨c1, hc1, hs1⟩ := Nat.find_spec hex
  have hle : Nat.find hex ≤ i := Nat.find_min' hex hPi
  obtain ⟨m, hm⟩ := Option.ne_none_iff_exists'.mp hs1
  have hcfg := scanConfigs_first d dd dd.NumConfigurations 0 (Nat.find hex) c1 m
    (Nat.zero_le _) (by omega) hc1 hm (fun i2 _ h2 => by
      obtain ⟨c2, hc2⟩ := hret i2 (by omega)
      refine ⟨c2, hc2, ?_⟩
      by_contra hne
      exact Nat.find_min hex h2 ⟨c2, hc2, hne⟩)
  refine ⟨m, ?_⟩
  unfold candidateFromDeviceDescriptor
  simp only [hdd, hcfg]

/-- A failed configuration retrieval with no passing alternate setting in the
configurations retrieved before it gives no candidate, and the log holds
only descriptor queries. -/
theorem candidate_error (d : usb.Device) (dd : usb.DeviceDescriptor) (i : Nat) (e : usb.Error)
    (hdd : d.GetDeviceDescriptor = .ok dd) (hi : i < dd.NumConfigurations)
    (hc : d.GetConfigDescriptor i = .error e)
    (hbefore : ∀ i2 c2, i2 < i → d.GetConfigDescriptor i2 = .ok c2 →
      ∀ iface ∈ c2.Interfaces, ∀ a ∈ iface.AltSetting, ¬ passes a) :
    ∃ i1, i1 ≤ i ∧ candidateFromDeviceDescriptor d =
      (none, usb.Call.GetDeviceDescriptor ::
        (List.range (i1 + 1)).map usb.Call.GetConfigDescriptor) := by
  classical
  let P : Nat → Prop := fun i2 => ∃ e2, d.GetConfigDescriptor i2 = .error e2
  have hex : ∃ i2, P i2 := ⟨i, e, hc⟩
  obtain ⟨e1, he1⟩ := Nat.find_spec hex
  have hle : Nat.find hex ≤ i := Nat.find_min' hex ⟨e, hc⟩
  have hcfg := scanConfigs_error d dd dd.NumConfigurations 0 (Nat.find hex) e1
    (Nat.zero_le _) (by omega) he1 (fun i2 _ h2 => by
      cases hc2 : d.GetConfigDescriptor i2 with
      | error e2 => exact absurd ⟨e2, hc2⟩ (Nat.find_min hex h2)
      | ok c2 =>
        exact ⟨c2, rfl, scanInterfaces_none_of_not_passes d dd c2
          (hbefore i2 c2 (by omega) hc2)⟩)
  refine ⟨Nat.find hex, hle, ?_⟩
  unfold candidateFromDeviceDescriptor
  simp only [hdd, hcfg, Nat.sub_zero, List.range_eq_range']

/-! ## The descriptor matcher -/

/-- C1, as amended: if the device descriptor and the configuration
descriptors of indices `0..i` are retrieved, `i` is below the declared
configuration count, and configuration `i` holds an alternate setting whose
endpoints are one interrupt-in, one bulk-in and one bulk-out endpoint (in any
of the six orders) with a bulk-out address other than zero, then
`candidateFromDeviceDescriptor` returns a candidate, and `eventEP`, `fetchEP`,
`sendEP` of that candidate are the addresses of the interrupt-in, bulk-in and
bulk-out endpoint of the alternate setting stored in it. -/
theorem candidate_roles_any_order (d : usb.Device) (dd : usb.DeviceDescriptor) (i : Nat)
    (c : usb.ConfigDescriptor) (iface : usb.Interface) (a : usb.InterfaceDescriptor)
    (e f s : usb.EndpointDescriptor)
    (hdd : d.GetDeviceDescriptor = .ok dd) (hi : i < dd.NumConfigurations)
    (hret : ∀ i2, i2 < i → ∃ c2, d.GetConfigDescriptor i2 = .ok c2)
    (hc : d.GetConfigDescriptor i = .ok c) (hif : iface ∈ c.Interfaces)
    (ha : a ∈ iface.AltSetting) (hperm : a.EndPoints.Perm [e, f, s])
    (hE : isInterruptIn e) (hF : isBulkIn f) (hS : isBulkOut s)
    (hpos : 0 < s.EndpointAddress) :
    ∃ m, (candidateFromDeviceDescriptor d).1 = some m ∧
      ∃ e2 f2 s2, m.ifaceDescr.EndPoints.Perm [e2, f2, s2] ∧
        isInterruptIn e2 ∧ isBulkIn f2 ∧ isBulkOut s2 ∧
        m.eventEP = e2.EndpointAddress ∧ m.fetchEP = f2.EndpointAddress ∧
        m.sendEP = s2.EndpointAddress := by
  have hp : passes a := (passes_iff_qualifies a).mpr ⟨e, f, s, hperm, hE, hF, hS, hpos⟩
  obtain ⟨m, hm⟩ := candidate_exists d dd i c iface a hdd hi hret hc hif ha hp
  obtain ⟨dd2, i2, c2, iface2, a2, _, _, _, _, _, hp2, hm2⟩ := candidate_sound d m hm
  obtain ⟨e2, f2, s2, hperm2, hE2, hF2, hS2, h1, h2, h3, _⟩ := passes_elim hp2
  refine ⟨m, hm, e2, f2, s2, ?_, hE2, hF2, hS2, ?_, ?_, ?_⟩
  · rw [hm2]; exact hperm2
  · rw [hm2]; exact h1
  · rw [hm2]; exact h2
  · rw [hm2]; exact h3

/-- C1, witness: a device whose only alternate setting lists bulk-in, bulk-out
and interrupt-in, in that order. -/
theorem candidate_roles_any_order_witness :
    ∃ m, (candidateFromDeviceDescriptor (deviceOf 5 altMTP)).1 = some m ∧
      ∃ e2 f2 s2, m.ifaceDescr.EndPoints.Perm [e2, f2, s2] ∧
        isInterruptIn e2 ∧ isBulkIn f2 ∧ isBulkOut s2 ∧
        m.eventEP = e2.EndpointAddress ∧ m.fetchEP = f2.EndpointAddress ∧
        m.sendEP = s2.EndpointAddress :=
  candidate_roles_any_order (deviceOf 5 altMTP) ⟨0x18d1, 0x4ee1, 1⟩ 0 ⟨1, [⟨[altMTP]⟩]⟩
    ⟨[altMTP]⟩ altMTP epEvent epFetch epSend rfl (by decide) (fun i2 h => absurd h (by omega))
    rfl (by simp) (by simp)
    (by decide)
    (by decide) (by decide) (by decide) (by decide)

/-- C1, counterexample: every descriptor of the device is retrieved and its
only alternate setting has exactly three endpoints, one interrupt-in, one
bulk-in and one bulk-out, but the address byte of the bulk-out endpoint is
zero; no candidate is returned. -/
theorem candidate_zero_bulk_out_address :
    (deviceOf 5 altZeroOut).GetDeviceDescriptor = .ok ⟨0x18d1, 0x4ee1, 1⟩ ∧
      (deviceOf 5 altZeroOut).GetConfigDescriptor 0 = .ok ⟨1, [⟨[altZeroOut]⟩]⟩ ∧
      altZeroOut.EndPoints = [epEvent, epFetch, epSendZero] ∧
      isInterruptIn epEvent ∧ isBulkIn epFetch ∧ isBulkOut epSendZero ∧
      ThreeRoles altZeroOut ∧
      (candidateFromDeviceDescriptor (deviceOf 5 altZeroOut)).1 = none := by
  refine ⟨rfl, rfl, rfl, by decide, by decide, by decide,
    ⟨epEvent, epFetch, epSendZero, List.Perm.refl _, by decide, by decide, by decide⟩,
    by decide⟩

/-- C2: if every alternate setting of every interface of every configuration
of a device either has an endpoint count other than 3 or has endpoints that
do not cover the three roles interrupt-in, bulk-in and bulk-out, then
`candidateFromDeviceDescriptor` returns no candidate. -/
theorem no_candidate_without_roles (d : usb.Device)
    (h : ∀ i c iface a, d.GetConfigDescriptor i = .ok c → iface ∈ c.Interfaces →
      a ∈ iface.AltSetting → a.EndPoints.length ≠ 3 ∨ ¬ CoversRoles a) :
    (candidateFromDeviceDescriptor d).1 = none := by
  cases hres : (candidateFromDeviceDescriptor d).1 with
  | none => rfl
  | some m =>
    exfalso
    obtain ⟨dd, i, c, iface, a, _, _, hc, hif, ha, hp, _⟩ := candidate_sound d m hres
    obtain ⟨e, f, s, hperm, hE, hF, hS, _⟩ := passes_elim hp
    rcases h i c iface a hc hif ha with hlen | hcov
    · exact hlen hp.1
    · exact hcov ⟨⟨e, hperm.mem_iff.mpr (by simp), hE⟩, ⟨f, hperm.mem_iff.mpr (by simp), hF⟩,
        ⟨s, hperm.mem_iff.mpr (by simp), hS⟩⟩

/-- C2, witness: a device with a two-endpoint alternate setting and an
alternate setting of three bulk endpoints. -/
theorem no_candidate_without_roles_witness :
    (candidateFromDeviceDescriptor deviceNoRoles).1 = none :=
  no_candidate_without_roles deviceNoRoles (by
    intro i c iface a hc hif ha
    cases i with
    | zero =>
      simp only [deviceNoRoles, deviceWith, List.getElem?_cons_zero, Except.ok.injEq] at hc
      subst hc
      simp only [List.mem_singleton] at hif
      subst hif
      simp only [List.mem_cons, List.mem_singleton, List.not_mem_nil, or_false] at ha
      rcases ha with rfl | rfl
      · exact Or.inl (by decide)
      · exact Or.inr (by decide)
    | succ n => simp [deviceNoRoles, deviceWith] at hc)

/-- C3: let the device descriptor and the configuration descriptors of
indices `0..i` be retrieved, `i` below the declared configuration count.  If
the alternate setting at position `(i, j, k)` (configuration index, interface
index, alternate-setting index) qualifies and no alternate setting at a
position that is smaller in lexicographic order does, then
`candidateFromDeviceDescriptor` returns a candidate whose `ifaceDescr` is that
alternate setting and whose `configValue` is the value of configuration `i`;
the configuration descriptors retrieved are those of indices `0..i`, so none
with an index above `i` is retrieved. -/
theorem first_qualifying_wins (d : usb.Device) (dd : usb.DeviceDescriptor) (i j k : Nat)
    (c : usb.ConfigDescriptor) (iface : usb.Interface) (a : usb.InterfaceDescriptor)
    (hdd : d.GetDeviceDescriptor = .ok dd) (hi : i < dd.NumConfigurations)
    (hret : ∀ i2, i2 < i → ∃ c2, d.GetConfigDescriptor i2 = .ok c2)
    (hc : d.GetConfigDescriptor i = .ok c) (hj : c.Interfaces[j]? = some iface)
    (hk : iface.AltSetting[k]? = some a) (hq : Qualifies a)
    (hfirst : ∀ i2 j2 k2 c2 iface2 a2, d.GetConfigDescriptor i2 = .ok c2 →
      c2.Interfaces[j2]? = some iface2 → iface2.AltSetting[k2]? = some a2 →
      (i2 < i ∨ (i2 = i ∧ (j2 < j ∨ (j2 = j ∧ k2 < k)))) → ¬ Qualifies a2) :
    ∃ m, (candidateFromDeviceDescriptor d).1 = some m ∧ m.ifaceDescr = a ∧
      m.configValue = c.ConfigurationValue ∧
      (candidateFromDeviceDescriptor d).2 = usb.Call.GetDeviceDescriptor ::
        ((List.range (i + 1)).map usb.Call.GetConfigDescriptor ++ [usb.Call.Ref]) ∧
      ∀ i2, i < i2 → usb.Call.GetConfigDescriptor i2 ∉ (candidateFromDeviceDescriptor d).2 := by
  have h := candidate_first d dd i j k c iface a hdd hi hret hc hj hk
    ((passes_iff_qualifies a).mpr hq)
    (fun i2 j2 k2 c2 iface2 a2 h1 h2 h3 h4 hp =>
      hfirst i2 j2 k2 c2 iface2 a2 h1 h2 h3 h4 ((passes_iff_qualifies a2).mp hp))
  refine ⟨candidateOf d dd c a, by rw [h], rfl, rfl, by rw [h], ?_⟩
  intro i2 hlt hmem
  rw [h] at hmem
  simp only [List.mem_cons, List.mem_append, List.mem_map, List.mem_range,
    usb.Call.GetConfigDescriptor.injEq, List.mem_singleton, List.not_mem_nil, or_false] at hmem
  rcases hmem with hmem | ⟨x, hx, rfl⟩ | hmem
  · cases hmem
  · omega
  · cases hmem

/-- C3, witness: a device whose first interface has a storage setting followed
by a qualifying setting and whose second interface qualifies too; the setting
at position `(0, 0, 1)` is returned. -/
theorem first_qualifying_wins_witness :
    Qualifies altMTP1 ∧ Qualifies altMTP2 ∧
    ∃ m, (candidateFromDeviceDescriptor deviceTwoHits).1 = some m ∧ m.ifaceDescr = altMTP1 ∧
      m.configValue = 1 ∧
      (candidateFromDeviceDescriptor deviceTwoHits).2 = usb.Call.GetDeviceDescriptor ::
        ((List.range (0 + 1)).map usb.Call.GetConfigDescriptor ++ [usb.Call.Ref]) ∧
      ∀ i2, 0 < i2 →
        usb.Call.GetConfigDescriptor i2 ∉ (candidateFromDeviceDescriptor deviceTwoHits).2 :=
  ⟨⟨epEvent, epFetch, epSend, by decide, by decide, by decide, by decide, by decide⟩,
   ⟨epEvent, epFetch, epSend, by decide, by decide, by decide, by decide, by decide⟩,
   first_qualifying_wins deviceTwoHits ⟨0x18d1, 0x4ee1, 1⟩ 0 0 1
    ⟨1, [⟨[altStorage, altMTP1]⟩, ⟨[altMTP2]⟩]⟩ ⟨[altStorage, altMTP1]⟩ altMTP1 rfl (by decide)
    (fun i2 h => absurd h (by omega)) rfl rfl rfl
    ⟨epEvent, epFetch, epSend, by decide, by decide, by decide, by decide, by decide⟩
    (by
      intro i2 j2 k2 c2 iface2 a2 hc hj hk hlt
      rcases hlt with hlt | ⟨rfl, hlt | ⟨rfl, hlt⟩⟩
      · omega
      · omega
      · have hk0 : k2 = 0 := by omega
        subst hk0
        simp only [deviceTwoHits, deviceWith, List.getElem?_cons_zero, Except.ok.injEq] at hc
        subst hc
        simp only [List.getElem?_cons_zero, Option.some.injEq] at hj
        subst hj
        simp only [List.getElem?_cons_zero, Option.some.injEq] at hk
        subst hk
        rintro ⟨e, f, s, hp, _⟩
        have := hp.length_eq
        simp [altStorage] at this)⟩

/-- C4, as amended: every candidate returned by
`candidateFromDeviceDescriptor` stores in `ifaceDescr` an alternate setting of
a retrieved configuration of the device that has exactly three endpoints, one
interrupt-in, one bulk-in and one bulk-out, and `eventEP`, `fetchEP`, `sendEP`
are the addresses of those three endpoints; each of the three is non-zero;
`sendEP` differs from `eventEP` and from `fetchEP`; and `eventEP` differs from
`fetchEP` whenever the endpoint addresses of the alternate setting are
pairwise distinct. -/
theorem candidate_invariant (d : usb.Device) (m : Device)
    (h : (candidateFromDeviceDescriptor d).1 = some m) :
    m.ifaceDescr.EndPoints.length = 3 ∧
      0 < m.eventEP ∧ 0 < m.fetchEP ∧ 0 < m.sendEP ∧
      m.sendEP ≠ m.eventEP ∧ m.sendEP ≠ m.fetchEP ∧
      (∃ e f s, m.ifaceDescr.EndPoints.Perm [e, f, s] ∧
        isInterruptIn e ∧ isBulkIn f ∧ isBulkOut s ∧
        m.eventEP = e.EndpointAddress ∧ m.fetchEP = f.EndpointAddress ∧
        m.sendEP = s.EndpointAddress) ∧
      ((m.ifaceDescr.EndPoints.map (fun x => x.EndpointAddress)).Nodup →
        m.eventEP ≠ m.fetchEP) ∧
      (∃ i c iface, d.GetConfigDescriptor i = .ok c ∧ iface ∈ c.Interfaces ∧
        m.ifaceDescr ∈ iface.AltSetting) := by
  obtain ⟨dd, i, c, iface, a, _, _, hc, hif, ha, hp, hm⟩ := candidate_sound d m h
  obtain ⟨e, f, s, hperm, hE, hF, hS, h1, h2, h3, hpos⟩ := passes_elim hp
  have hi : m.ifaceDescr = a := by rw [hm]; rfl
  have he : m.eventEP = e.EndpointAddress := by rw [hm]; exact h1
  have hf : m.fetchEP = f.EndpointAddress := by rw [hm]; exact h2
  have hs : m.sendEP = s.EndpointAddress := by rw [hm]; exact h3
  refine ⟨by rw [hi]; exact hp.1, ?_, ?_, ?_, ?_, ?_, ⟨e, f, s, by rw [hi]; exact hperm,
    hE, hF, hS, he, hf, hs⟩, ?_, ⟨i, c, iface, hc, hif, by rw [hi]; exact ha⟩⟩
  · rw [he]; exact in_address_pos hE.1
  · rw [hf]; exact in_address_pos hF.1
  · rw [hs]; exact hpos
  · rw [hs, he]; exact in_out_address_ne hE.1 hS.1
  · rw [hs, hf]; exact in_out_address_ne hF.1 hS.1
  · intro hnd
    rw [hi] at hnd
    have hnd2 : ([e, f, s].map (fun x => x.EndpointAddress)).Nodup :=
      (hperm.map _).nodup_iff.mp hnd
    rw [he, hf]
    simp only [List.map_cons, List.map_nil, List.nodup_cons, List.mem_cons, List.mem_singleton,
      List.not_mem_nil, or_false, not_or] at hnd2
    exact hnd2.1.1

/-- C4, witness: the candidate returned for a device with one MTP interface. -/
theorem candidate_invariant_witness :
    (candidateFromDeviceDescriptor (deviceOf 5 altMTP)).1 = some
        { dev := some 5, devDescr := ⟨0x18d1, 0x4ee1, 1⟩, ifaceDescr := altMTP, configValue := 1,
          sendEP := 0x02, fetchEP := 0x81, eventEP := 0x83 } ∧
      altMTP.EndPoints.length = 3 ∧ (0x02 : Nat) ≠ 0x83 ∧ (0x02 : Nat) ≠ 0x81 :=
  have h := candidate_invariant (deviceOf 5 altMTP)
    { dev := some 5, devDescr := ⟨0x18d1, 0x4ee1, 1⟩, ifaceDescr := altMTP, configValue := 1,
      sendEP := 0x02, fetchEP := 0x81, eventEP := 0x83 } (by decide)
  ⟨by decide, h.1, h.2.2.2.2.1, h.2.2.2.2.2.1⟩

/-- C4, counterexample: an alternate setting whose interrupt-in and bulk-in
endpoints both carry address `0x81` is accepted, and the candidate returned
has `eventEP = fetchEP`. -/
theorem candidate_twin_addresses :
    ∃ m, (candidateFromDeviceDescriptor (deviceOf 5 altTwin)).1 = some m ∧
      m.ifaceDescr = altTwin ∧ m.eventEP = 0x81 ∧ m.fetchEP = 0x81 ∧ m.eventEP = m.fetchEP :=
  ⟨{ dev := some 5, devDescr := ⟨0x18d1, 0x4ee1, 1⟩, ifaceDescr := altTwin, configValue := 1,
     sendEP := 0x02, fetchEP := 0x81, eventEP := 0x81 }, by decide, rfl, rfl, rfl, rfl⟩

/-- C5: if retrieving the device descriptor fails, or retrieving the
configuration descriptor at an index `i` below the declared configuration
count fails while no alternate setting of the configurations retrieved at
indices below `i` qualifies, then `candidateFromDeviceDescriptor` returns no
candidate and takes no reference on the device, whatever the configurations
at indices above `i` contain. -/
theorem retrieval_failure_no_match (d : usb.Device)
    (h : (∃ e, d.GetDeviceDescriptor = .error e) ∨
      (∃ dd i e, d.GetDeviceDescriptor = .ok dd ∧ i < dd.NumConfigurations ∧
        d.GetConfigDescriptor i = .error e ∧
        ∀ i2 c2, i2 < i → d.GetConfigDescriptor i2 = .ok c2 →
          ∀ iface ∈ c2.Interfaces, ∀ a ∈ iface.AltSetting, ¬ Qualifies a)) :
    (candidateFromDeviceDescriptor d).1 = none ∧
      usb.Call.Ref ∉ (candidateFromDeviceDescriptor d).2 := by
  rcases h with ⟨e, he⟩ | ⟨dd, i, e, hdd, hi, hc, hbefore⟩
  · unfold candidateFromDeviceDescriptor
    simp [he]
  · obtain ⟨i1, _, hres⟩ := candidate_error d dd i e hdd hi hc
      (fun i2 c2 h1 h2 iface hif a ha hp =>
        hbefore i2 c2 h1 h2 iface hif a ha ((passes_iff_qualifies a).mp hp))
    rw [hres]
    simp

/-- C5, witness: the descriptor of configuration 0 cannot be retrieved while
configuration 1 holds a qualifying alternate setting; no candidate is returned
and no reference is taken.  The same for a device whose device descriptor
cannot be retrieved. -/
theorem retrieval_failure_no_match_witness :
    deviceBrokenConfig.GetConfigDescriptor 1 = .ok ⟨2, [⟨[altMTP]⟩]⟩ ∧ Qualifies altMTP ∧
      ((candidateFromDeviceDescriptor deviceBrokenConfig).1 = none ∧
        usb.Call.Ref ∉ (candidateFromDeviceDescriptor deviceBrokenConfig).2) ∧
      ((candidateFromDeviceDescriptor deviceNoDescriptor).1 = none ∧
        usb.Call.Ref ∉ (candidateFromDeviceDescriptor deviceNoDescriptor).2) :=
  ⟨rfl, ⟨epEvent, epFetch, epSend, by decide, by decide, by decide, by decide, by decide⟩,
    retrieval_failure_no_match deviceBrokenConfig
      (Or.inr ⟨⟨0x18d1, 0x4ee1, 2⟩, 0, -1, rfl, by decide, rfl,
        fun i2 _ h => absurd h (by omega)⟩),
    retrieval_failure_no_match deviceNoDescriptor (Or.inl ⟨-4, rfl⟩)⟩

/-! ## The candidate lister -/

theorem collect_eq (cands : List Device) (l : List usb.Device) :
    collect cands l = cands ++ l.filterMap (fun d => (candidateFromDeviceDescriptor d).1) := by
  induction l generalizing cands with
  | nil => simp [collect]
  | cons d rest ih =>
    cases hd : (candidateFromDeviceDescriptor d).1 with
    | none => simp only [collect, hd, ih, List.filterMap_cons]
    | some m => simp only [collect, hd, ih, List.filterMap_cons, List.append_assoc,
        List.singleton_append]

theorem candidate_none_of_not_qualifies (d : usb.Device)
    (h : ∀ i c iface a, d.GetConfigDescriptor i = .ok c → iface ∈ c.Interfaces →
      a ∈ iface.AltSetting → ¬ Qualifies a) :
    (candidateFromDeviceDescriptor d).1 = none := by
  cases hres : (candidateFromDeviceDescriptor d).1 with
  | none => rfl
  | some m =>
    obtain ⟨dd, i, c, iface, a, _, _, hc, hif, ha, hp, _⟩ := candidate_sound d m hres
    exact absurd ((passes_iff_qualifies a).mp hp) (h i c iface a hc hif ha)

theorem Done_of_ne_nil (l : List usb.Device) (h : l ≠ []) :
    usb.DeviceList.Done l = some () := by
  cases l with
  | nil => exact absurd rfl h
  | cons d rest => rfl

/-- When the enumeration gives a list that is not empty, `FindDevices` returns
no error and the candidates that `candidateFromDeviceDescriptor` produces for
the attached devices, in device-list order, so that the length of the result
is the number of matching devices. -/
theorem FindDevices_nonempty (c : usb.Context) (l : List usb.Device)
    (hl : c.GetDeviceList = .ok l) (hne : l ≠ []) :
    FindDevices c =
      some (l.filterMap (fun d => (candidateFromDeviceDescriptor d).1), none) ∧
    (l.filterMap (fun d => (candidateFromDeviceDescriptor d).1)).length =
      l.countP (fun d => (candidateFromDeviceDescriptor d).1.isSome) := by
  refine ⟨?_, List.length_filterMap_eq_countP _ l⟩
  unfold FindDevices
  simp only [hl, Done_of_ne_nil l hne, collect_eq, List.nil_append]

/-- When the enumeration fails, `FindDevices` returns that error and the empty
list. -/
theorem FindDevices_error (c : usb.Context) (err : usb.Error)
    (h : c.GetDeviceList = .error err) : FindDevices c = some ([], some err) := by
  unfold FindDevices
  simp only [h]

/-- C6, the code at the failing input: the enumeration succeeds and the device
list is empty.  The claim has `FindDevices` return no error and the empty
candidate list; the code ends with a run-time fault, in the `l.Done()` of line
65, and returns nothing.  For contrast: with three devices attached, one of
them matching, one candidate and no error are returned, and a failed
enumeration returns its error and the empty list. -/
theorem FindDevices_empty_list_faults :
    contextEmpty.GetDeviceList = .ok [] ∧ FindDevices contextEmpty = none ∧
      (∃ m, FindDevices contextThree = some ([m], none)) ∧
      FindDevices contextBroken = some ([], some (-99)) :=
  ⟨rfl, rfl,
    ⟨{ dev := some 2, devDescr := ⟨0x18d1, 0x4ee1, 1⟩, ifaceDescr := altMTP, configValue := 1,
       sendEP := 0x02, fetchEP := 0x81, eventEP := 0x83 }, by decide⟩,
    rfl⟩

/-- C7: a candidate returned by `candidateFromDeviceDescriptor` records the
value of the configuration under which its alternate setting was found, the
device descriptor, that alternate setting, and a reference to the device.  In
particular, with three attached devices of which the first and third have no
qualifying alternate setting and the second has its first qualifying alternate
setting under the configuration of value 1, interface 0, alternate setting 0,
`FindDevices` returns exactly one candidate; it references the second device
and its declared configuration value is 1. -/
theorem candidate_records_configuration :
    (∀ d m, (candidateFromDeviceDescriptor d).1 = some m →
      ∃ dd i c iface, d.GetDeviceDescriptor = .ok dd ∧ i < dd.NumConfigurations ∧
        d.GetConfigDescriptor i = .ok c ∧ iface ∈ c.Interfaces ∧
        m.ifaceDescr ∈ iface.AltSetting ∧ m.configValue = c.ConfigurationValue ∧
        m.devDescr = dd ∧ m.dev = some d.ptr) ∧
    (∀ (ctx : usb.Context) (d1 d2 d3 : usb.Device) (dd : usb.DeviceDescriptor) (i : Nat)
      (c : usb.ConfigDescriptor) (iface : usb.Interface) (a : usb.InterfaceDescriptor),
      ctx.GetDeviceList = .ok [d1, d2, d3] →
      (∀ i1 c1 iface1 a1, d1.GetConfigDescriptor i1 = .ok c1 → iface1 ∈ c1.Interfaces →
        a1 ∈ iface1.AltSetting → ¬ Qualifies a1) →
      (∀ i3 c3 iface3 a3, d3.GetConfigDescriptor i3 = .ok c3 → iface3 ∈ c3.Interfaces →
        a3 ∈ iface3.AltSetting → ¬ Qualifies a3) →
      d2.GetDeviceDescriptor = .ok dd → i < dd.NumConfigurations →
      (∀ i2, i2 < i → ∃ c2, d2.GetConfigDescriptor i2 = .ok c2 ∧
        ∀ iface2 ∈ c2.Interfaces, ∀ a2 ∈ iface2.AltSetting, ¬ Qualifies a2) →
      d2.GetConfigDescriptor i = .ok c → c.ConfigurationValue = 1 →
      c.Interfaces[0]? = some iface → iface.AltSetting[0]? = some a → Qualifies a →
      ∃ m, FindDevices ctx = some ([m], none) ∧ m.dev = some d2.ptr ∧ m.configValue = 1 ∧
        m.ifaceDescr = a ∧ m.devDescr = dd) := by
  constructor
  · intro d m h
    obtain ⟨dd, i, c, iface, a, hdd, hi, hc, hif, ha, _, hm⟩ := candidate_sound d m h
    exact ⟨dd, i, c, iface, hdd, hi, hc, hif, by rw [hm]; exact ha, by rw [hm]; rfl,
      by rw [hm]; rfl, by rw [hm]; rfl⟩
  · intro ctx d1 d2 d3 dd i c iface a hl h1 h3 hdd hi hbefore hc hv hj hk hq
    have e1 := candidate_none_of_not_qualifies d1 h1
    have e3 := candidate_none_of_not_qualifies d3 h3
    have e2 := candidate_first d2 dd i 0 0 c iface a hdd hi
      (fun i2 h2 => (hbefore i2 h2).imp (fun _ h => h.1)) hc hj hk
      ((passes_iff_qualifies a).mpr hq) (by
        intro i2 j2 k2 c2 iface2 a2 hc2 hj2 hk2 hlt hp
        rcases hlt with hlt | ⟨_, hlt | ⟨_, hlt⟩⟩
        · obtain ⟨c2b, hc2b, hno⟩ := hbefore i2 hlt
          rw [hc2] at hc2b
          cases hc2b
          exact hno iface2 (List.mem_iff_getElem?.mpr ⟨j2, hj2⟩) a2
            (List.mem_iff_getElem?.mpr ⟨k2, hk2⟩) ((passes_iff_qualifies a2).mp hp)
        · omega
        · omega)
    refine ⟨candidateOf d2 dd c a, ?_, rfl, hv, rfl, rfl⟩
    unfold FindDevices
    simp only [hl, Done_of_ne_nil [d1, d2, d3] (by simp), collect, e1, e3, e2, List.nil_append]

/-- C7, witness: the three-device context; the candidate returned is the one
of the second device, found under the configuration of value 1. -/
theorem candidate_records_configuration_witness :
    (∃ m, FindDevices contextThree = some ([m], none) ∧ m.dev = some 2 ∧ m.configValue = 1 ∧
      m.ifaceDescr = altMTP ∧ m.devDescr = ⟨0x18d1, 0x4ee1, 1⟩) ∧
    (∃ dd i c iface, (deviceOf 2 altMTP).GetDeviceDescriptor = .ok dd ∧
      i < dd.NumConfigurations ∧ (deviceOf 2 altMTP).GetConfigDescriptor i = .ok c ∧
      iface ∈ c.Interfaces ∧ altMTP ∈ iface.AltSetting ∧ 1 = c.ConfigurationValue ∧
      (⟨0x18d1, 0x4ee1, 1⟩ : usb.DeviceDescriptor) = dd ∧ some 2 = some (deviceOf 2 altMTP).ptr) :=
  ⟨candidate_records_configuration.2 contextThree (deviceOf 1 altStorage) (deviceOf 2 altMTP)
      deviceNoRoles ⟨0x18d1, 0x4ee1, 1⟩ 0 ⟨1, [⟨[altMTP]⟩]⟩ ⟨[altMTP]⟩ altMTP rfl
      (by
        intro i c iface a hc hif ha
        cases i with
        | zero =>
          simp only [deviceOf, deviceWith, List.getElem?_cons_zero, Except.ok.injEq] at hc
          subst hc
          simp only [List.mem_singleton] at hif
          subst hif
          simp only [List.mem_singleton] at ha
          subst ha
          rintro ⟨e, f, s, hp, _⟩
          have := hp.length_eq
          simp [altStorage] at this
        | succ n => simp [deviceOf, deviceWith] at hc)
      (by
        intro i c iface a hc hif ha
        cases i with
        | zero =>
          simp only [deviceNoRoles, deviceWith, List.getElem?_cons_zero, Except.ok.injEq] at hc
          subst hc
          simp only [List.mem_singleton] at hif
          subst hif
          intro hq
          have hp := (passes_iff_qualifies a).mpr hq
          simp only [List.mem_cons, List.mem_singleton, List.not_mem_nil, or_false] at ha
          rcases ha with rfl | rfl
          · exact absurd hp (by decide)
          · exact absurd hp (by decide)
        | succ n => simp [deviceNoRoles, deviceWith] at hc)
      rfl (by decide) (fun i2 h => absurd h (by omega)) rfl rfl rfl rfl
      ⟨epEvent, epFetch, epSend, by decide, by decide, by decide, by decide, by decide⟩,
    candidate_records_configuration.1 (deviceOf 2 altMTP)
      { dev := some 2, devDescr := ⟨0x18d1, 0x4ee1, 1⟩, ifaceDescr := altMTP, configValue := 1,
        sendEP := 0x02, fetchEP := 0x81, eventEP := 0x83 } (by decide)⟩

/-! ## Properties of the passes of `selectDevice` -/

theorem terminal_append (a b : List Event) : terminal (a ++ b) = terminal a ++ terminal b := by
  simp [terminal]

theorem openPass_terminal (w : World) (cands : List Device) (tr : List Event)
    (found : List Device) : terminal (openPass w tr found cands).2 = terminal tr := by
  induction cands generalizing tr found with
  | nil => rfl
  | cons c rest ih =>
    unfold openPass
    cases w.Open tr c with
    | some e => simp only [ih, terminal_append]; simp [terminal, Event.isTerminal]
    | none => simp only [ih, terminal_append]; simp [terminal, Event.isTerminal]

theorem filterPass_terminal (w : World) (pattern : String) (re : Regexp) (cands : List Device)
    (tr : List Event) (i : Nat) (found : List Device) (ids : List String) :
    terminal (filterPass w pattern re tr i found ids cands).2 = terminal tr := by
  induction cands generalizing tr i found ids with
  | nil => rfl
  | cons c rest ih =>
    unfold filterPass
    cases w.ID tr c with
    | error e => simp [terminal, Event.isTerminal]
    | ok ident =>
      by_cases hk : pattern = "" ∨ re.FindString ident ≠ ""
      · simp only [if_pos hk, ih, terminal_append]; simp [terminal, Event.isTerminal]
      · simp only [if_neg hk, ih, terminal_append]; simp [terminal, Event.isTerminal]

theorem reconcile_terminal (w : World) (tr : List Event) (found : List Device)
    (ids : List String) (sel : Int) :
    terminal (reconcile w tr found ids sel).2 = terminal tr := by
  unfold reconcile
  repeat' split
  all_goals simp [terminal, Event.isTerminal]

theorem listing_terminal (i : Nat) (ids : List String) :
    terminal (listing i ids) = listing i ids := by
  induction ids generalizing i with
  | nil => rfl
  | cons x rest ih =>
    have h := ih (i + 1)
    unfold terminal at h ⊢
    simp only [listing, List.filter_cons, Event.isTerminal, if_true, h]

theorem prompt_terminal (w : World) (tr : List Event) (ids : List String) :
    terminal (prompt w tr ids).2 = terminal tr ++
      ([Event.Print "More than 1 device found!\n"] ++ listing 0 ids ++
        [Event.Print "Enter the device no : ",
          Event.Scanf (w.Scanf (tr ++ ([Event.Print "More than 1 device found!\n"] ++
            listing 0 ids ++ [Event.Print "Enter the device no : "])))]) := by
  unfold prompt
  simp only [terminal_append, listing_terminal]
  simp [terminal, Event.isTerminal]

/-- The loop of lines 116-118 numbers the identities from `i` on. -/
theorem listing_eq_enumFrom (i : Nat) (ids : List String) :
    listing i ids =
      (ids.enumFrom i).map (fun p => Event.Print (toString p.1 ++ ". " ++ p.2 ++ "\n")) := by
  induction ids generalizing i with
  | nil => rfl
  | cons x rest ih => simp only [listing, ih, List.enumFrom_cons, List.map_cons]

/-- When every candidate opens, all of them are found, in order. -/
theorem openPass_all_open (w : World) (cands : List Device) (tr : List Event)
    (found : List Device) (hopen : ∀ tr2 c, c ∈ cands → w.Open tr2 c = none) :
    openPass w tr found cands =
      (found ++ cands, tr ++ cands.map (fun c => Event.Open c true)) := by
  induction cands generalizing tr found with
  | nil => simp [openPass]
  | cons c rest ih =>
    unfold openPass
    rw [hopen tr c (List.mem_cons_self c rest)]
    simp only [ih (tr ++ [Event.Open c true]) (found ++ [c])
      (fun tr2 c2 h2 => hopen tr2 c2 (List.mem_cons_of_mem c h2))]
    simp

/-- When every candidate yields an identity that the test of line 101
accepts, all of them are kept, in order, with their identities. -/
theorem filterPass_all_kept (w : World) (pattern : String) (re : Regexp)
    (ident : Device → String) (cands : List Device) (tr : List Event) (i : Nat)
    (found : List Device) (ids : List String)
    (hid : ∀ tr2 c, c ∈ cands → w.ID tr2 c = .ok (ident c))
    (hkeep : ∀ c ∈ cands, keeps pattern re (ident c)) :
    filterPass w pattern re tr i found ids cands =
      (.ok (found ++ cands, ids ++ cands.map ident),
        tr ++ cands.map (fun c => Event.ID c true)) := by
  induction cands generalizing tr i found ids with
  | nil => simp [filterPass]
  | cons c rest ih =>
    unfold filterPass
    rw [hid tr c (List.mem_cons_self c rest)]
    have hk : pattern = "" ∨ re.FindString (ident c) ≠ "" := hkeep c (List.mem_cons_self c rest)
    simp only [if_pos hk]
    rw [ih (tr ++ [Event.ID c true]) (i + 1) (found ++ [c]) (ids ++ [ident c])
      (fun tr2 c2 h2 => hid tr2 c2 (List.mem_cons_of_mem c h2))
      (fun c2 h2 => hkeep c2 (List.mem_cons_of_mem c h2))]
    simp

/-- The filter pass on no candidates keeps none. -/
theorem filterPass_nil (w : World) (pattern : String) (re : Regexp) (tr : List Event) (i : Nat)
    (found : List Device) (ids : List String) :
    filterPass w pattern re tr i found ids [] = (.ok (found, ids), tr) := rfl

/-- The result of `selectDevice` in terms of its passes. -/
theorem selectDevice_of_passes (w : World) (cands : List Device) (pattern : String)
    (re : Regexp) (found : List Device) (tr1 : List Event) (found2 : List Device)
    (ids : List String) (tr2 : List Event)
    (hre : w.Compile pattern = .ok re) (hopen : openPass w [] [] cands = (found, tr1))
    (hne : found ≠ [])
    (hfilter : filterPass w pattern re tr1 0 [] [] found = (.ok (found2, ids), tr2)) :
    selectDevice w cands pattern = choose w tr2 found2 ids := by
  unfold selectDevice
  have hlen : ¬ found.length = 0 := fun h => hne (List.length_eq_zero.mp h)
  simp only [hre, hopen, hfilter, if_neg hlen]

/-- The configuration step returns the chosen candidate when the query
succeeds and the configuration is the declared one or is set without error. -/
theorem reconcile_ok (w : World) (tr : List Event) (found : List Device) (ids : List String)
    (sel : Int) (c : Device) (config : Nat) (hidx : index found sel = some c)
    (hget : w.GetConfiguration tr c = .ok config)
    (hset : config ≠ c.configValue →
      w.SetConfiguration (tr ++ [Event.GetConfiguration c (some config)]) c c.configValue = none) :
    (reconcile w tr found ids sel).1 = Outcome.ok c := by
  unfold reconcile
  simp only [hidx, hget]
  by_cases hcfg : config ≠ c.configValue
  · simp only [if_pos hcfg, hset hcfg]
  · simp only [if_neg hcfg]

/-- With exactly one candidate left after the filter pass there is no prompt:
the candidate goes to the configuration step with index 0. -/
theorem choose_single (w : World) (tr : List Event) (c : Device) (ident : String) :
    choose w tr [c] [ident] = reconcile w tr [c] [ident] 0 := by
  simp [choose]

/-- With exactly one candidate left after the two passes and a configuration
step that succeeds, that candidate is returned and the terminal is not
touched. -/
theorem single_survivor (w : World) (cands : List Device) (pattern : String) (re : Regexp)
    (found : List Device) (tr1 : List Event) (c : Device) (ident : String) (tr2 : List Event)
    (config : Nat) (hre : w.Compile pattern = .ok re)
    (hopen : openPass w [] [] cands = (found, tr1))
    (hfilter : filterPass w pattern re tr1 0 [] [] found = (.ok ([c], [ident]), tr2))
    (hget : w.GetConfiguration tr2 c = .ok config)
    (hset : config ≠ c.configValue →
      w.SetConfiguration (tr2 ++ [Event.GetConfiguration c (some config)]) c c.configValue =
        none) :
    (selectDevice w cands pattern).1 = Outcome.ok c ∧
      terminal (selectDevice w cands pattern).2 = [] := by
  have hne : found ≠ [] := by
    intro h0
    rw [h0, filterPass_nil] at hfilter
    simp at hfilter
  rw [selectDevice_of_passes w cands pattern re found tr1 [c] [ident] tr2 hre hopen hne hfilter,
    choose_single]
  refine ⟨reconcile_ok w tr2 [c] [ident] 0 c config (by simp [index]) hget hset, ?_⟩
  rw [reconcile_terminal]
  have h1 := filterPass_terminal w pattern re found tr1 0 [] []
  have h2 := openPass_terminal w cands [] []
  rw [hfilter] at h1
  rw [hopen] at h2
  simp only at h1 h2
  rw [h1, h2]
  rfl

/-! ## The candidate selector -/

/-- C8, the code at the failing input: the pattern is `x*` and the one
candidate has the identity `Vendor:0x1 Bus:1`.  The expression matches the
identity (the empty text at its start, and it matches the text `x`), yet
`FindString` returns the empty string, so the candidate is closed, released
and excluded, and `selectDevice` ends with "no device matched". -/
theorem filter_drops_empty_leftmost_match :
    (compileSample "x*").toOption.map (fun re => re.MatchString "Vendor:0x1 Bus:1") = some true ∧
    (compileSample "x*").toOption.map (fun re => re.FindString "x") = some "x" ∧
    (compileSample "x*").toOption.map (fun re => re.FindString "Vendor:0x1 Bus:1") = some "" ∧
    selectDevice (sampleWorld identTwo (fun _ => 1) none) [candOne] "x*" =
      (Outcome.error SelectError.noMatch,
        [Event.Open candOne true, Event.ID candOne true, Event.Close candOne,
          Event.Done candOne]) := by
  decide

/-- C9: whenever exactly one candidate remains after the open and filter
passes and its configuration query (and, if the configuration differs, the
set-configuration call) succeeds, `selectDevice` returns that candidate and
nothing is printed or read.  In particular a single candidate with the empty
pattern is returned, and for two candidates with identities
`Vendor:0x1 Bus:1` and `Vendor:2 Bus:2` and pattern `Vendor:2` the second is
returned, with nothing printed or read. -/
theorem single_candidate_no_prompt :
    (∀ (w : World) (cands : List Device) (pattern : String) (re : Regexp)
      (found : List Device) (tr1 : List Event) (c : Device) (ident : String)
      (tr2 : List Event) (config : Nat),
      w.Compile pattern = .ok re → openPass w [] [] cands = (found, tr1) →
      filterPass w pattern re tr1 0 [] [] found = (.ok ([c], [ident]), tr2) →
      w.GetConfiguration tr2 c = .ok config →
      (config ≠ c.configValue →
        w.SetConfiguration (tr2 ++ [Event.GetConfiguration c (some config)]) c c.configValue =
          none) →
      (selectDevice w cands pattern).1 = Outcome.ok c ∧
        terminal (selectDevice w cands pattern).2 = []) ∧
    (∀ (w : World) (c : Device) (re : Regexp) (ident : String) (config : Nat),
      w.Compile "" = .ok re → w.Open [] c = none →
      w.ID [Event.Open c true] c = .ok ident →
      w.GetConfiguration [Event.Open c true, Event.ID c true] c = .ok config →
      (config ≠ c.configValue →
        w.SetConfiguration [Event.Open c true, Event.ID c true,
          Event.GetConfiguration c (some config)] c c.configValue = none) →
      (selectDevice w [c] "").1 = Outcome.ok c ∧ terminal (selectDevice w [c] "").2 = []) ∧
    (∀ (w : World) (c1 c2 : Device) (re : Regexp) (config : Nat),
      w.Compile "Vendor:2" = .ok re →
      re.FindString "Vendor:0x1 Bus:1" = "" → re.FindString "Vendor:2 Bus:2" ≠ "" →
      (∀ tr, w.Open tr c1 = none) → (∀ tr, w.Open tr c2 = none) →
      (∀ tr, w.ID tr c1 = .ok "Vendor:0x1 Bus:1") → (∀ tr, w.ID tr c2 = .ok "Vendor:2 Bus:2") →
      (∀ tr, w.GetConfiguration tr c2 = .ok config) →
      (config ≠ c2.configValue → ∀ tr, w.SetConfiguration tr c2 c2.configValue = none) →
      (selectDevice w [c1, c2] "Vendor:2").1 = Outcome.ok c2 ∧
        terminal (selectDevice w [c1, c2] "Vendor:2").2 = []) := by
  refine ⟨single_survivor, ?_, ?_⟩
  · intro w c re ident config hre hopen hid hget hset
    refine single_survivor w [c] "" re [c] [Event.Open c true] c ident
      [Event.Open c true, Event.ID c true] config hre ?_ ?_ hget hset
    · simp [openPass, hopen]
    · simp [filterPass, hid]
  · intro w c1 c2 re config hre hno hyes ho1 ho2 hi1 hi2 hget hset
    refine single_survivor w [c1, c2] "Vendor:2" re [c1, c2]
      [Event.Open c1 true, Event.Open c2 true] c2 "Vendor:2 Bus:2"
      [Event.Open c1 true, Event.Open c2 true, Event.ID c1 true, Event.Close c1, Event.Done c1,
        Event.ID c2 true] config hre ?_ ?_ (hget _) (fun h => hset h _)
    · simp [openPass, ho1, ho2]
    · have hp : ¬ ("Vendor:2" = "") := by decide
      simp [filterPass, hi1, hi2, hno, hyes, hp]

/-- C9, witness: in the sample world, a single candidate with the empty
pattern, and the two candidates with pattern `Vendor:2`. -/
theorem single_candidate_no_prompt_witness :
    ((selectDevice (sampleWorld identTwo (fun _ => 1) none) [candOne] "").1 = Outcome.ok candOne ∧
      terminal (selectDevice (sampleWorld identTwo (fun _ => 1) none) [candOne] "").2 = []) ∧
    ((selectDevice (sampleWorld identTwo (fun _ => 0) none) [candOne, candTwo] "Vendor:2").1 =
        Outcome.ok candTwo ∧
      terminal (selectDevice (sampleWorld identTwo (fun _ => 0) none) [candOne, candTwo]
        "Vendor:2").2 = []) ∧
    ((selectDevice (sampleWorld identTwo (fun _ => 1) none) [candOne, candTwo] "Vendor:0").1 =
        Outcome.ok candOne ∧
      terminal (selectDevice (sampleWorld identTwo (fun _ => 1) none) [candOne, candTwo]
        "Vendor:0").2 = []) :=
  ⟨single_candidate_no_prompt.2.1 (sampleWorld identTwo (fun _ => 1) none) candOne
      ⟨fun s => search [] s.data 0⟩ "Vendor:0x1 Bus:1" 1 rfl rfl rfl rfl
      (fun h => absurd rfl h),
    single_candidate_no_prompt.2.2 (sampleWorld identTwo (fun _ => 0) none) candOne candTwo
      ⟨fun s => search [Item.lit 'V', Item.lit 'e', Item.lit 'n', Item.lit 'd', Item.lit 'o',
        Item.lit 'r', Item.lit ':', Item.lit '2'] s.data 0⟩ 0 rfl (by decide) (by decide)
      (fun _ => rfl) (fun _ => rfl) (fun _ => rfl) (fun _ => rfl) (fun _ => rfl)
      (fun _ _ => rfl),
    single_candidate_no_prompt.1 (sampleWorld identTwo (fun _ => 1) none) [candOne, candTwo]
      "Vendor:0"
      ⟨fun s => search [Item.lit 'V', Item.lit 'e', Item.lit 'n', Item.lit 'd', Item.lit 'o',
        Item.lit 'r', Item.lit ':', Item.lit '0'] s.data 0⟩ [candOne, candTwo]
      [Event.Open candOne true, Event.Open candTwo true] candOne "Vendor:0x1 Bus:1"
      [Event.Open candOne true, Event.Open candTwo true, Event.ID candOne true,
        Event.ID candTwo true, Event.Close candTwo, Event.Done candTwo] 1 rfl rfl rfl
      rfl (fun h => absurd rfl h)⟩

theorem filter_isScanf_terminal (tr : List Event) :
    tr.filter Event.isScanf = (terminal tr).filter Event.isScanf := by
  induction tr with
  | nil => rfl
  | cons ev rest ih =>
    unfold terminal at ih ⊢
    cases ev <;> simp [List.filter_cons, Event.isScanf, Event.isTerminal, ih]

/-- What the prompt does when every candidate is kept by the filter pass:
given `N > 1` candidates that all open, all yield an identity and all pass the
test of line 101 (the pattern is empty, or `FindString` finds a non-empty text
in the identity), `selectDevice` prints the heading, the identities numbered
`0..N-1` in discovery order and the prompt, performs exactly one interactive
read, and, when the read stores an index `k < N` and the configuration step
for the `k`-th candidate succeeds, returns the `k`-th candidate in discovery
order. -/
theorem prompt_selects_index (w : World) (cands : List Device) (pattern : String)
    (re : Regexp) (ident : Device → String) (k : Nat) (c : Device) (config : Nat)
    (hN : 1 < cands.length) (hre : w.Compile pattern = .ok re)
    (hopen : ∀ tr d, d ∈ cands → w.Open tr d = none)
    (hid : ∀ tr d, d ∈ cands → w.ID tr d = .ok (ident d))
    (hkeep : ∀ d ∈ cands, pattern = "" ∨ re.FindString (ident d) ≠ "")
    (hscan : ∀ tr, w.Scanf tr = some (k : Int)) (hk : cands[k]? = some c)
    (hget : ∀ tr, w.GetConfiguration tr c = .ok config)
    (hset : config ≠ c.configValue → ∀ tr, w.SetConfiguration tr c c.configValue = none) :
    (selectDevice w cands pattern).1 = Outcome.ok c ∧
      terminal (selectDevice w cands pattern).2 =
        [Event.Print "More than 1 device found!\n"] ++
          (cands.map ident).enum.map
            (fun p => Event.Print (toString p.1 ++ ". " ++ p.2 ++ "\n")) ++
          [Event.Print "Enter the device no : ", Event.Scanf (some (k : Int))] ∧
      ((selectDevice w cands pattern).2.filter Event.isScanf).length = 1 := by
  have hne : cands ≠ [] := by
    intro h0
    rw [h0] at hN
    simp at hN
  have ho := openPass_all_open w cands [] [] hopen
  have hf := filterPass_all_kept w pattern re ident cands
    ([] ++ cands.map (fun d => Event.Open d true)) 0 [] [] hid hkeep
  simp only [List.nil_append] at ho hf
  have hsel := selectDevice_of_passes w cands pattern re cands _ cands (cands.map ident) _
    hre ho hne hf
  have hlen0 : ¬ cands.length = 0 := by omega
  have hterm : terminal (selectDevice w cands pattern).2 =
      [Event.Print "More than 1 device found!\n"] ++
        (cands.map ident).enum.map
          (fun p => Event.Print (toString p.1 ++ ". " ++ p.2 ++ "\n")) ++
        [Event.Print "Enter the device no : ", Event.Scanf (some (k : Int))] := by
    rw [hsel]
    unfold choose
    rw [if_neg hlen0, if_pos hN, reconcile_terminal, prompt_terminal, hscan,
      listing_eq_enumFrom]
    have h0 : terminal (cands.map (fun d => Event.Open d true) ++
        cands.map (fun d => Event.ID d true)) = [] := by
      simp [terminal, List.filter_eq_nil_iff, Event.isTerminal]
    rw [h0]
    simp [List.enum]
  refine ⟨?_, hterm, ?_⟩
  · rw [hsel]
    unfold choose
    rw [if_neg hlen0, if_pos hN]
    have hp : (prompt w (cands.map (fun d => Event.Open d true) ++
        cands.map (fun d => Event.ID d true)) (cands.map ident)).1 = (k : Int) := by
      simp [prompt, hscan]
    rw [hp]
    exact reconcile_ok w _ cands (cands.map ident) (k : Int) c config
      (by simp [index, hk]) (hget _) (fun h => hset h _)
  · rw [filter_isScanf_terminal, hterm]
    simp [List.filter_append, List.filter_cons, Event.isScanf, List.filter_map,
      List.filter_eq_nil_iff]

/-- An instance of `prompt_selects_index`: the two sample candidates, the
empty pattern, and the operator typing 1; the second candidate is returned
after one read. -/
theorem prompt_selects_index_witness :
    (selectDevice (sampleWorld identTwo (fun _ => 0) (some 1)) [candOne, candTwo] "").1 =
        Outcome.ok candTwo ∧
      terminal (selectDevice (sampleWorld identTwo (fun _ => 0) (some 1)) [candOne, candTwo]
          "").2 =
        [Event.Print "More than 1 device found!\n", Event.Print "0. Vendor:0x1 Bus:1\n",
          Event.Print "1. Vendor:2 Bus:2\n", Event.Print "Enter the device no : ",
          Event.Scanf (some 1)] ∧
      ((selectDevice (sampleWorld identTwo (fun _ => 0) (some 1)) [candOne, candTwo]
          "").2.filter Event.isScanf).length = 1 :=
  have h := prompt_selects_index (sampleWorld identTwo (fun _ => 0) (some 1)) [candOne, candTwo]
    "" ⟨fun s => search [] s.data 0⟩
    (fun d => if d = candOne then "Vendor:0x1 Bus:1" else "Vendor:2 Bus:2") 1 candTwo 0
    (by decide) rfl (fun _ _ _ => rfl)
    (by
      intro tr d hd
      simp only [List.mem_cons, List.mem_singleton, List.not_mem_nil, or_false] at hd
      rcases hd with rfl | rfl
      · rfl
      · rfl)
    (fun _ _ => Or.inl rfl) (fun _ => rfl) rfl (fun _ => rfl) (fun _ _ => rfl)
  ⟨h.1, by rw [h.2.1]; decide, h.2.2⟩

/-- C10, the code at the failing input: two candidates that open and have the
identities `Vendor:0x1 Bus:1` and `Vendor:2 Bus:2`, and the pattern `x*`,
which matches both identities.  The claim has `selectDevice` list the two
identities, read one index and return the candidate at that index; the code
closes and releases both candidates, prints and reads nothing, and ends with
"no device matched", because `FindString` returns the empty text of the
leftmost match (the defect of C8).  With the empty pattern the same two
candidates are listed and the one at the index read is returned. -/
theorem prompt_skipped_on_empty_match :
    (compileSample "x*").toOption.map (fun re => re.MatchString "Vendor:0x1 Bus:1") =
        some true ∧
    (compileSample "x*").toOption.map (fun re => re.MatchString "Vendor:2 Bus:2") =
        some true ∧
    selectDevice (sampleWorld identTwo (fun _ => 1) (some 1)) [candOne, candTwo] "x*" =
      (Outcome.error SelectError.noMatch,
        [Event.Open candOne true, Event.Open candTwo true, Event.ID candOne true,
          Event.Close candOne, Event.Done candOne, Event.ID candTwo true,
          Event.Close candTwo, Event.Done candTwo]) ∧
    terminal (selectDevice (sampleWorld identTwo (fun _ => 1) (some 1)) [candOne, candTwo]
      "x*").2 = [] ∧
    (selectDevice (sampleWorld identTwo (fun _ => 1) (some 1)) [candOne, candTwo] "").1 =
      Outcome.ok candTwo := by
  decide

/-! ## The shape of the log of each pass -/

/-- The open pass calls `Open` once on every candidate, in order, whatever the
earlier calls answered; `oks` are the answers, and the candidates found are
those that opened, in order. -/
theorem openPass_spec (w : World) (cands : List Device) (tr : List Event)
    (found : List Device) :
    ∃ oks : List Bool, oks.length = cands.length ∧
      openPass w tr found cands =
        (found ++ ((cands.zip oks).filter (fun p => p.2)).map (fun p => p.1),
          tr ++ List.zipWith Event.Open cands oks) := by
  induction cands generalizing tr found with
  | nil => exact ⟨[], rfl, by simp [openPass]⟩
  | cons c rest ih =>
    unfold openPass
    cases w.Open tr c with
    | some e =>
      obtain ⟨oks, hlen, h⟩ := ih (tr ++ [Event.Open c false]) found
      refine ⟨false :: oks, by simp [hlen], ?_⟩
      simp only [h]
      simp
    | none =>
      obtain ⟨oks, hlen, h⟩ := ih (tr ++ [Event.Open c true]) (found ++ [c])
      refine ⟨true :: oks, by simp [hlen], ?_⟩
      simp only [h]
      simp

theorem mem_opened_iff (cands : List Device) (oks : List Bool) (d : Device) :
    d ∈ ((cands.zip oks).filter (fun p => p.2)).map (fun p => p.1) ↔
      Event.Open d true ∈ List.zipWith Event.Open cands oks := by
  induction cands generalizing oks with
  | nil => simp
  | cons c rest ih =>
    cases oks with
    | nil => simp
    | cons b oks =>
      cases b <;> simp [List.filter_cons, ih oks]

theorem opened_sublist (cands : List Device) (oks : List Bool) :
    (((cands.zip oks).filter (fun p => p.2)).map (fun p => p.1)).Sublist cands := by
  induction cands generalizing oks with
  | nil => simp
  | cons c rest ih =>
    cases oks with
    | nil => simp
    | cons b oks =>
      cases b
      · simpa [List.filter_cons] using (ih oks).cons c
      · simpa [List.filter_cons] using (ih oks).cons₂ c

theorem zipWith_Open_events (cands : List Device) (oks : List Bool) :
    ∀ ev ∈ List.zipWith Event.Open cands oks, ∃ c b, c ∈ cands ∧ ev = Event.Open c b := by
  induction cands generalizing oks with
  | nil => simp
  | cons c rest ih =>
    cases oks with
    | nil => simp
    | cons b oks =>
      intro ev hev
      simp only [List.zipWith_cons_cons, List.mem_cons] at hev
      rcases hev with rfl | hev
      · exact ⟨c, b, List.mem_cons_self c rest, rfl⟩
      · obtain ⟨c2, b2, hc2, h2⟩ := ih oks ev hev
        exact ⟨c2, b2, List.mem_cons_of_mem c hc2, h2⟩

/-- The filter pass, when it ends without an identity failure: `all` are the
identities computed, one per candidate, each the answer of `ID` at the time of
its call; the candidates kept and their identities are the pairs that pass the
test of line 101, in order; the log grows by the calls for each pair. -/
theorem filterPass_ok_spec (w : World) (pattern : String) (re : Regexp) (cands : List Device)
    (tr : List Event) (i : Nat) (found : List Device) (ids : List String)
    (found2 : List Device) (ids2 : List String) (tr2 : List Event)
    (h : filterPass w pattern re tr i found ids cands = (.ok (found2, ids2), tr2)) :
    ∃ all : List String, all.length = cands.length ∧
      found2 = found ++
        ((cands.zip all).filter (fun p => keeps pattern re p.2)).map (fun p => p.1) ∧
      ids2 = ids ++
        ((cands.zip all).filter (fun p => keeps pattern re p.2)).map (fun p => p.2) ∧
      tr2 = tr ++ (cands.zip all).flatMap (filterEvents pattern re) ∧
      ∀ j d s, (cands.zip all)[j]? = some (d, s) →
        w.ID (tr ++ ((cands.zip all).take j).flatMap (filterEvents pattern re)) d = .ok s := by
  induction cands generalizing tr i found ids with
  | nil =>
    simp only [filterPass, Prod.mk.injEq, Except.ok.injEq] at h
    obtain ⟨⟨h1, h2⟩, h3⟩ := h
    exact ⟨[], rfl, by simp [h1], by simp [h2], by simp [h3], by simp⟩
  | cons c rest ih =>
    unfold filterPass at h
    cases hID : w.ID tr c with
    | error e => simp [hID] at h
    | ok s =>
      simp only [hID] at h
      by_cases hk : pattern = "" ∨ re.FindString s ≠ ""
      · rw [if_pos hk] at h
        obtain ⟨all, hlen, hf, hi, ht, hp⟩ := ih _ _ _ _ h
        have hk2 : keeps pattern re s := hk
        refine ⟨s :: all, by simp [hlen], ?_, ?_, ?_, ?_⟩
        · simp [hf, List.filter_cons, hk2]
        · simp [hi, List.filter_cons, hk2]
        · simp [ht, filterEvents, hk2]
        · intro j d s2 hj
          cases j with
          | zero =>
            simp only [List.zip_cons_cons, List.getElem?_cons_zero, Option.some.injEq,
              Prod.mk.injEq] at hj
            obtain ⟨rfl, rfl⟩ := hj
            simpa using hID
          | succ j =>
            simp only [List.zip_cons_cons, List.getElem?_cons_succ] at hj
            have := hp j d s2 hj
            simpa [filterEvents, hk2] using this
      · rw [if_neg hk] at h
        obtain ⟨all, hlen, hf, hi, ht, hp⟩ := ih _ _ _ _ h
        have hk2 : ¬ keeps pattern re s := hk
        refine ⟨s :: all, by simp [hlen], ?_, ?_, ?_, ?_⟩
        · simp [hf, List.filter_cons, hk2]
        · simp [hi, List.filter_cons, hk2]
        · simp [ht, filterEvents, hk2]
        · intro j d s2 hj
          cases j with
          | zero =>
            simp only [List.zip_cons_cons, List.getElem?_cons_zero, Option.some.injEq,
              Prod.mk.injEq] at hj
            obtain ⟨rfl, rfl⟩ := hj
            simpa using hID
          | succ j =>
            simp only [List.zip_cons_cons, List.getElem?_cons_succ] at hj
            have := hp j d s2 hj
            simpa [filterEvents, hk2] using this

/-- The filter pass, when it ends with an error: the error is the identity
failure of the candidate `d` at position `i + pre.length`; the candidates
before it had their identities `all` computed, and the log ends with the
failed query and the `Close` of `d`. -/
theorem filterPass_error_spec (w : World) (pattern : String) (re : Regexp)
    (cands : List Device) (tr : List Event) (i : Nat) (found : List Device)
    (ids : List String) (err : SelectError) (tr2 : List Event)
    (h : filterPass w pattern re tr i found ids cands = (.error err, tr2)) :
    ∃ (pre : List Device) (d : Device) (post : List Device) (all : List String) (e : String),
      cands = pre ++ d :: post ∧ all.length = pre.length ∧
      err = SelectError.id (i + pre.length) e ∧
      tr2 = tr ++ (pre.zip all).flatMap (filterEvents pattern re) ++
        [Event.ID d false, Event.Close d] ∧
      w.ID (tr ++ (pre.zip all).flatMap (filterEvents pattern re)) d = .error e := by
  induction cands generalizing tr i found ids with
  | nil => simp [filterPass] at h
  | cons c rest ih =>
    unfold filterPass at h
    cases hID : w.ID tr c with
    | error e =>
      simp only [hID, Prod.mk.injEq, Except.error.injEq] at h
      exact ⟨[], c, rest, [], e, rfl, rfl, by simp [h.1], by simp [h.2], by simpa using hID⟩
    | ok s =>
      simp only [hID] at h
      by_cases hk : pattern = "" ∨ re.FindString s ≠ ""
      · rw [if_pos hk] at h
        obtain ⟨pre, d, post, all, e, hc, hlen, he, ht, hf⟩ := ih _ _ _ _ h
        have hk2 : keeps pattern re s := hk
        refine ⟨c :: pre, d, post, s :: all, e, by simp [hc], by simp [hlen], ?_, ?_, ?_⟩
        · rw [he]; simp; omega
        · simp [ht, filterEvents, hk2]
        · simpa [filterEvents, hk2] using hf
      · rw [if_neg hk] at h
        obtain ⟨pre, d, post, all, e, hc, hlen, he, ht, hf⟩ := ih _ _ _ _ h
        have hk2 : ¬ keeps pattern re s := hk
        refine ⟨c :: pre, d, post, s :: all, e, by simp [hc], by simp [hlen], ?_, ?_, ?_⟩
        · rw [he]; simp; omega
        · simp [ht, filterEvents, hk2]
        · simpa [filterEvents, hk2] using hf

theorem index_some_iff {α : Type} (s : List α) (k : Int) (x : α) :
    index s k = some x ↔ 0 ≤ k ∧ s[k.toNat]? = some x := by
  unfold index
  by_cases hk : k < 0
  · simp only [if_pos hk]
    constructor
    · intro h; cases h
    · intro h; omega
  · simp only [if_neg hk]
    constructor
    · intro h; exact ⟨by omega, h⟩
    · intro h; exact h.2

theorem index_none_iff {α : Type} (s : List α) (k : Int) :
    index s k = none ↔ k < 0 ∨ (s.length : Int) ≤ k := by
  unfold index
  by_cases hk : k < 0
  · simp [hk]
  · simp only [if_neg hk, List.getElem?_eq_none_iff]
    constructor
    · intro h; right; omega
    · intro h; rcases h with h | h <;> omega

theorem index_some_of_length_eq {α β : Type} (s : List α) (t : List β) (k : Int) (x : α)
    (hlen : t.length = s.length) (h : index s k = some x) : ∃ y, index t k = some y := by
  cases ht : index t k with
  | some y => exact ⟨y, rfl⟩
  | none =>
    have h1 := (index_none_iff t k).mp ht
    have h2 : index s k = none := (index_none_iff s k).mpr (by rw [← hlen]; exact h1)
    rw [h2] at h
    cases h

/-- The five ways the configuration step ends when the two slices have the
same length: a fault at the index, a failed query, a configuration that is
already the declared one, a successful set-configuration call, a failed
one. -/
theorem reconcile_cases (w : World) (tr : List Event) (found : List Device) (ids : List String)
    (sel : Int) (hlen : ids.length = found.length) :
    (index found sel = none ∧ reconcile w tr found ids sel = (Outcome.fault, tr)) ∨
    (∃ c ident e, index found sel = some c ∧ index ids sel = some ident ∧
      w.GetConfiguration tr c = .error e ∧
      reconcile w tr found ids sel =
        (Outcome.error (SelectError.getConfiguration ident e),
          tr ++ [Event.GetConfiguration c none])) ∨
    (∃ c, index found sel = some c ∧ w.GetConfiguration tr c = .ok c.configValue ∧
      reconcile w tr found ids sel =
        (Outcome.ok c, tr ++ [Event.GetConfiguration c (some c.configValue)])) ∨
    (∃ c config, index found sel = some c ∧ config ≠ c.configValue ∧
      w.GetConfiguration tr c = .ok config ∧
      w.SetConfiguration (tr ++ [Event.GetConfiguration c (some config)]) c c.configValue =
        none ∧
      reconcile w tr found ids sel =
        (Outcome.ok c, tr ++ [Event.GetConfiguration c (some config),
          Event.SetConfiguration c c.configValue true])) ∨
    (∃ c ident config e, index found sel = some c ∧ index ids sel = some ident ∧
      config ≠ c.configValue ∧ w.GetConfiguration tr c = .ok config ∧
      w.SetConfiguration (tr ++ [Event.GetConfiguration c (some config)]) c c.configValue =
        some e ∧
      reconcile w tr found ids sel =
        (Outcome.error (SelectError.setConfiguration ident e),
          tr ++ [Event.GetConfiguration c (some config),
            Event.SetConfiguration c c.configValue false])) := by
  cases hidx : index found sel with
  | none => exact Or.inl ⟨rfl, by simp [reconcile, hidx]⟩
  | some c =>
    obtain ⟨ident, hident⟩ := index_some_of_length_eq found ids sel c hlen hidx
    right
    cases hget : w.GetConfiguration tr c with
    | error e =>
      exact Or.inl ⟨c, ident, e, rfl, hident, hget, by simp [reconcile, hidx, hget, hident]⟩
    | ok config =>
      right
      by_cases hcfg : config = c.configValue
      · subst hcfg
        exact Or.inl ⟨c, rfl, hget, by simp [reconcile, hidx, hget]⟩
      · right
        cases hset : w.SetConfiguration (tr ++ [Event.GetConfiguration c (some config)]) c
            c.configValue with
        | none =>
          exact Or.inl ⟨c, config, rfl, hcfg, hget, hset,
            by simp [reconcile, hidx, hget, hcfg, hset]⟩
        | some e =>
          exact Or.inr ⟨c, ident, config, e, rfl, hident, hcfg, hget, hset,
            by simp [reconcile, hidx, hget, hcfg, hset, hident]⟩

/-- The three ways the step after the filter pass goes on. -/
theorem choose_cases (w : World) (tr : List Event) (found : List Device) (ids : List String) :
    (found = [] ∧ choose w tr found ids = (Outcome.error SelectError.noMatch, tr)) ∨
    (found.length = 1 ∧ choose w tr found ids = reconcile w tr found ids 0) ∨
    (1 < found.length ∧
      choose w tr found ids = reconcile w (prompt w tr ids).2 found ids (prompt w tr ids).1) := by
  unfold choose
  by_cases h0 : found.length = 0
  · exact Or.inl ⟨List.length_eq_zero.mp h0, by simp [h0]⟩
  · by_cases h1 : found.length > 1
    · exact Or.inr (Or.inr ⟨h1, by simp [h0, h1]⟩)
    · exact Or.inr (Or.inl ⟨by omega, by simp [h0, h1]⟩)

/-- The four ways `selectDevice` runs: the pattern does not compile, no
candidate opens, an identity query fails, or the filter pass completes. -/
theorem selectDevice_cases (w : World) (cands : List Device) (pattern : String) :
    (∃ err, w.Compile pattern = .error err ∧
      selectDevice w cands pattern = (Outcome.error (SelectError.compile err), [])) ∨
    (∃ re tr1, w.Compile pattern = .ok re ∧ openPass w [] [] cands = ([], tr1) ∧
      selectDevice w cands pattern = (Outcome.error SelectError.noDevices, tr1)) ∨
    (∃ re found tr1 err tr2, w.Compile pattern = .ok re ∧
      openPass w [] [] cands = (found, tr1) ∧ found ≠ [] ∧
      filterPass w pattern re tr1 0 [] [] found = (.error err, tr2) ∧
      selectDevice w cands pattern = (Outcome.error err, tr2)) ∨
    (∃ re found tr1 found2 ids tr2, w.Compile pattern = .ok re ∧
      openPass w [] [] cands = (found, tr1) ∧ found ≠ [] ∧
      filterPass w pattern re tr1 0 [] [] found = (.ok (found2, ids), tr2) ∧
      selectDevice w cands pattern = choose w tr2 found2 ids) := by
  cases hre : w.Compile pattern with
  | error err => exact Or.inl ⟨err, rfl, by simp [selectDevice, hre]⟩
  | ok re =>
    right
    cases hopen : openPass w [] [] cands with
    | mk found tr1 =>
      by_cases hne : found = []
      · subst hne
        exact Or.inl ⟨re, tr1, rfl, rfl, by simp [selectDevice, hre, hopen]⟩
      · right
        have hlen : ¬ found.length = 0 := fun h => hne (List.length_eq_zero.mp h)
        cases hfilter : filterPass w pattern re tr1 0 [] [] found with
        | mk res tr2 =>
          cases res with
          | error err =>
            exact Or.inl ⟨re, found, tr1, err, tr2, rfl, rfl, hne, hfilter,
              by simp [selectDevice, hre, hopen, hlen, hfilter]⟩
          | ok pr =>
            obtain ⟨found2, ids⟩ := pr
            exact Or.inr ⟨re, found, tr1, found2, ids, tr2, rfl, rfl, hne, hfilter,
              by simp [selectDevice, hre, hopen, hlen, hfilter]⟩

/-- The ways `selectDevice` runs, with the log of each: the pattern does not
compile; no candidate opens; the identity query of an opened candidate fails;
or every opened candidate yields an identity (`all`), and the run goes on with
the candidates kept and their identities. -/
theorem selectDevice_run (w : World) (cands : List Device) (pattern : String) :
    (∃ err, w.Compile pattern = .error err ∧
      selectDevice w cands pattern = (Outcome.error (SelectError.compile err), [])) ∨
    (∃ re oks, w.Compile pattern = .ok re ∧ oks.length = cands.length ∧
      opened cands oks = [] ∧
      openPass w [] [] cands = ([], List.zipWith Event.Open cands oks) ∧
      selectDevice w cands pattern =
        (Outcome.error SelectError.noDevices, List.zipWith Event.Open cands oks)) ∨
    (∃ re oks pre d post all e, w.Compile pattern = .ok re ∧ oks.length = cands.length ∧
      openPass w [] [] cands = (opened cands oks, List.zipWith Event.Open cands oks) ∧
      opened cands oks = pre ++ d :: post ∧ all.length = pre.length ∧
      w.ID (List.zipWith Event.Open cands oks ++
        (pre.zip all).flatMap (filterEvents pattern re)) d = .error e ∧
      selectDevice w cands pattern =
        (Outcome.error (SelectError.id pre.length e),
          List.zipWith Event.Open cands oks ++ (pre.zip all).flatMap (filterEvents pattern re) ++
            [Event.ID d false, Event.Close d])) ∨
    (∃ re oks all, w.Compile pattern = .ok re ∧ oks.length = cands.length ∧
      openPass w [] [] cands = (opened cands oks, List.zipWith Event.Open cands oks) ∧
      opened cands oks ≠ [] ∧ all.length = (opened cands oks).length ∧
      (∀ j d s, ((opened cands oks).zip all)[j]? = some (d, s) →
        w.ID (List.zipWith Event.Open cands oks ++
          (((opened cands oks).zip all).take j).flatMap (filterEvents pattern re)) d = .ok s) ∧
      selectDevice w cands pattern =
        choose w (List.zipWith Event.Open cands oks ++
            ((opened cands oks).zip all).flatMap (filterEvents pattern re))
          ((keptPairs pattern re (opened cands oks) all).map (fun p => p.1))
          ((keptPairs pattern re (opened cands oks) all).map (fun p => p.2))) := by
  obtain ⟨oks, hoks, hspec⟩ := openPass_spec w cands [] []
  simp only [List.nil_append] at hspec
  rcases selectDevice_cases w cands pattern with
    ⟨err, h1, h2⟩ | ⟨re, tr1, h1, h2, h3⟩ | ⟨re, found, tr1, err, tr2, h1, h2, h3, h4, h5⟩ |
    ⟨re, found, tr1, found2, ids, tr2, h1, h2, h3, h4, h5⟩
  · exact Or.inl ⟨err, h1, h2⟩
  · rw [hspec] at h2
    simp only [Prod.mk.injEq] at h2
    refine Or.inr (Or.inl ⟨re, oks, h1, hoks, h2.1, ?_, ?_⟩)
    · rw [hspec, h2.1]
    · rw [h3, h2.2]
  · rw [hspec] at h2
    simp only [Prod.mk.injEq] at h2
    obtain ⟨hf, ht⟩ := h2
    obtain ⟨pre, d, post, all, e, hc, hlen, he, htr, hid⟩ :=
      filterPass_error_spec w pattern re found tr1 0 [] [] err tr2 h4
    subst ht
    refine Or.inr (Or.inr (Or.inl ⟨re, oks, pre, d, post, all, e, h1, hoks, hspec, ?_, hlen,
      hid, ?_⟩))
    · unfold opened; rw [hf, hc]
    · rw [h5, he, htr]; simp
  · rw [hspec] at h2
    simp only [Prod.mk.injEq] at h2
    obtain ⟨hf, ht⟩ := h2
    obtain ⟨all, hlen, hfound, hids, htr, hprov⟩ :=
      filterPass_ok_spec w pattern re found tr1 0 [] [] found2 ids tr2 h4
    subst ht
    have hop : opened cands oks = found := hf
    refine Or.inr (Or.inr (Or.inr ⟨re, oks, all, h1, hoks, hspec, ?_, ?_, ?_, ?_⟩))
    · rw [hop]; exact h3
    · rw [hop]; exact hlen
    · rw [hop]; exact hprov
    · rw [h5, hop, htr, hfound, hids]
      simp [keptPairs]

theorem reconcile_log_extends (w : World) (tr : List Event) (found : List Device)
    (ids : List String) (sel : Int) : tr <+: (reconcile w tr found ids sel).2 := by
  unfold reconcile
  repeat' split
  all_goals simp

theorem prompt_log_extends (w : World) (tr : List Event) (ids : List String) :
    tr <+: (prompt w tr ids).2 := by
  unfold prompt
  simp only [List.append_assoc]
  exact List.prefix_append _ _

theorem choose_log_extends (w : World) (tr : List Event) (found : List Device)
    (ids : List String) : tr <+: (choose w tr found ids).2 := by
  rcases choose_cases w tr found ids with ⟨_, h⟩ | ⟨_, h⟩ | ⟨_, h⟩
  · rw [h]
  · rw [h]; exact reconcile_log_extends w tr found ids 0
  · rw [h]
    exact (prompt_log_extends w tr ids).trans (reconcile_log_extends w _ found ids _)

theorem keptPairs_lengths (pattern : String) (re : Regexp) (found : List Device)
    (all : List String) :
    ((keptPairs pattern re found all).map (fun p => p.2)).length =
      ((keptPairs pattern re found all).map (fun p => p.1)).length := by
  simp

/-- The step after the filter pass never ends with the no-devices or a
compilation error. -/
theorem choose_outcome (w : World) (tr : List Event) (found : List Device) (ids : List String)
    (hlen : ids.length = found.length) :
    (choose w tr found ids).1 = Outcome.error SelectError.noMatch ∨
    (choose w tr found ids).1 = Outcome.fault ∨
    (∃ c, c ∈ found ∧ (choose w tr found ids).1 = Outcome.ok c) ∨
    (∃ ident e, ident ∈ ids ∧
      (choose w tr found ids).1 = Outcome.error (SelectError.getConfiguration ident e)) ∨
    (∃ ident e, ident ∈ ids ∧
      (choose w tr found ids).1 = Outcome.error (SelectError.setConfiguration ident e)) := by
  have key : ∀ tr2 sel,
      (reconcile w tr2 found ids sel).1 = Outcome.error SelectError.noMatch ∨
      (reconcile w tr2 found ids sel).1 = Outcome.fault ∨
      (∃ c, c ∈ found ∧ (reconcile w tr2 found ids sel).1 = Outcome.ok c) ∨
      (∃ ident e, ident ∈ ids ∧
        (reconcile w tr2 found ids sel).1 =
          Outcome.error (SelectError.getConfiguration ident e)) ∨
      (∃ ident e, ident ∈ ids ∧
        (reconcile w tr2 found ids sel).1 =
          Outcome.error (SelectError.setConfiguration ident e)) := by
    intro tr2 sel
    have hmem : ∀ {α : Type} (s : List α) (x : α), index s sel = some x → x ∈ s := by
      intro α s x hx
      exact List.mem_iff_getElem?.mpr ⟨_, ((index_some_iff s sel x).mp hx).2⟩
    rcases reconcile_cases w tr2 found ids sel hlen with
      ⟨_, h⟩ | ⟨c, ident, e, hc, hi, _, h⟩ | ⟨c, hc, _, h⟩ | ⟨c, config, hc, _, _, _, h⟩ |
      ⟨c, ident, config, e, hc, hi, _, _, _, h⟩
    · exact Or.inr (Or.inl (by rw [h]))
    · exact Or.inr (Or.inr (Or.inr (Or.inl ⟨ident, e, hmem ids ident hi, by rw [h]⟩)))
    · exact Or.inr (Or.inr (Or.inl ⟨c, hmem found c hc, by rw [h]⟩))
    · exact Or.inr (Or.inr (Or.inl ⟨c, hmem found c hc, by rw [h]⟩))
    · exact Or.inr (Or.inr (Or.inr (Or.inr ⟨ident, e, hmem ids ident hi, by rw [h]⟩)))
  rcases choose_cases w tr found ids with ⟨_, h⟩ | ⟨_, h⟩ | ⟨_, h⟩
  · exact Or.inl (by rw [h])
  · rw [h]; exact key tr 0
  · rw [h]; exact key _ _

/-! ## The candidate selector, continued -/

/-- C19: if the pattern does not compile, `selectDevice` returns the
compilation error, with its message unchanged, and no candidate, and its log
is empty: no candidate was opened, identified, closed or reconfigured, and
nothing was printed or read. -/
theorem invalid_pattern_touches_nothing (w : World) (cands : List Device) (pattern : String)
    (err : String) (h : w.Compile pattern = .error err) :
    selectDevice w cands pattern = (Outcome.error (SelectError.compile err), []) ∧
      (SelectError.compile err).Error = err := by
  constructor
  · simp [selectDevice, h]
  · rfl

/-- C19, witness: the pattern `*`, which has nothing to repeat, with two
candidates attached. -/
theorem invalid_pattern_touches_nothing_witness :
    selectDevice (sampleWorld identTwo (fun _ => 1) none) [candOne, candTwo] "*" =
        (Outcome.error (SelectError.compile "error parsing regexp: missing argument to repetition operator: `*`"), []) ∧
      (SelectError.compile "error parsing regexp: missing argument to repetition operator: `*`").Error =
        "error parsing regexp: missing argument to repetition operator: `*`" :=
  invalid_pattern_touches_nothing (sampleWorld identTwo (fun _ => 1) none) [candOne, candTwo]
    "*" "error parsing regexp: missing argument to repetition operator: `*`" rfl

/-- When the pattern compiles, the log of `selectDevice` begins with the log
of the open pass. -/
theorem selectDevice_open_extends (w : World) (cands : List Device) (pattern : String)
    (re : Regexp) (found : List Device) (tr1 : List Event)
    (hre : w.Compile pattern = .ok re) (hopen : openPass w [] [] cands = (found, tr1)) :
    tr1 <+: (selectDevice w cands pattern).2 := by
  rcases selectDevice_cases w cands pattern with
    ⟨err, h1, _⟩ | ⟨re2, tr, _, h2, h3⟩ | ⟨re2, found2, tr, err, tr2, h1, h2, _, h4, h5⟩ |
    ⟨re2, found2, tr, found3, ids, tr2, h1, h2, _, h4, h5⟩
  · rw [hre] at h1; cases h1
  · rw [hopen] at h2
    simp only [Prod.mk.injEq] at h2
    rw [h3, h2.2]
  · rw [hopen] at h2
    simp only [Prod.mk.injEq] at h2
    obtain ⟨pre, d, post, all, e, _, _, _, htr, _⟩ :=
      filterPass_error_spec w pattern re2 found2 tr 0 [] [] err tr2 h4
    rw [h5, htr, h2.2, List.append_assoc]
    exact List.prefix_append _ _
  · rw [hopen] at h2
    simp only [Prod.mk.injEq] at h2
    obtain ⟨all, _, _, _, htr, _⟩ :=
      filterPass_ok_spec w pattern re2 found2 tr 0 [] [] found3 ids tr2 h4
    rw [h5]
    refine List.IsPrefix.trans ?_ (choose_log_extends w tr2 found3 ids)
    rw [htr, h2.2]
    exact List.prefix_append _ _

/-- C12: in the open pass `Open` is called on every candidate, in order,
whatever the earlier calls answered, and the run goes on with the candidates
that opened; a failed `Open` produces no error of its own.  `selectDevice`
fails with the no-devices error ("no MTP devices found") if and only if the
pattern compiles and no candidate opens (in particular when there is no
candidate at all), and in that case the log holds failed `Open` calls only: no
identity or configuration query is issued. -/
theorem open_failures_skipped (w : World) (cands : List Device) (pattern : String) :
    (∀ re, w.Compile pattern = .ok re →
      ∃ oks : List Bool, oks.length = cands.length ∧
        openPass w [] [] cands = (opened cands oks, List.zipWith Event.Open cands oks) ∧
        List.zipWith Event.Open cands oks <+: (selectDevice w cands pattern).2) ∧
    ((selectDevice w cands pattern).1 = Outcome.error SelectError.noDevices ↔
      (∃ re, w.Compile pattern = .ok re) ∧
        ∀ d, Event.Open d true ∉ (selectDevice w cands pattern).2) ∧
    ((selectDevice w cands pattern).1 = Outcome.error SelectError.noDevices →
      ∀ ev ∈ (selectDevice w cands pattern).2, ∃ c, ev = Event.Open c false) ∧
    (∀ re, w.Compile pattern = .ok re →
      selectDevice w [] pattern = (Outcome.error SelectError.noDevices, [])) ∧
    SelectError.noDevices.Error = "no MTP devices found" := by
  have hrun := selectDevice_run w cands pattern
  have hnd : (selectDevice w cands pattern).1 = Outcome.error SelectError.noDevices →
      ∃ re oks, w.Compile pattern = .ok re ∧ opened cands oks = [] ∧
        (selectDevice w cands pattern).2 = List.zipWith Event.Open cands oks := by
    intro hout
    rcases hrun with ⟨err, _, h⟩ | ⟨re, oks, hre, _, hop, _, h⟩ |
      ⟨re, oks, pre, d, post, all, e, _, _, _, _, _, _, h⟩ |
      ⟨re, oks, all, _, _, _, _, _, _, h⟩
    · rw [h] at hout; cases hout
    · exact ⟨re, oks, hre, hop, by rw [h]⟩
    · rw [h] at hout; cases hout
    · rw [h] at hout
      rcases choose_outcome w _ _ _ (keptPairs_lengths pattern re (opened cands oks) all) with
        h1 | h1 | ⟨c, _, h1⟩ | ⟨i, e, _, h1⟩ | ⟨i, e, _, h1⟩ <;>
      · rw [h1] at hout; cases hout
  refine ⟨?_, ⟨?_, ?_⟩, ?_, ?_, rfl⟩
  · intro re hre
    obtain ⟨oks, hoks, hspec⟩ := openPass_spec w cands [] []
    simp only [List.nil_append] at hspec
    exact ⟨oks, hoks, hspec, selectDevice_open_extends w cands pattern re _ _ hre hspec⟩
  · intro hout
    obtain ⟨re, oks, hre, hop, hlog⟩ := hnd hout
    refine ⟨⟨re, hre⟩, fun d hd => ?_⟩
    rw [hlog] at hd
    have := (mem_opened_iff cands oks d).mpr hd
    unfold opened at hop
    rw [hop] at this
    cases this
  · rintro ⟨⟨re, hre⟩, hno⟩
    obtain ⟨oks, hoks, hspec⟩ := openPass_spec w cands [] []
    simp only [List.nil_append] at hspec
    have hpre := selectDevice_open_extends w cands pattern re _ _ hre hspec
    have hnil : ((cands.zip oks).filter (fun p => p.2)).map (fun p => p.1) = [] := by
      cases hl : ((cands.zip oks).filter (fun p => p.2)).map (fun p => p.1) with
      | nil => rfl
      | cons d rest =>
        have hd : d ∈ ((cands.zip oks).filter (fun p => p.2)).map (fun p => p.1) := by
          rw [hl]; exact List.mem_cons_self d rest
        exact absurd (hpre.subset ((mem_opened_iff cands oks d).mp hd)) (hno d)
    rw [hnil] at hspec
    simp [selectDevice, hre, hspec]
  · intro hout ev hev
    obtain ⟨re, oks, hre, hop, hlog⟩ := hnd hout
    rw [hlog] at hev
    obtain ⟨c, b, _, hcb⟩ := zipWith_Open_events cands oks ev hev
    cases b with
    | false => exact ⟨c, hcb⟩
    | true =>
      rw [hcb] at hev
      have := (mem_opened_iff cands oks c).mpr hev
      unfold opened at hop
      rw [hop] at this
      cases this
  · intro re hre
    simp [selectDevice, hre, openPass]

/-- C12, witness: the first candidate does not open and the second is
returned; and when neither opens the result is the no-devices error after two
failed `Open` calls. -/
theorem open_failures_skipped_witness :
    (selectDevice (faultyWorld (fun d => d = candTwo) identTwo (fun _ => .ok 1) true none)
        [candOne, candTwo] "").1 = Outcome.ok candTwo ∧
    (∃ oks : List Bool, oks.length = [candOne, candTwo].length ∧
      openPass (faultyWorld (fun d => d = candTwo) identTwo (fun _ => .ok 1) true none) [] []
          [candOne, candTwo] =
        (opened [candOne, candTwo] oks, List.zipWith Event.Open [candOne, candTwo] oks) ∧
      List.zipWith Event.Open [candOne, candTwo] oks <+:
        (selectDevice (faultyWorld (fun d => d = candTwo) identTwo (fun _ => .ok 1) true none)
          [candOne, candTwo] "").2) ∧
    (selectDevice (faultyWorld (fun _ => false) identTwo (fun _ => .ok 1) true none)
        [candOne, candTwo] "").1 = Outcome.error SelectError.noDevices ∧
    (∀ ev ∈ (selectDevice (faultyWorld (fun _ => false) identTwo (fun _ => .ok 1) true none)
        [candOne, candTwo] "").2, ∃ c, ev = Event.Open c false) :=
  have h1 := open_failures_skipped
    (faultyWorld (fun d => d = candTwo) identTwo (fun _ => .ok 1) true none) [candOne, candTwo] ""
  have h2 := open_failures_skipped
    (faultyWorld (fun _ => false) identTwo (fun _ => .ok 1) true none) [candOne, candTwo] ""
  have hout : (selectDevice (faultyWorld (fun _ => false) identTwo (fun _ => .ok 1) true none)
      [candOne, candTwo] "").1 = Outcome.error SelectError.noDevices := by decide
  ⟨by decide, h1.1 ⟨fun s => search [] s.data 0⟩ rfl, hout, h2.2.2.1 hout⟩

theorem filterPass_lengths (w : World) (pattern : String) (re : Regexp) (cands : List Device)
    (tr : List Event) (found2 : List Device) (ids : List String) (tr2 : List Event)
    (h : filterPass w pattern re tr 0 [] [] cands = (.ok (found2, ids), tr2)) :
    ids.length = found2.length := by
  obtain ⟨all, _, hf, hi, _, _⟩ := filterPass_ok_spec w pattern re cands tr 0 [] [] found2 ids tr2 h
  rw [hf, hi]
  simp

/-- C17: when more than one candidate remains after the filter pass, the
integer `k` stored by the interactive read is used as the index into the
filtered list as it is: for `k < 0` and for `k ≥ N` the call ends with the
index-out-of-range fault, neither an error nor a candidate being returned, and
for `0 ≤ k < N` it does not end with a fault. -/
theorem unvalidated_index (w : World) (cands : List Device) (pattern : String) (re : Regexp)
    (found : List Device) (tr1 : List Event) (found2 : List Device) (ids : List String)
    (tr2 : List Event) (k : Int)
    (hre : w.Compile pattern = .ok re) (hopen : openPass w [] [] cands = (found, tr1))
    (hfilter : filterPass w pattern re tr1 0 [] [] found = (.ok (found2, ids), tr2))
    (hN : 1 < found2.length) (hscan : ∀ tr, w.Scanf tr = some k) :
    ((k < 0 ∨ (found2.length : Int) ≤ k) → (selectDevice w cands pattern).1 = Outcome.fault) ∧
      (0 ≤ k → k < (found2.length : Int) →
        (selectDevice w cands pattern).1 ≠ Outcome.fault) := by
  have hne : found ≠ [] := by
    intro h0
    rw [h0, filterPass_nil] at hfilter
    simp only [Prod.mk.injEq, Except.ok.injEq] at hfilter
    rw [← hfilter.1.1] at hN
    simp at hN
  have hlen := filterPass_lengths w pattern re found tr1 found2 ids tr2 hfilter
  have hsel := selectDevice_of_passes w cands pattern re found tr1 found2 ids tr2 hre hopen
    hne hfilter
  have hch : choose w tr2 found2 ids = reconcile w (prompt w tr2 ids).2 found2 ids k := by
    have h0 : ¬ found2.length = 0 := by omega
    have hp : (prompt w tr2 ids).1 = k := by simp [prompt, hscan]
    unfold choose
    rw [if_neg h0, if_pos hN, hp]
  rw [hsel, hch]
  constructor
  · intro hk
    have hidx := (index_none_iff found2 k).mpr hk
    simp [reconcile, hidx]
  · intro h0 h1 hfault
    rcases reconcile_cases w (prompt w tr2 ids).2 found2 ids k hlen with
      ⟨hidx, _⟩ | ⟨c, ident, e, _, _, _, h⟩ | ⟨c, _, _, h⟩ | ⟨c, config, _, _, _, _, h⟩ |
      ⟨c, ident, config, e, _, _, _, _, _, h⟩
    · rcases (index_none_iff found2 k).mp hidx with h2 | h2 <;> omega
    · rw [h] at hfault; cases hfault
    · rw [h] at hfault; cases hfault
    · rw [h] at hfault; cases hfault
    · rw [h] at hfault; cases hfault

/-- C17, witness: two candidates remain; the operator types 5, then -1, then
1. -/
theorem unvalidated_index_witness :
    (selectDevice (sampleWorld identTwo (fun _ => 1) (some 5)) [candOne, candTwo] "").1 =
        Outcome.fault ∧
    (selectDevice (sampleWorld identTwo (fun _ => 1) (some (-1))) [candOne, candTwo] "").1 =
        Outcome.fault ∧
    (selectDevice (sampleWorld identTwo (fun _ => 1) (some 1)) [candOne, candTwo] "").1 ≠
        Outcome.fault :=
  ⟨(unvalidated_index (sampleWorld identTwo (fun _ => 1) (some 5)) [candOne, candTwo] ""
      ⟨fun s => search [] s.data 0⟩ [candOne, candTwo]
      [Event.Open candOne true, Event.Open candTwo true] [candOne, candTwo]
      ["Vendor:0x1 Bus:1", "Vendor:2 Bus:2"]
      [Event.Open candOne true, Event.Open candTwo true, Event.ID candOne true,
        Event.ID candTwo true] 5 rfl rfl rfl (by decide) (fun _ => rfl)).1 (Or.inr (by decide)),
    (unvalidated_index (sampleWorld identTwo (fun _ => 1) (some (-1))) [candOne, candTwo] ""
      ⟨fun s => search [] s.data 0⟩ [candOne, candTwo]
      [Event.Open candOne true, Event.Open candTwo true] [candOne, candTwo]
      ["Vendor:0x1 Bus:1", "Vendor:2 Bus:2"]
      [Event.Open candOne true, Event.Open candTwo true, Event.ID candOne true,
        Event.ID candTwo true] (-1) rfl rfl rfl (by decide) (fun _ => rfl)).1
      (Or.inl (by decide)),
    (unvalidated_index (sampleWorld identTwo (fun _ => 1) (some 1)) [candOne, candTwo] ""
      ⟨fun s => search [] s.data 0⟩ [candOne, candTwo]
      [Event.Open candOne true, Event.Open candTwo true] [candOne, candTwo]
      ["Vendor:0x1 Bus:1", "Vendor:2 Bus:2"]
      [Event.Open candOne true, Event.Open candTwo true, Event.ID candOne true,
        Event.ID candTwo true] 1 rfl rfl rfl (by decide) (fun _ => rfl)).2
      (by decide) (by decide)⟩

/-! ## Following the handles through a log -/

theorem isOpen_append (a b : List Event) (d : Device) :
    isOpen (a ++ b) d = b.foldl (openStep d) (isOpen a d) := by
  simp [isOpen, List.foldl_append]

/-- A handle open after some calls was open before them and not closed by
them, or was opened by them. -/
theorem foldl_openStep_true (d : Device) (b : List Event) (st : Bool)
    (h : b.foldl (openStep d) st = true) :
    Event.Open d true ∈ b ∨ (st = true ∧ Event.Close d ∉ b) := by
  induction b generalizing st with
  | nil => exact Or.inr ⟨h, by simp⟩
  | cons ev rest ih =>
    simp only [List.foldl_cons] at h
    rcases ih _ h with h1 | ⟨h1, h2⟩
    · exact Or.inl (List.mem_cons_of_mem ev h1)
    · unfold openStep at h1
      by_cases ho : ev = Event.Open d true
      · exact Or.inl (by rw [ho]; exact List.mem_cons_self _ _)
      · rw [if_neg ho] at h1
        by_cases hc : ev = Event.Close d
        · rw [if_pos hc] at h1; cases h1
        · rw [if_neg hc] at h1
          refine Or.inr ⟨h1, ?_⟩
          intro hmem
          rcases List.mem_cons.mp hmem with h3 | h3
          · exact hc h3.symm
          · exact h2 h3

/-- A handle that is open stays open through calls that do not close it. -/
theorem foldl_openStep_keep (d : Device) (b : List Event) (hb : Event.Close d ∉ b) :
    b.foldl (openStep d) true = true := by
  induction b with
  | nil => rfl
  | cons ev rest ih =>
    simp only [List.foldl_cons]
    have h1 : ev ≠ Event.Close d := fun h => hb (by rw [h]; exact List.mem_cons_self _ _)
    have h2 : openStep d true ev = true := by
      unfold openStep
      by_cases ho : ev = Event.Open d true
      · rw [if_pos ho]
      · rw [if_neg ho, if_neg h1]
    rw [h2]
    exact ih (fun h => hb (List.mem_cons_of_mem ev h))

theorem isOpen_true_mem (tr : List Event) (d : Device) (h : isOpen tr d = true) :
    Event.Open d true ∈ tr := by
  rcases foldl_openStep_true d tr false h with h1 | ⟨h1, _⟩
  · exact h1
  · cases h1

/-- A candidate that was opened and never closed is in the opened state. -/
theorem isOpen_of_mem (tr : List Event) (d : Device) (ho : Event.Open d true ∈ tr)
    (hc : Event.Close d ∉ tr) : isOpen tr d = true := by
  obtain ⟨a, b, hab⟩ := List.append_of_mem ho
  rw [hab, isOpen_append]
  simp only [List.foldl_cons]
  have h1 : openStep d (isOpen a d) (Event.Open d true) = true := by simp [openStep]
  rw [h1]
  apply foldl_openStep_keep
  intro hmem
  apply hc
  rw [hab]
  exact List.mem_append_right a (List.mem_cons_of_mem _ hmem)

/-- The calls of the filter pass: identity queries on the opened candidates,
and `Close` and `Done` on exactly those that are not kept. -/
theorem mem_filterEvents (pattern : String) (re : Regexp) (l : List (Device × String))
    (ev : Event) :
    ev ∈ l.flatMap (filterEvents pattern re) ↔
      ∃ p ∈ l, ev = Event.ID p.1 true ∨
        (¬ keeps pattern re p.2 ∧ (ev = Event.Close p.1 ∨ ev = Event.Done p.1)) := by
  simp only [List.mem_flatMap]
  constructor
  · rintro ⟨p, hp, hev⟩
    refine ⟨p, hp, ?_⟩
    unfold filterEvents at hev
    by_cases hk : keeps pattern re p.2
    · rw [if_pos hk] at hev
      simp only [List.mem_singleton] at hev
      exact Or.inl hev
    · rw [if_neg hk] at hev
      simp only [List.mem_cons, List.mem_singleton, List.not_mem_nil, or_false] at hev
      rcases hev with h | h | h
      · exact Or.inl h
      · exact Or.inr ⟨hk, Or.inl h⟩
      · exact Or.inr ⟨hk, Or.inr h⟩
  · rintro ⟨p, hp, hev⟩
    refine ⟨p, hp, ?_⟩
    unfold filterEvents
    by_cases hk : keeps pattern re p.2
    · rw [if_pos hk]
      rcases hev with h | ⟨h, _⟩
      · simp [h]
      · exact absurd hk h
    · rw [if_neg hk]
      rcases hev with h | ⟨_, h | h⟩ <;> simp [h]

theorem exists_zip_of_mem {α β : Type} (l : List α) (all : List β) (d : α)
    (hlen : all.length = l.length) (hd : d ∈ l) : ∃ s, (d, s) ∈ l.zip all := by
  induction l generalizing all with
  | nil => cases hd
  | cons x rest ih =>
    cases all with
    | nil => simp at hlen
    | cons y ys =>
      rcases List.mem_cons.mp hd with rfl | h
      · exact ⟨y, by simp⟩
      · obtain ⟨s, hs⟩ := ih ys (by simpa using hlen) h
        exact ⟨s, by simp [hs]⟩

theorem FindString_of_no_match (re : Regexp) (s : String) (h : re.MatchString s = false) :
    re.FindString s = "" := by
  unfold Regexp.MatchString at h
  unfold Regexp.FindString
  cases hx : re.FindStringIndex s with
  | none => rfl
  | some p => rw [hx] at h; cases h

/-- When the identity of each opened candidate does not depend on the calls
made before, the identities computed in a run are those. -/
theorem computed_identity (w : World) (pattern : String) (re : Regexp) (found : List Device)
    (all : List String) (tr1 : List Event) (ident : Device → String)
    (hid : ∀ tr d, d ∈ found → w.ID tr d = .ok (ident d))
    (hprov : ∀ j d s, (found.zip all)[j]? = some (d, s) →
      w.ID (tr1 ++ ((found.zip all).take j).flatMap (filterEvents pattern re)) d = .ok s)
    (d : Device) (s : String) (hmem : (d, s) ∈ found.zip all) : s = ident d := by
  obtain ⟨j, hj⟩ := List.mem_iff_getElem?.mp hmem
  have h1 := hprov j d s hj
  rw [hid _ d (List.of_mem_zip hmem).1] at h1
  simp only [Except.ok.injEq] at h1
  exact h1.symm

/-- When at least one candidate opens, every opened candidate yields an
identity and none passes the test of the filter, the result is the no-match
error, no candidate is in the opened state at the end, and every opened
candidate was released. -/
theorem none_kept_closes_all (w : World) (cands : List Device) (pattern : String)
    (re : Regexp) (found : List Device) (tr1 : List Event) (ident : Device → String)
    (hre : w.Compile pattern = .ok re) (hopen : openPass w [] [] cands = (found, tr1))
    (hne : found ≠ []) (hid : ∀ tr d, d ∈ found → w.ID tr d = .ok (ident d))
    (hno : ∀ d ∈ found, ¬ keeps pattern re (ident d)) :
    (selectDevice w cands pattern).1 = Outcome.error SelectError.noMatch ∧
      (∀ d, isOpen (selectDevice w cands pattern).2 d = false) ∧
      (∀ d, Event.Open d true ∈ (selectDevice w cands pattern).2 → d ∈ found) ∧
      (∀ d ∈ found, Event.Close d ∈ (selectDevice w cands pattern).2 ∧
        Event.Done d ∈ (selectDevice w cands pattern).2) := by
  rcases selectDevice_run w cands pattern with ⟨err, h1, _⟩ | ⟨re2, oks, _, _, hop, ho, _⟩ |
    ⟨re2, oks, pre, d, post, all, e, _, _, ho, hop, _, hfail, _⟩ |
    ⟨re2, oks, all, hre2, _, ho, _, hlen, hprov, h⟩
  · rw [hre] at h1; cases h1
  · rw [hopen] at ho
    simp only [Prod.mk.injEq] at ho
    exact absurd ho.1 hne
  · rw [hopen] at ho
    simp only [Prod.mk.injEq] at ho
    have hd : d ∈ found := by rw [ho.1, hop]; simp
    rw [hid _ d hd] at hfail
    cases hfail
  · rw [hopen] at ho
    simp only [Prod.mk.injEq] at ho
    obtain ⟨hf, ht⟩ := ho
    rw [hre] at hre2
    cases hre2
    rw [← hf] at hlen hprov h
    rw [← ht] at hprov h
    have hident := computed_identity w pattern re found all tr1 ident hid hprov
    have hkept : keptPairs pattern re found all = [] := by
      unfold keptPairs
      rw [List.filter_eq_nil_iff]
      intro p hp
      have hs := hident p.1 p.2 hp
      have hk := hno p.1 (List.of_mem_zip hp).1
      rw [← hs] at hk
      simpa using hk
    rw [hkept] at h
    simp only [List.map_nil] at h
    have hch : choose w (tr1 ++ (found.zip all).flatMap (filterEvents pattern re)) [] [] =
        (Outcome.error SelectError.noMatch,
          tr1 ++ (found.zip all).flatMap (filterEvents pattern re)) := by
      simp [choose]
    rw [hch] at h
    rw [h]
    refine ⟨rfl, ?_, ?_, ?_⟩
    · intro x
      cases hx : isOpen (tr1 ++ (found.zip all).flatMap (filterEvents pattern re)) x with
      | false => rfl
      | true =>
        exfalso
        rw [isOpen_append] at hx
        rcases foldl_openStep_true x _ _ hx with h1 | ⟨h1, h2⟩
        · obtain ⟨p, _, hp⟩ := (mem_filterEvents pattern re _ _).mp h1
          rcases hp with hp | ⟨_, hp | hp⟩ <;> cases hp
        · have hx1 := isOpen_true_mem tr1 x h1
          rw [ht] at hx1
          have hx2 : x ∈ found := by
            rw [hf]
            exact (mem_opened_iff cands oks x).mpr hx1
          obtain ⟨s, hs⟩ := exists_zip_of_mem found all x hlen hx2
          apply h2
          refine (mem_filterEvents pattern re _ _).mpr ⟨(x, s), hs, Or.inr ⟨?_, Or.inl rfl⟩⟩
          rw [hident x s hs]
          exact hno x hx2
    · intro x hx
      rcases List.mem_append.mp hx with h1 | h1
      · rw [ht] at h1
        rw [hf]
        exact (mem_opened_iff cands oks x).mpr h1
      · obtain ⟨p, _, hp⟩ := (mem_filterEvents pattern re _ _).mp h1
        rcases hp with hp | ⟨_, hp | hp⟩ <;> cases hp
    · intro x hx
      obtain ⟨s, hs⟩ := exists_zip_of_mem found all x hlen hx
      have hnk : ¬ keeps pattern re (x, s).2 := by
        rw [hident x s hs]
        exact hno x hx
      exact ⟨List.mem_append_right _
          ((mem_filterEvents pattern re _ _).mpr ⟨(x, s), hs, Or.inr ⟨hnk, Or.inl rfl⟩⟩),
        List.mem_append_right _
          ((mem_filterEvents pattern re _ _).mpr ⟨(x, s), hs, Or.inr ⟨hnk, Or.inr rfl⟩⟩)⟩

/-- C11: given candidates of which at least one opens, every opened candidate
yielding an identity, and a pattern (not the empty one, which matches
everything) that matches none of those identities, `selectDevice` fails with
the no-match error ("no device matched"), returns no candidate, and at its
return no candidate is in the opened state: every candidate it opened has been
closed, and released. -/
theorem no_match_closes_all (w : World) (cands : List Device) (pattern : String)
    (re : Regexp) (found : List Device) (tr1 : List Event) (ident : Device → String)
    (hre : w.Compile pattern = .ok re) (hopen : openPass w [] [] cands = (found, tr1))
    (hne : found ≠ []) (hid : ∀ tr d, d ∈ found → w.ID tr d = .ok (ident d))
    (hpat : pattern ≠ "") (hno : ∀ d ∈ found, re.MatchString (ident d) = false) :
    (selectDevice w cands pattern).1 = Outcome.error SelectError.noMatch ∧
      SelectError.noMatch.Error = "no device matched" ∧
      (∀ d, isOpen (selectDevice w cands pattern).2 d = false) ∧
      (∀ d, Event.Open d true ∈ (selectDevice w cands pattern).2 →
        Event.Close d ∈ (selectDevice w cands pattern).2 ∧
        Event.Done d ∈ (selectDevice w cands pattern).2) := by
  have hk : ∀ d ∈ found, ¬ keeps pattern re (ident d) := by
    intro d hd hkeep
    rcases hkeep with h | h
    · exact hpat h
    · exact h (FindString_of_no_match re _ (hno d hd))
  obtain ⟨h1, h2, h3, h4⟩ :=
    none_kept_closes_all w cands pattern re found tr1 ident hre hopen hne hid hk
  exact ⟨h1, rfl, h2, fun d hd => h4 d (h3 d hd)⟩

/-- C11, witness: the two sample candidates and the pattern `Nokia`, which
matches neither identity. -/
theorem no_match_closes_all_witness :
    (selectDevice (sampleWorld identTwo (fun _ => 1) none) [candOne, candTwo] "Nokia").1 =
        Outcome.error SelectError.noMatch ∧
      SelectError.noMatch.Error = "no device matched" ∧
      (∀ d, isOpen (selectDevice (sampleWorld identTwo (fun _ => 1) none) [candOne, candTwo]
        "Nokia").2 d = false) ∧
      (∀ d, Event.Open d true ∈ (selectDevice (sampleWorld identTwo (fun _ => 1) none)
          [candOne, candTwo] "Nokia").2 →
        Event.Close d ∈ (selectDevice (sampleWorld identTwo (fun _ => 1) none)
          [candOne, candTwo] "Nokia").2 ∧
        Event.Done d ∈ (selectDevice (sampleWorld identTwo (fun _ => 1) none)
          [candOne, candTwo] "Nokia").2) :=
  no_match_closes_all (sampleWorld identTwo (fun _ => 1) none) [candOne, candTwo] "Nokia"
    ⟨fun s => search [Item.lit 'N', Item.lit 'o', Item.lit 'k', Item.lit 'i', Item.lit 'a']
      s.data 0⟩ [candOne, candTwo] [Event.Open candOne true, Event.Open candTwo true]
    (fun d => if d = candOne then "Vendor:0x1 Bus:1" else "Vendor:2 Bus:2") rfl rfl (by simp)
    (by
      intro tr d hd
      simp only [List.mem_cons, List.mem_singleton, List.not_mem_nil, or_false] at hd
      rcases hd with rfl | rfl
      · rfl
      · rfl)
    (by decide)
    (by
      intro d hd
      simp only [List.mem_cons, List.mem_singleton, List.not_mem_nil, or_false] at hd
      rcases hd with rfl | rfl
      · decide
      · decide)

theorem reconcile_log_events (w : World) (tr : List Event) (found : List Device)
    (ids : List String) (sel : Int) :
    ∀ ev ∈ (reconcile w tr found ids sel).2, ev ∈ tr ∨ ev.isConfigCall = true := by
  unfold reconcile
  repeat' split
  all_goals
    intro ev hev
    first
    | exact Or.inl hev
    | (simp only [List.mem_append, List.mem_cons, List.mem_singleton, List.not_mem_nil,
        or_false] at hev
       rcases hev with h | h | h
       · exact Or.inl h
       · rw [h]; exact Or.inr rfl
       · rw [h]; exact Or.inr rfl)
    | (simp only [List.mem_append, List.mem_cons, List.mem_singleton, List.not_mem_nil,
        or_false] at hev
       rcases hev with h | h
       · exact Or.inl h
       · rw [h]; exact Or.inr rfl)

theorem listing_events (i : Nat) (ids : List String) :
    ∀ ev ∈ listing i ids, ev.isTerminal = true := by
  induction ids generalizing i with
  | nil => intro ev hev; cases hev
  | cons x rest ih =>
    intro ev hev
    simp only [listing, List.mem_cons] at hev
    rcases hev with h | h
    · rw [h]; rfl
    · exact ih (i + 1) ev h

theorem prompt_log_events (w : World) (tr : List Event) (ids : List String) :
    ∀ ev ∈ (prompt w tr ids).2, ev ∈ tr ∨ ev.isTerminal = true := by
  intro ev hev
  unfold prompt at hev
  simp only [List.mem_append, List.mem_cons, List.mem_singleton, List.not_mem_nil,
    or_false] at hev
  rcases hev with (h | (h | h) | h) | h
  · exact Or.inl h
  · rw [h]; exact Or.inr rfl
  · exact Or.inr (listing_events 0 ids ev h)
  · rw [h]; exact Or.inr rfl
  · rw [h]; exact Or.inr rfl

/-- After the filter pass only the terminal and the configuration calls are
used. -/
theorem choose_log_events (w : World) (tr : List Event) (found : List Device)
    (ids : List String) :
    ∀ ev ∈ (choose w tr found ids).2,
      ev ∈ tr ∨ ev.isTerminal = true ∨ ev.isConfigCall = true := by
  intro ev hev
  rcases choose_cases w tr found ids with ⟨_, h⟩ | ⟨_, h⟩ | ⟨_, h⟩
  · rw [h] at hev; exact Or.inl hev
  · rw [h] at hev
    rcases reconcile_log_events w tr found ids 0 ev hev with h1 | h1
    · exact Or.inl h1
    · exact Or.inr (Or.inr h1)
  · rw [h] at hev
    rcases reconcile_log_events w _ found ids _ ev hev with h1 | h1
    · rcases prompt_log_events w tr ids ev h1 with h2 | h2
      · exact Or.inl h2
      · exact Or.inr (Or.inl h2)
    · exact Or.inr (Or.inr h1)

theorem isOpen_closed_last (tr : List Event) (d : Device) (ev : Event)
    (hev : ev ≠ Event.Open d true) : isOpen (tr ++ [ev, Event.Close d]) d = false := by
  rw [isOpen_append]
  simp [openStep, hev]

/-- C13: an identity query that fails is never skipped: if the log of
`selectDevice` holds a failed identity query on a candidate `d`, then `d` had
been opened, the `Close` of `d` follows the failed query and ends the log, so
`d` is not in the opened state at the end, and the result is the
identity-query error of that query and no candidate.  This holds whatever the
pattern (once it compiles) and whatever the identities of the other
candidates; and if the identity query on some opened candidate fails whenever
it is made, the result is an identity-query error. -/
theorem identity_failure_fatal (w : World) (cands : List Device) (pattern : String) :
    (∀ d, Event.ID d false ∈ (selectDevice w cands pattern).2 →
      ∃ i e tr0, selectDevice w cands pattern =
          (Outcome.error (SelectError.id i e), tr0 ++ [Event.ID d false, Event.Close d]) ∧
        w.ID tr0 d = .error e ∧ Event.Open d true ∈ tr0 ∧
        isOpen (selectDevice w cands pattern).2 d = false) ∧
    (∀ re found tr1 d, w.Compile pattern = .ok re → openPass w [] [] cands = (found, tr1) →
      d ∈ found → (∀ tr, ∃ e, w.ID tr d = .error e) →
      ∃ i e, (selectDevice w cands pattern).1 = Outcome.error (SelectError.id i e)) ∧
    (∀ i e, (SelectError.id i e).Error = "Id dev " ++ toString i ++ ": " ++ e) := by
  refine ⟨?_, ?_, fun _ _ => rfl⟩
  · intro d hd
    rcases selectDevice_run w cands pattern with ⟨err, _, h⟩ | ⟨re, oks, _, _, _, _, h⟩ |
      ⟨re, oks, pre, d0, post, all, e, _, _, _, hop, _, hfail, h⟩ |
      ⟨re, oks, all, _, _, _, _, _, _, h⟩
    · rw [h] at hd; cases hd
    · rw [h] at hd
      obtain ⟨c, b, _, hcb⟩ := zipWith_Open_events cands oks _ hd
      cases hcb
    · have hd2 := hd
      rw [h] at hd2
      simp only [List.mem_append, List.mem_cons, List.mem_singleton, List.not_mem_nil,
        or_false] at hd2
      have hdd : d = d0 := by
        rcases hd2 with (h1 | h1) | h1 | h1
        · obtain ⟨c, b, _, hcb⟩ := zipWith_Open_events cands oks _ h1
          cases hcb
        · obtain ⟨p, _, hp⟩ := (mem_filterEvents pattern re _ _).mp h1
          rcases hp with hp | ⟨_, hp | hp⟩ <;> cases hp
        · cases h1; rfl
        · cases h1
      subst hdd
      refine ⟨pre.length, e, _, h, hfail, ?_, ?_⟩
      · apply List.mem_append_left
        apply (mem_opened_iff cands oks d).mp
        have : d ∈ opened cands oks := by rw [hop]; simp
        exact this
      · rw [h]
        exact isOpen_closed_last _ d _ (by simp)
    · rw [h] at hd
      rcases choose_log_events w _ _ _ _ hd with h1 | h1 | h1
      · rcases List.mem_append.mp h1 with h2 | h2
        · obtain ⟨c, b, _, hcb⟩ := zipWith_Open_events cands oks _ h2
          cases hcb
        · obtain ⟨p, _, hp⟩ := (mem_filterEvents pattern re _ _).mp h2
          rcases hp with hp | ⟨_, hp | hp⟩ <;> cases hp
      · cases h1
      · cases h1
  · intro re found tr1 d hre hopen hd hfail
    rcases selectDevice_run w cands pattern with ⟨err, h1, _⟩ | ⟨re2, oks, _, _, _, ho, _⟩ |
      ⟨re2, oks, pre, d0, post, all, e, _, _, _, _, _, _, h⟩ |
      ⟨re2, oks, all, _, _, ho, _, hlen, hprov, _⟩
    · rw [hre] at h1; cases h1
    · rw [hopen] at ho
      simp only [Prod.mk.injEq] at ho
      rw [ho.1] at hd
      cases hd
    · exact ⟨pre.length, e, by rw [h]⟩
    · rw [hopen] at ho
      simp only [Prod.mk.injEq] at ho
      rw [ho.1] at hd
      obtain ⟨s, hs⟩ := exists_zip_of_mem _ all d hlen hd
      obtain ⟨j, hj⟩ := List.mem_iff_getElem?.mp hs
      have h1 := hprov j d s hj
      obtain ⟨e, he⟩ := hfail (List.zipWith Event.Open cands oks ++
        (((opened cands oks).zip all).take j).flatMap (filterEvents pattern re2))
      rw [he] at h1
      cases h1

/-- C13, witness: the first candidate has an identity that the empty pattern
accepts, the identity of the second cannot be computed; the result is the
identity-query error for candidate 1, which is closed. -/
theorem identity_failure_fatal_witness :
    selectDevice (sampleWorld identFirstOnly (fun _ => 1) none) [candOne, candTwo] "" =
        (Outcome.error (SelectError.id 1 "LIBUSB_ERROR_IO"),
          [Event.Open candOne true, Event.Open candTwo true, Event.ID candOne true] ++
            [Event.ID candTwo false, Event.Close candTwo]) ∧
      (∃ i e, (selectDevice (sampleWorld identFirstOnly (fun _ => 1) none) [candOne, candTwo]
        "").1 = Outcome.error (SelectError.id i e)) ∧
      (∃ i e tr0, selectDevice (sampleWorld identFirstOnly (fun _ => 1) none)
          [candOne, candTwo] "" =
          (Outcome.error (SelectError.id i e),
            tr0 ++ [Event.ID candTwo false, Event.Close candTwo]) ∧
        (sampleWorld identFirstOnly (fun _ => 1) none).ID tr0 candTwo = .error e ∧
        Event.Open candTwo true ∈ tr0 ∧
        isOpen (selectDevice (sampleWorld identFirstOnly (fun _ => 1) none) [candOne, candTwo]
          "").2 candTwo = false) :=
  have h := identity_failure_fatal (sampleWorld identFirstOnly (fun _ => 1) none)
    [candOne, candTwo] ""
  ⟨by decide,
    h.2.1 ⟨fun s => search [] s.data 0⟩ [candOne, candTwo]
      [Event.Open candOne true, Event.Open candTwo true] candTwo rfl rfl (by simp)
      (fun _ => ⟨"LIBUSB_ERROR_IO", rfl⟩),
    h.1 candTwo (by decide)⟩

/-! ## The configuration calls of a run -/

theorem filter_nil_of_forall {p : Event → Bool} (l : List Event)
    (h : ∀ ev ∈ l, p ev = false) : l.filter p = [] := by
  rw [List.filter_eq_nil_iff]
  intro ev hev
  rw [h ev hev]
  simp

/-- The open pass and the filter pass make no configuration call and do not
use the terminal. -/
theorem passes_log_events (cands : List Device) (oks : List Bool) (pattern : String)
    (re : Regexp) (l : List (Device × String)) :
    ∀ ev ∈ List.zipWith Event.Open cands oks ++ l.flatMap (filterEvents pattern re),
      ev.isConfigCall = false ∧ ev.isTerminal = false := by
  intro ev hev
  rcases List.mem_append.mp hev with h | h
  · obtain ⟨c, b, _, hcb⟩ := zipWith_Open_events cands oks ev h
    rw [hcb]; exact ⟨rfl, rfl⟩
  · obtain ⟨p, _, hp⟩ := (mem_filterEvents pattern re l ev).mp h
    rcases hp with hp | ⟨_, hp | hp⟩ <;> (rw [hp]; exact ⟨rfl, rfl⟩)

theorem reconcile_config_shape (w : World) (tr0 : List Event) (found : List Device)
    (ids : List String) (sel : Int) (hlen : ids.length = found.length)
    (h0 : tr0.filter Event.isConfigCall = []) :
    ConfigShape found (reconcile w tr0 found ids sel) := by
  have hmem : ∀ c, index found sel = some c → c ∈ found := fun c hc =>
    List.mem_iff_getElem?.mpr ⟨_, ((index_some_iff _ sel c).mp hc).2⟩
  unfold ConfigShape
  rcases reconcile_cases w tr0 found ids sel hlen with
    ⟨_, hr⟩ | ⟨c, ident, e, hc, _, _, hr⟩ | ⟨c, hc, _, hr⟩ | ⟨c, config, hc, hne, _, _, hr⟩ |
    ⟨c, ident, config, e, hc, _, hne, _, _, hr⟩
  · left
    rw [hr]
    exact ⟨h0, fun c hc => by cases hc⟩
  · right; left
    refine ⟨c, ident, e, hmem c hc, ?_, by rw [hr]⟩
    rw [hr, List.filter_append, h0]; rfl
  · right; right; left
    refine ⟨c, hmem c hc, ?_, by rw [hr]⟩
    rw [hr, List.filter_append, h0]; rfl
  · right; right; right; left
    refine ⟨c, config, hmem c hc, hne, ?_, by rw [hr]⟩
    rw [hr, List.filter_append, h0]; rfl
  · right; right; right; right
    refine ⟨c, ident, config, e, hmem c hc, hne, ?_, by rw [hr]⟩
    rw [hr, List.filter_append, h0]; rfl

theorem ConfigShape_mono (found cands : List Device) (r : Outcome × List Event)
    (hsub : ∀ c ∈ found, c ∈ cands) (h : ConfigShape found r) : ConfigShape cands r := by
  unfold ConfigShape at h ⊢
  rcases h with h | ⟨c, ident, e, hc, h⟩ | ⟨c, hc, h⟩ | ⟨c, config, hc, h⟩ |
    ⟨c, ident, config, e, hc, h⟩
  · exact Or.inl h
  · exact Or.inr (Or.inl ⟨c, ident, e, hsub c hc, h⟩)
  · exact Or.inr (Or.inr (Or.inl ⟨c, hsub c hc, h⟩))
  · exact Or.inr (Or.inr (Or.inr (Or.inl ⟨c, config, hsub c hc, h⟩)))
  · exact Or.inr (Or.inr (Or.inr (Or.inr ⟨c, ident, config, e, hsub c hc, h⟩)))

theorem kept_subset_cands (cands : List Device) (oks : List Bool) (pattern : String)
    (re : Regexp) (all : List String) :
    ∀ c ∈ (keptPairs pattern re (opened cands oks) all).map (fun p => p.1), c ∈ cands := by
  intro c hc
  obtain ⟨p, hp, rfl⟩ := List.mem_map.mp hc
  unfold keptPairs at hp
  exact (opened_sublist cands oks).subset (List.of_mem_zip (List.mem_filter.mp hp).1).1

/-- The configuration calls of a run of `selectDevice`, with its result; the
candidate queried is the one chosen, and it is among the input candidates. -/
theorem selectDevice_config_shape (w : World) (cands : List Device) (pattern : String) :
    ConfigShape cands (selectDevice w cands pattern) := by
  rcases selectDevice_run w cands pattern with ⟨err, _, h⟩ | ⟨re, oks, _, _, _, _, h⟩ |
    ⟨re, oks, pre, d0, post, all, e, _, _, _, _, _, _, h⟩ |
    ⟨re, oks, all, _, _, _, _, _, _, h⟩
  · left
    rw [h]
    exact ⟨rfl, fun c hc => by cases hc⟩
  · left
    rw [h]
    refine ⟨filter_nil_of_forall _ (fun ev hev => ?_), fun c hc => by cases hc⟩
    obtain ⟨c, b, _, hcb⟩ := zipWith_Open_events cands oks ev hev
    rw [hcb]; rfl
  · left
    rw [h]
    refine ⟨?_, fun c hc => by cases hc⟩
    rw [List.filter_append,
      filter_nil_of_forall _ (fun ev hev => (passes_log_events cands oks pattern re _ ev hev).1)]
    rfl
  · have hlen := keptPairs_lengths pattern re (opened cands oks) all
    have h2 : (List.zipWith Event.Open cands oks ++
        ((opened cands oks).zip all).flatMap (filterEvents pattern re)).filter
          Event.isConfigCall = [] :=
      filter_nil_of_forall _ (fun ev hev => (passes_log_events cands oks pattern re _ ev hev).1)
    rw [h]
    rcases choose_cases w (List.zipWith Event.Open cands oks ++
        ((opened cands oks).zip all).flatMap (filterEvents pattern re))
        ((keptPairs pattern re (opened cands oks) all).map (fun p => p.1))
        ((keptPairs pattern re (opened cands oks) all).map (fun p => p.2)) with
      ⟨_, hc⟩ | ⟨_, hc⟩ | ⟨_, hc⟩
    · left
      rw [hc]
      exact ⟨h2, fun c hc => by cases hc⟩
    · rw [hc]
      exact ConfigShape_mono _ cands _ (kept_subset_cands cands oks pattern re all)
        (reconcile_config_shape w _ _ _ 0 hlen h2)
    · rw [hc]
      refine ConfigShape_mono _ cands _ (kept_subset_cands cands oks pattern re all)
        (reconcile_config_shape w _ _ _ _ hlen ?_)
      apply filter_nil_of_forall
      intro ev hev
      rcases prompt_log_events w _ _ ev hev with h3 | h3
      · exact (passes_log_events cands oks pattern re _ ev h3).1
      · cases ev <;> first | rfl | cases h3

theorem filter_isSet_configCalls (tr : List Event) :
    tr.filter Event.isSetConfiguration =
      (tr.filter Event.isConfigCall).filter Event.isSetConfiguration := by
  induction tr with
  | nil => rfl
  | cons ev rest ih =>
    cases ev <;> simp [List.filter_cons, Event.isSetConfiguration, Event.isConfigCall, ih]

/-- C14: in a run of `selectDevice` whose configuration query on the chosen
candidate `c` answers `config`: that query is the only configuration query of
the run; if `config` equals the declared configuration value of `c`, no
set-configuration call is issued on any device; if it differs, exactly one
set-configuration call is issued, on `c`, with the declared configuration
value.  A candidate returned by the run is `c`. -/
theorem reconciliation_set_configuration (w : World) (cands : List Device) (pattern : String)
    (c : Device) (config : Nat)
    (hq : Event.GetConfiguration c (some config) ∈ (selectDevice w cands pattern).2) :
    (config = c.configValue →
      (selectDevice w cands pattern).2.filter Event.isSetConfiguration = []) ∧
    (config ≠ c.configValue →
      ∃ ok, (selectDevice w cands pattern).2.filter Event.isSetConfiguration =
        [Event.SetConfiguration c c.configValue ok]) ∧
    (∀ c2 r, Event.GetConfiguration c2 r ∈ (selectDevice w cands pattern).2 →
      c2 = c ∧ r = some config) ∧
    c ∈ cands ∧
    (∀ c2, (selectDevice w cands pattern).1 = Outcome.ok c2 → c2 = c) := by
  have hq2 : Event.GetConfiguration c (some config) ∈
      (selectDevice w cands pattern).2.filter Event.isConfigCall :=
    List.mem_filter.mpr ⟨hq, rfl⟩
  have hget : ∀ c2 r, Event.GetConfiguration c2 r ∈ (selectDevice w cands pattern).2 →
      Event.GetConfiguration c2 r ∈
        (selectDevice w cands pattern).2.filter Event.isConfigCall :=
    fun c2 r h => List.mem_filter.mpr ⟨h, rfl⟩
  rw [filter_isSet_configCalls]
  rcases selectDevice_config_shape w cands pattern with ⟨h, _⟩ | ⟨c1, ident, e, _, h, _⟩ |
    ⟨c1, hc1, h, ho⟩ | ⟨c1, config1, hc1, hne, h, ho⟩ | ⟨c1, ident, config1, e, hc1, hne, h, ho⟩
  · rw [h] at hq2; cases hq2
  · rw [h] at hq2
    simp at hq2
  · rw [h] at hq2
    simp only [List.mem_singleton, Event.GetConfiguration.injEq, Option.some.injEq] at hq2
    obtain ⟨rfl, rfl⟩ := hq2
    refine ⟨fun _ => by rw [h]; rfl, fun hne => absurd rfl hne, ?_, hc1, ?_⟩
    · intro c2 r h2
      have h3 := hget c2 r h2
      rw [h] at h3
      simpa using h3
    · intro c2 h2
      rw [ho] at h2
      cases h2; rfl
  · rw [h] at hq2
    simp only [List.mem_cons, Event.GetConfiguration.injEq, Option.some.injEq,
      List.mem_singleton, List.not_mem_nil, or_false] at hq2
    rcases hq2 with ⟨rfl, rfl⟩ | h3
    · refine ⟨fun heq => absurd heq hne, fun _ => ⟨true, by rw [h]; rfl⟩, ?_, hc1, ?_⟩
      · intro c2 r h2
        have h3 := hget c2 r h2
        rw [h] at h3
        simpa using h3
      · intro c2 h2
        rw [ho] at h2
        cases h2; rfl
    · cases h3
  · rw [h] at hq2
    simp only [List.mem_cons, Event.GetConfiguration.injEq, Option.some.injEq,
      List.mem_singleton, List.not_mem_nil, or_false] at hq2
    rcases hq2 with ⟨rfl, rfl⟩ | h3
    · refine ⟨fun heq => absurd heq hne, fun _ => ⟨false, by rw [h]; rfl⟩, ?_, hc1, ?_⟩
      · intro c2 r h2
        have h3 := hget c2 r h2
        rw [h] at h3
        simpa using h3
      · intro c2 h2
        rw [ho] at h2
        cases h2
    · cases h3

/-- C14, witness: the second sample candidate, chosen by the pattern
`Vendor:2`, has declared configuration value 1.  With active configuration 0
one set-configuration call with value 1 is issued on it; with active
configuration 1 none is issued. -/
theorem reconciliation_set_configuration_witness :
    (∃ ok, (selectDevice (sampleWorld identTwo (fun _ => 0) none) [candOne, candTwo]
        "Vendor:2").2.filter Event.isSetConfiguration =
      [Event.SetConfiguration candTwo candTwo.configValue ok]) ∧
    (selectDevice (sampleWorld identTwo (fun _ => 1) none) [candOne, candTwo]
        "Vendor:2").2.filter Event.isSetConfiguration = [] :=
  ⟨(reconciliation_set_configuration (sampleWorld identTwo (fun _ => 0) none)
      [candOne, candTwo] "Vendor:2" candTwo 0 (by decide)).2.1 (by decide),
    (reconciliation_set_configuration (sampleWorld identTwo (fun _ => 1) none)
      [candOne, candTwo] "Vendor:2" candTwo 1 (by decide)).1 (by decide)⟩

/-! ## The candidate chosen and its identity -/

theorem index_pair {α β : Type} (l : List (α × β)) (sel : Int) (x : α) (y : β)
    (hx : index (l.map (fun p => p.1)) sel = some x)
    (hy : index (l.map (fun p => p.2)) sel = some y) : (x, y) ∈ l := by
  have h1 := ((index_some_iff _ sel x).mp hx).2
  have h2 := ((index_some_iff _ sel y).mp hy).2
  rw [List.getElem?_map] at h1 h2
  cases hp : l[sel.toNat]? with
  | none => rw [hp] at h1; cases h1
  | some p =>
    rw [hp] at h1 h2
    simp only [Option.map_some', Option.some.injEq] at h1 h2
    have : p = (x, y) := by rw [← h1, ← h2]
    rw [← this]
    exact List.mem_iff_getElem?.mpr ⟨_, hp⟩

theorem filterEvents_head (pattern : String) (re : Regexp) (p : Device × String) :
    [Event.ID p.1 true] <+: filterEvents pattern re p := by
  unfold filterEvents
  by_cases hk : keeps pattern re p.2
  · rw [if_pos hk]
  · rw [if_neg hk]
    exact ⟨[Event.Close p.1, Event.Done p.1], rfl⟩

theorem split_at_index {α : Type} (l : List α) (j : Nat) (x : α) (h : l[j]? = some x) :
    l = l.take j ++ x :: l.drop (j + 1) := by
  induction l generalizing j with
  | nil => simp at h
  | cons a rest ih =>
    cases j with
    | zero =>
      simp only [List.getElem?_cons_zero, Option.some.injEq] at h
      simp [h]
    | succ j =>
      simp only [List.getElem?_cons_succ] at h
      have := ih j h
      simp only [List.take_succ_cons, List.drop_succ_cons, List.cons_append, List.cons.injEq,
        true_and]
      exact this

/-- The identity paired with a candidate in a run was computed for it: it is
the answer of an identity query on that candidate recorded in the log. -/
theorem identity_provenance (w : World) (pattern : String) (re : Regexp) (found : List Device)
    (all : List String) (tr1 : List Event)
    (hprov : ∀ j d s, (found.zip all)[j]? = some (d, s) →
      w.ID (tr1 ++ ((found.zip all).take j).flatMap (filterEvents pattern re)) d = .ok s)
    (c : Device) (ident : String) (hmem : (c, ident) ∈ found.zip all) :
    ∃ tr0, w.ID tr0 c = .ok ident ∧
      (tr0 ++ [Event.ID c true]) <+: tr1 ++ (found.zip all).flatMap (filterEvents pattern re) := by
  obtain ⟨j, hj⟩ := List.mem_iff_getElem?.mp hmem
  refine ⟨_, hprov j c ident hj, ?_⟩
  have hsplit := split_at_index (found.zip all) j (c, ident) hj
  obtain ⟨t, ht⟩ := filterEvents_head pattern re (c, ident)
  have hfm : (found.zip all).flatMap (filterEvents pattern re) =
      ((found.zip all).take j).flatMap (filterEvents pattern re) ++
        ([Event.ID c true] ++ t ++
          ((found.zip all).drop (j + 1)).flatMap (filterEvents pattern re)) := by
    conv_lhs => rw [hsplit]
    rw [List.flatMap_append, List.flatMap_cons, ← ht]
  rw [hfm]
  refine ⟨t ++ ((found.zip all).drop (j + 1)).flatMap (filterEvents pattern re), ?_⟩
  simp

theorem zip_fst_unique {α β : Type} (l : List α) (all : List β) (hnd : l.Nodup) (x : α)
    (y z : β) (hy : (x, y) ∈ l.zip all) (hz : (x, z) ∈ l.zip all) : y = z := by
  induction l generalizing all with
  | nil => simp at hy
  | cons a rest ih =>
    cases all with
    | nil => simp at hy
    | cons b bs =>
      simp only [List.zip_cons_cons, List.mem_cons, Prod.mk.injEq] at hy hz
      have hnot : a ∉ rest := (List.nodup_cons.mp hnd).1
      rcases hy with ⟨rfl, rfl⟩ | hy
      · rcases hz with ⟨_, rfl⟩ | hz
        · rfl
        · exact absurd (List.of_mem_zip hz).1 hnot
      · rcases hz with ⟨rfl, _⟩ | hz
        · exact absurd (List.of_mem_zip hy).1 hnot
        · exact ih bs (List.nodup_cons.mp hnd).2 hy hz

theorem activeConfiguration_append (a b : List Event) (d : Device) :
    activeConfiguration (a ++ b) d = b.foldl (configStep d) (activeConfiguration a d) := by
  simp [activeConfiguration, List.foldl_append]

/-- A candidate returned by the configuration step is the one at the index,
and its active configuration is then the declared one. -/
theorem reconcile_ok_facts (w : World) (tr : List Event) (found : List Device)
    (ids : List String) (sel : Int) (c : Device) (hlen : ids.length = found.length)
    (hout : (reconcile w tr found ids sel).1 = Outcome.ok c) :
    index found sel = some c ∧
      activeConfiguration (reconcile w tr found ids sel).2 c = some c.configValue := by
  rcases reconcile_cases w tr found ids sel hlen with
    ⟨_, hr⟩ | ⟨c1, ident, e, _, _, _, hr⟩ | ⟨c1, hc, _, hr⟩ | ⟨c1, config, hc, _, _, _, hr⟩ |
    ⟨c1, ident, config, e, _, _, _, _, _, hr⟩
  · rw [hr] at hout; cases hout
  · rw [hr] at hout; cases hout
  · rw [hr] at hout ⊢
    cases hout
    exact ⟨hc, by rw [activeConfiguration_append]; simp [configStep]⟩
  · rw [hr] at hout ⊢
    cases hout
    exact ⟨hc, by rw [activeConfiguration_append]; simp [configStep]⟩
  · rw [hr] at hout; cases hout

/-- After the filter pass either no candidate is left, or the configuration
step runs on the index chosen, after calls that only use the terminal. -/
theorem choose_reconcile (w : World) (tr : List Event) (found : List Device)
    (ids : List String) :
    (found = [] ∧ choose w tr found ids = (Outcome.error SelectError.noMatch, tr)) ∨
    (∃ tr2 sel, choose w tr found ids = reconcile w tr2 found ids sel ∧ tr <+: tr2 ∧
      (∀ ev ∈ tr2, ev ∈ tr ∨ ev.isTerminal = true) ∧
      ((found.length = 1 ∧ sel = 0 ∧ tr2 = tr) ∨
        (1 < found.length ∧ tr2 = (prompt w tr ids).2 ∧ sel = (prompt w tr ids).1))) := by
  rcases choose_cases w tr found ids with ⟨h0, h⟩ | ⟨h1, h⟩ | ⟨h1, h⟩
  · exact Or.inl ⟨h0, h⟩
  · exact Or.inr ⟨tr, 0, h, List.prefix_refl tr, fun ev hev => Or.inl hev,
      Or.inl ⟨h1, rfl, rfl⟩⟩
  · exact Or.inr ⟨_, _, h, prompt_log_extends w tr ids, prompt_log_events w tr ids,
      Or.inr ⟨h1, rfl, rfl⟩⟩

/-- A candidate returned by `selectDevice` is one of the input candidates and
was kept by the filter pass; it was opened, and when the candidates are
pairwise distinct it was never closed; the log ends with the configuration
calls on it that make its active configuration the declared one. -/
theorem returned_facts (w : World) (cands : List Device) (pattern : String) (c : Device)
    (hout : (selectDevice w cands pattern).1 = Outcome.ok c) :
    c ∈ cands ∧ Event.Open c true ∈ (selectDevice w cands pattern).2 ∧
      (cands.Nodup → Event.Close c ∉ (selectDevice w cands pattern).2) ∧
      activeConfiguration (selectDevice w cands pattern).2 c = some c.configValue := by
  rcases selectDevice_run w cands pattern with ⟨err, _, h⟩ | ⟨re, oks, _, _, _, _, h⟩ |
    ⟨re, oks, pre, d0, post, all, e, _, _, _, _, _, _, h⟩ |
    ⟨re, oks, all, _, _, _, _, hlen0, _, h⟩
  · rw [h] at hout; cases hout
  · rw [h] at hout; cases hout
  · rw [h] at hout; cases hout
  · rcases choose_reconcile w _ _ _ with ⟨_, hc⟩ | ⟨tr2, sel, hc, hpre, hev, _⟩
    · rw [h, hc] at hout; cases hout
    · rw [hc] at h
      rw [h] at hout ⊢
      have hlen := keptPairs_lengths pattern re (opened cands oks) all
      obtain ⟨hidx, hact⟩ := reconcile_ok_facts w tr2 _ _ sel c hlen hout
      have hcF : c ∈ (keptPairs pattern re (opened cands oks) all).map (fun p => p.1) :=
        List.mem_iff_getElem?.mpr ⟨_, ((index_some_iff _ sel c).mp hidx).2⟩
      obtain ⟨p, hp, hpc⟩ := List.mem_map.mp hcF
      have hp2 := List.mem_filter.mp hp
      have hzip : (c, p.2) ∈ (opened cands oks).zip all := by rw [← hpc]; exact hp2.1
      have hkeep : keeps pattern re p.2 := by simpa using hp2.2
      have hcop : c ∈ opened cands oks := (List.of_mem_zip hzip).1
      refine ⟨(opened_sublist cands oks).subset hcop, ?_, ?_, hact⟩
      · apply (reconcile_log_extends w tr2 _ _ sel).subset
        apply hpre.subset
        apply List.mem_append_left
        exact (mem_opened_iff cands oks c).mp hcop
      · intro hnd hclose
        rcases reconcile_log_events w tr2 _ _ sel _ hclose with h1 | h1
        · rcases hev _ h1 with h2 | h2
          · rcases List.mem_append.mp h2 with h3 | h3
            · obtain ⟨c2, b, _, hcb⟩ := zipWith_Open_events cands oks _ h3
              cases hcb
            · obtain ⟨q, hq, hq2⟩ := (mem_filterEvents pattern re _ _).mp h3
              rcases hq2 with hq2 | ⟨hnk, hq2 | hq2⟩
              · cases hq2
              · have hqc : q.1 = c := by cases hq2; rfl
                have hq3 : (c, q.2) ∈ (opened cands oks).zip all := by rw [← hqc]; exact hq
                have := zip_fst_unique (opened cands oks) all
                  ((opened_sublist cands oks).nodup hnd) c p.2 q.2 hzip hq3
                rw [← this] at hnk
                exact hnk hkeep
              · cases hq2
          · cases h2
        · cases h1

/-- A run whose log holds a configuration call went through the filter pass
and reached the configuration step; the calls before that step are no
configuration calls. -/
theorem reached_reconcile (w : World) (cands : List Device) (pattern : String) (ev : Event)
    (hev : ev ∈ (selectDevice w cands pattern).2) (hcfg : ev.isConfigCall = true) :
    ∃ re oks all tr2 sel,
      (∀ j d s, ((opened cands oks).zip all)[j]? = some (d, s) →
        w.ID (List.zipWith Event.Open cands oks ++
          (((opened cands oks).zip all).take j).flatMap (filterEvents pattern re)) d = .ok s) ∧
      selectDevice w cands pattern = reconcile w tr2
        ((keptPairs pattern re (opened cands oks) all).map (fun p => p.1))
        ((keptPairs pattern re (opened cands oks) all).map (fun p => p.2)) sel ∧
      (List.zipWith Event.Open cands oks ++
        ((opened cands oks).zip all).flatMap (filterEvents pattern re)) <+: tr2 ∧
      (∀ ev2 ∈ tr2, ev2.isConfigCall = false) := by
  have hno : ∀ (re : Regexp) (oks : List Bool) (l : List (Device × String)),
      ev ∉ List.zipWith Event.Open cands oks ++ l.flatMap (filterEvents pattern re) := by
    intro re oks l hmem
    have := (passes_log_events cands oks pattern re l ev hmem).1
    rw [hcfg] at this
    cases this
  rcases selectDevice_run w cands pattern with ⟨err, _, h⟩ | ⟨re, oks, _, _, _, _, h⟩ |
    ⟨re, oks, pre, d0, post, all, e, _, _, _, _, _, _, h⟩ |
    ⟨re, oks, all, _, _, _, _, _, hprov, h⟩
  · rw [h] at hev; cases hev
  · rw [h] at hev
    exact absurd (List.mem_append_left _ hev) (hno re oks [])
  · rw [h] at hev
    rcases List.mem_append.mp hev with h1 | h1
    · exact absurd h1 (hno re oks _)
    · simp only [List.mem_cons, List.mem_singleton, List.not_mem_nil, or_false] at h1
      rcases h1 with h1 | h1 <;> (rw [h1] at hcfg; cases hcfg)
  · rcases choose_reconcile w _ _ _ with ⟨_, hc⟩ | ⟨tr2, sel, hc, hpre, hevs, _⟩
    · rw [h, hc] at hev
      exact absurd hev (hno re oks _)
    · refine ⟨re, oks, all, tr2, sel, hprov, by rw [h, hc], hpre, ?_⟩
      intro ev2 hev2
      rcases hevs ev2 hev2 with h1 | h1
      · exact (passes_log_events cands oks pattern re _ ev2 h1).1
      · cases ev2 <;> first | rfl | cases h1

/-- A failed configuration call on a candidate ends the run with the
configuration error, which quotes the identity computed for that candidate. -/
theorem config_failure_facts (w : World) (cands : List Device) (pattern : String) (c : Device)
    (ev : Event)
    (hev : ev ∈ (selectDevice w cands pattern).2)
    (hkind : ev = Event.GetConfiguration c none ∨
      ∃ v, ev = Event.SetConfiguration c v false) :
    ∃ ident e tr0, w.ID tr0 c = .ok ident ∧
      (tr0 ++ [Event.ID c true]) <+: (selectDevice w cands pattern).2 ∧
      ((ev = Event.GetConfiguration c none ∧
          (selectDevice w cands pattern).1 =
            Outcome.error (SelectError.getConfiguration ident e)) ∨
        (ev = Event.SetConfiguration c c.configValue false ∧
          (selectDevice w cands pattern).1 =
            Outcome.error (SelectError.setConfiguration ident e))) := by
  have hcfg : ev.isConfigCall = true := by
    rcases hkind with h | ⟨v, h⟩ <;> (rw [h]; rfl)
  obtain ⟨re, oks, all, tr2, sel, hprov, hsel, hpre, hnocfg⟩ :=
    reached_reconcile w cands pattern ev hev hcfg
  have hlen := keptPairs_lengths pattern re (opened cands oks) all
  have hnot : ev ∉ tr2 := by
    intro hmem
    have := hnocfg ev hmem
    rw [hcfg] at this
    cases this
  have hident : ∀ ident, index ((keptPairs pattern re (opened cands oks) all).map
        (fun p => p.1)) sel = some c →
      index ((keptPairs pattern re (opened cands oks) all).map (fun p => p.2)) sel =
        some ident →
      ∃ tr0, w.ID tr0 c = .ok ident ∧
        (tr0 ++ [Event.ID c true]) <+: (selectDevice w cands pattern).2 := by
    intro ident h1 h2
    have hk := index_pair _ sel c ident h1 h2
    unfold keptPairs at hk
    obtain ⟨tr0, ht0, hp0⟩ := identity_provenance w pattern re (opened cands oks) all _ hprov
      c ident (List.mem_filter.mp hk).1
    refine ⟨tr0, ht0, hp0.trans (hpre.trans ?_)⟩
    rw [hsel]
    exact reconcile_log_extends w tr2 _ _ sel
  rw [hsel] at hev
  rcases reconcile_cases w tr2 _ _ sel hlen with
    ⟨_, hr⟩ | ⟨c1, ident, e, hc, hi, _, hr⟩ | ⟨c1, hc, _, hr⟩ | ⟨c1, config, hc, _, _, _, hr⟩ |
    ⟨c1, ident, config, e, hc, hi, _, _, _, hr⟩
  · rw [hr] at hev
    exact absurd hev hnot
  · rw [hr] at hev
    simp only [List.mem_append, List.mem_singleton] at hev
    rcases hev with h1 | h1
    · exact absurd h1 hnot
    · rcases hkind with h2 | ⟨v, h2⟩
      · rw [h2] at h1
        cases h1
        obtain ⟨tr0, ht0, hp0⟩ := hident ident hc hi
        exact ⟨ident, e, tr0, ht0, hp0, Or.inl ⟨h2, by rw [hsel, hr]⟩⟩
      · rw [h2] at h1; cases h1
  · rw [hr] at hev
    simp only [List.mem_append, List.mem_singleton] at hev
    rcases hev with h1 | h1
    · exact absurd h1 hnot
    · rcases hkind with h2 | ⟨v, h2⟩ <;> (rw [h2] at h1; cases h1)
  · rw [hr] at hev
    simp only [List.mem_append, List.mem_cons, List.mem_singleton, List.not_mem_nil,
      or_false] at hev
    rcases hev with h1 | h1 | h1
    · exact absurd h1 hnot
    · rcases hkind with h2 | ⟨v, h2⟩ <;> (rw [h2] at h1; cases h1)
    · rcases hkind with h2 | ⟨v, h2⟩ <;> (rw [h2] at h1; cases h1)
  · rw [hr] at hev
    simp only [List.mem_append, List.mem_cons, List.mem_singleton, List.not_mem_nil,
      or_false] at hev
    rcases hev with h1 | h1 | h1
    · exact absurd h1 hnot
    · rcases hkind with h2 | ⟨v, h2⟩ <;> (rw [h2] at h1; cases h1)
    · rcases hkind with h2 | ⟨v, h2⟩
      · rw [h2] at h1; cases h1
      · have h3 := h1
        rw [h2] at h3
        cases h3
        obtain ⟨tr0, ht0, hp0⟩ := hident ident hc hi
        exact ⟨ident, e, tr0, ht0, hp0, Or.inr ⟨h1, by rw [hsel, hr]⟩⟩

/-- C15: whenever `selectDevice` returns a candidate, that candidate is one of
the input candidates, its active configuration is its declared configuration
value (a successful set-configuration call making the given value active),
and, the input candidates being pairwise distinct, it is in the opened state.
Whenever the configuration query or the set-configuration call on the chosen
candidate fails, `selectDevice` returns no candidate but an error whose
message quotes the identity that was computed for that candidate. -/
theorem returned_candidate_ready (w : World) (cands : List Device) (pattern : String) :
    (∀ c, (selectDevice w cands pattern).1 = Outcome.ok c →
      c ∈ cands ∧ (cands.Nodup → isOpen (selectDevice w cands pattern).2 c = true) ∧
        activeConfiguration (selectDevice w cands pattern).2 c = some c.configValue) ∧
    (∀ c, Event.GetConfiguration c none ∈ (selectDevice w cands pattern).2 →
      ∃ ident e tr0, (selectDevice w cands pattern).1 =
          Outcome.error (SelectError.getConfiguration ident e) ∧
        w.ID tr0 c = .ok ident ∧
        (tr0 ++ [Event.ID c true]) <+: (selectDevice w cands pattern).2) ∧
    (∀ c v, Event.SetConfiguration c v false ∈ (selectDevice w cands pattern).2 →
      ∃ ident e tr0, (selectDevice w cands pattern).1 =
          Outcome.error (SelectError.setConfiguration ident e) ∧
        w.ID tr0 c = .ok ident ∧
        (tr0 ++ [Event.ID c true]) <+: (selectDevice w cands pattern).2) ∧
    (∀ ident e, (SelectError.getConfiguration ident e).Error =
        "could not get configuration of " ++ ident ++ ": " ++ e ∧
      (SelectError.setConfiguration ident e).Error =
        "could not set configuration of " ++ ident ++ ": " ++ e) := by
  refine ⟨?_, ?_, ?_, fun _ _ => ⟨rfl, rfl⟩⟩
  · intro c hout
    obtain ⟨h1, h2, h3, h4⟩ := returned_facts w cands pattern c hout
    exact ⟨h1, fun hnd => isOpen_of_mem _ c h2 (h3 hnd), h4⟩
  · intro c hc
    obtain ⟨ident, e, tr0, h1, h2, h3⟩ :=
      config_failure_facts w cands pattern c _ hc (Or.inl rfl)
    rcases h3 with ⟨_, h3⟩ | ⟨h3, _⟩
    · exact ⟨ident, e, tr0, h3, h1, h2⟩
    · cases h3
  · intro c v hc
    obtain ⟨ident, e, tr0, h1, h2, h3⟩ :=
      config_failure_facts w cands pattern c _ hc (Or.inr ⟨v, rfl⟩)
    rcases h3 with ⟨h3, _⟩ | ⟨_, h3⟩
    · cases h3
    · exact ⟨ident, e, tr0, h3, h1, h2⟩

theorem filter_zip_fst_sublist {α β : Type} (p : α × β → Bool) (l : List α) (all : List β) :
    (((l.zip all).filter p).map (fun q => q.1)).Sublist l := by
  induction l generalizing all with
  | nil => simp
  | cons a rest ih =>
    cases all with
    | nil => simp
    | cons b bs =>
      by_cases hp : p (a, b) = true
      · simpa [List.filter_cons, hp] using (ih bs).cons₂ a
      · simpa [List.filter_cons, hp] using (ih bs).cons a

theorem zip_map_fst_snd {α β : Type} (l : List (α × β)) :
    (l.map (fun q => q.1)).zip (l.map (fun q => q.2)) = l := by
  induction l with
  | nil => rfl
  | cons a rest ih => simp [ih]

theorem listing_mem (i k : Nat) (ids : List String) (ident : String)
    (h : ids[k]? = some ident) :
    Event.Print (toString (i + k) ++ ". " ++ ident ++ "\n") ∈ listing i ids := by
  induction ids generalizing i k with
  | nil => simp at h
  | cons x rest ih =>
    cases k with
    | zero =>
      simp only [List.getElem?_cons_zero, Option.some.injEq] at h
      subst h
      simp [listing]
    | succ k =>
      simp only [List.getElem?_cons_succ] at h
      have := ih (i + 1) k h
      have he : i + 1 + k = i + (k + 1) := by omega
      rw [he] at this
      simp only [listing, List.mem_cons]
      exact Or.inr this

/-- C18: when the filter pass completes without an identity failure, the
identity list and the filtered candidate list have the same length; the
filtered list is the subsequence, in discovery order, of the opened candidates
whose computed identity passes the test of the filter; and for every position
`i`, `ids[i]` is the identity that was computed for `found[i]`, by an identity
query recorded in the log.  In the step that follows, with more than one
candidate left the line printed at number `k` shows `ids[k]`, and there is one
index `sel` such that a candidate returned is `found[sel]` and an identity
quoted in a configuration error is `ids[sel]`, the failed call being one on
`found[sel]`. -/
theorem ids_aligned (w : World) (pattern : String) (re : Regexp) (cands : List Device)
    (tr : List Event) (found2 : List Device) (ids : List String) (tr2 : List Event)
    (h : filterPass w pattern re tr 0 [] [] cands = (.ok (found2, ids), tr2)) :
    ids.length = found2.length ∧ found2.Sublist cands ∧
    (∃ all : List String, all.length = cands.length ∧
      found2.zip ids = (cands.zip all).filter (fun p => keeps pattern re p.2) ∧
      ∀ d s, (d, s) ∈ cands.zip all →
        ∃ tr0, w.ID tr0 d = .ok s ∧ (tr0 ++ [Event.ID d true]) <+: tr2) ∧
    (∀ (i : Nat) (d : Device), found2[i]? = some d →
      ∃ ident tr0, ids[i]? = some ident ∧ w.ID tr0 d = .ok ident ∧
        (tr0 ++ [Event.ID d true]) <+: tr2 ∧ keeps pattern re ident) ∧
    (∀ (k : Nat) (ident : String), 1 < found2.length → ids[k]? = some ident →
      Event.Print (toString k ++ ". " ++ ident ++ "\n") ∈ (choose w tr2 found2 ids).2) ∧
    (∃ sel : Int,
      (∀ c, (choose w tr2 found2 ids).1 = Outcome.ok c → index found2 sel = some c) ∧
      (∀ ident e, (choose w tr2 found2 ids).1 =
          Outcome.error (SelectError.getConfiguration ident e) →
        index ids sel = some ident ∧ ∃ c, index found2 sel = some c ∧
          Event.GetConfiguration c none ∈ (choose w tr2 found2 ids).2) ∧
      (∀ ident e, (choose w tr2 found2 ids).1 =
          Outcome.error (SelectError.setConfiguration ident e) →
        index ids sel = some ident ∧ ∃ c, index found2 sel = some c ∧
          Event.SetConfiguration c c.configValue false ∈ (choose w tr2 found2 ids).2)) := by
  obtain ⟨all, hlen, hf, hi, htr, hprov⟩ :=
    filterPass_ok_spec w pattern re cands tr 0 [] [] found2 ids tr2 h
  simp only [List.nil_append] at hf hi
  have hlen2 : ids.length = found2.length := by rw [hf, hi]; simp
  have hprov2 : ∀ d s, (d, s) ∈ cands.zip all →
      ∃ tr0, w.ID tr0 d = .ok s ∧ (tr0 ++ [Event.ID d true]) <+: tr2 := by
    intro d s hmem
    rw [htr]
    exact identity_provenance w pattern re cands all tr hprov d s hmem
  refine ⟨hlen2, ?_, ⟨all, hlen, ?_, hprov2⟩, ?_, ?_, ?_⟩
  · rw [hf]
    exact filter_zip_fst_sublist _ cands all
  · rw [hf, hi]
    exact zip_map_fst_snd _
  · intro i d hd
    rw [hf, List.getElem?_map] at hd
    cases hp : ((cands.zip all).filter (fun p => keeps pattern re p.2))[i]? with
    | none => rw [hp] at hd; cases hd
    | some p =>
      rw [hp] at hd
      simp only [Option.map_some', Option.some.injEq] at hd
      have hmem := List.mem_filter.mp (List.mem_iff_getElem?.mpr ⟨i, hp⟩)
      have hz : (d, p.2) ∈ cands.zip all := by rw [← hd]; exact hmem.1
      obtain ⟨tr0, h1, h2⟩ := hprov2 d p.2 hz
      refine ⟨p.2, tr0, ?_, h1, h2, by simpa using hmem.2⟩
      rw [hi, List.getElem?_map, hp]
      rfl
  · intro k ident hN hk
    have hc : choose w tr2 found2 ids =
        reconcile w (prompt w tr2 ids).2 found2 ids (prompt w tr2 ids).1 := by
      have h0 : ¬ found2.length = 0 := by omega
      unfold choose
      rw [if_neg h0, if_pos hN]
    rw [hc]
    apply (reconcile_log_extends w _ found2 ids _).subset
    unfold prompt
    have := listing_mem 0 k ids ident hk
    rw [Nat.zero_add] at this
    simp only [List.mem_append, List.mem_cons, List.mem_singleton, List.not_mem_nil, or_false]
    exact Or.inl (Or.inr (Or.inl (Or.inr this)))
  · rcases choose_reconcile w tr2 found2 ids with ⟨_, hc⟩ | ⟨tr3, sel, hc, _, _, _⟩
    · refine ⟨0, ?_, ?_, ?_⟩
      · intro c hout
        rw [hc] at hout
        cases hout
      · intro ident e hout
        rw [hc] at hout
        cases hout
      · intro ident e hout
        rw [hc] at hout
        cases hout
    · rw [hc]
      refine ⟨sel, ?_, ?_, ?_⟩
      · intro c hout
        rcases reconcile_cases w tr3 found2 ids sel hlen2 with
          ⟨_, hr⟩ | ⟨c1, ident1, e1, hc1, hi1, _, hr⟩ | ⟨c1, hc1, _, hr⟩ |
          ⟨c1, config, hc1, _, _, _, hr⟩ | ⟨c1, ident1, config, e1, hc1, hi1, _, _, _, hr⟩
        · rw [hr] at hout; cases hout
        · rw [hr] at hout; cases hout
        · rw [hr] at hout; cases hout; exact hc1
        · rw [hr] at hout; cases hout; exact hc1
        · rw [hr] at hout; cases hout
      · intro ident e hout
        rcases reconcile_cases w tr3 found2 ids sel hlen2 with
          ⟨_, hr⟩ | ⟨c1, ident1, e1, hc1, hi1, _, hr⟩ | ⟨c1, hc1, _, hr⟩ |
          ⟨c1, config, hc1, _, _, _, hr⟩ | ⟨c1, ident1, config, e1, hc1, hi1, _, _, _, hr⟩
        · rw [hr] at hout; cases hout
        · rw [hr] at hout ⊢
          cases hout
          exact ⟨hi1, c1, hc1, by simp⟩
        · rw [hr] at hout; cases hout
        · rw [hr] at hout; cases hout
        · rw [hr] at hout; cases hout
      · intro ident e hout
        rcases reconcile_cases w tr3 found2 ids sel hlen2 with
          ⟨_, hr⟩ | ⟨c1, ident1, e1, hc1, hi1, _, hr⟩ | ⟨c1, hc1, _, hr⟩ |
          ⟨c1, config, hc1, _, _, _, hr⟩ | ⟨c1, ident1, config, e1, hc1, hi1, _, _, _, hr⟩
        · rw [hr] at hout; cases hout
        · rw [hr] at hout; cases hout
        · rw [hr] at hout; cases hout
        · rw [hr] at hout; cases hout
        · rw [hr] at hout ⊢
          cases hout
          exact ⟨hi1, c1, hc1, by simp⟩

/-- C18, witness: the filter pass on the two sample candidates with pattern
`Vendor:2` keeps the second, with its identity. -/
theorem ids_aligned_witness :
    ["Vendor:2 Bus:2"].length = [candTwo].length ∧ [candTwo].Sublist [candOne, candTwo] ∧
      (∀ (i : Nat) (d : Device), [candTwo][i]? = some d →
        ∃ ident tr0, ["Vendor:2 Bus:2"][i]? = some ident ∧
          (sampleWorld identTwo (fun _ => 1) none).ID tr0 d = .ok ident ∧
          (tr0 ++ [Event.ID d true]) <+:
            [Event.Open candOne true, Event.Open candTwo true, Event.ID candOne true,
              Event.Close candOne, Event.Done candOne, Event.ID candTwo true] ∧
          keeps "Vendor:2" ⟨fun s => search [Item.lit 'V', Item.lit 'e', Item.lit 'n',
            Item.lit 'd', Item.lit 'o', Item.lit 'r', Item.lit ':', Item.lit '2'] s.data 0⟩
            ident) :=
  have h := ids_aligned (sampleWorld identTwo (fun _ => 1) none) "Vendor:2"
    ⟨fun s => search [Item.lit 'V', Item.lit 'e', Item.lit 'n', Item.lit 'd', Item.lit 'o',
      Item.lit 'r', Item.lit ':', Item.lit '2'] s.data 0⟩ [candOne, candTwo]
    [Event.Open candOne true, Event.Open candTwo true] [candTwo] ["Vendor:2 Bus:2"]
    [Event.Open candOne true, Event.Open candTwo true, Event.ID candOne true,
      Event.Close candOne, Event.Done candOne, Event.ID candTwo true] rfl
  ⟨h.1, h.2.1, h.2.2.2.1⟩

/-- C15, witness: the second sample candidate, chosen by the pattern
`Vendor:2` with active configuration 0, is returned opened and with active
configuration 1, its declared value; and when the configuration query on it
fails, the error quotes its identity. -/
theorem returned_candidate_ready_witness :
    (candTwo ∈ [candOne, candTwo] ∧
      ([candOne, candTwo].Nodup →
        isOpen (selectDevice (sampleWorld identTwo (fun _ => 0) none) [candOne, candTwo]
          "Vendor:2").2 candTwo = true) ∧
      activeConfiguration (selectDevice (sampleWorld identTwo (fun _ => 0) none)
        [candOne, candTwo] "Vendor:2").2 candTwo = some candTwo.configValue) ∧
    (selectDevice (faultyWorld (fun _ => true) identTwo (fun _ => .error "LIBUSB_ERROR_IO")
        true none) [candOne, candTwo] "Vendor:2").1 =
      Outcome.error (SelectError.getConfiguration "Vendor:2 Bus:2" "LIBUSB_ERROR_IO") ∧
    (∃ ident e tr0,
      (selectDevice (faultyWorld (fun _ => true) identTwo (fun _ => .error "LIBUSB_ERROR_IO")
        true none) [candOne, candTwo] "Vendor:2").1 =
          Outcome.error (SelectError.getConfiguration ident e) ∧
      (faultyWorld (fun _ => true) identTwo (fun _ => .error "LIBUSB_ERROR_IO")
        true none).ID tr0 candTwo = .ok ident ∧
      (tr0 ++ [Event.ID candTwo true]) <+:
        (selectDevice (faultyWorld (fun _ => true) identTwo (fun _ => .error "LIBUSB_ERROR_IO")
          true none) [candOne, candTwo] "Vendor:2").2) ∧
    (∃ ident e tr0,
      (selectDevice (faultyWorld (fun _ => true) identTwo (fun _ => .ok 0)
        false none) [candOne, candTwo] "Vendor:2").1 =
          Outcome.error (SelectError.setConfiguration ident e) ∧
      (faultyWorld (fun _ => true) identTwo (fun _ => .ok 0) false none).ID tr0 candTwo =
        .ok ident ∧
      (tr0 ++ [Event.ID candTwo true]) <+:
        (selectDevice (faultyWorld (fun _ => true) identTwo (fun _ => .ok 0)
          false none) [candOne, candTwo] "Vendor:2").2) :=
  ⟨(returned_candidate_ready (sampleWorld identTwo (fun _ => 0) none) [candOne, candTwo]
      "Vendor:2").1 candTwo (by decide),
    by decide,
    (returned_candidate_ready (faultyWorld (fun _ => true) identTwo
      (fun _ => .error "LIBUSB_ERROR_IO") true none) [candOne, candTwo] "Vendor:2").2.1
      candTwo (by decide),
    (returned_candidate_ready (faultyWorld (fun _ => true) identTwo (fun _ => .ok 0) false none)
      [candOne, candTwo] "Vendor:2").2.2.1 candTwo 1 (by decide)⟩

/-- C16, the code at three failing inputs.  (1) Two candidates, the empty
pattern, the operator types 0: the first candidate is returned and the second
is still in the opened state, neither closed nor released.  (2) Two
candidates, the empty pattern, the identity of the second cannot be computed:
the result is the identity error, the second candidate is closed but not
released, and the first, kept before, is still in the opened state.  (3) One
candidate whose configuration query fails: the result is the configuration
error and the candidate is still in the opened state, not released. -/
theorem rejected_candidates_left_open :
    ((selectDevice (sampleWorld identTwo (fun _ => 1) (some 0)) [candOne, candTwo] "").1 =
        Outcome.ok candOne ∧
      isOpen (selectDevice (sampleWorld identTwo (fun _ => 1) (some 0)) [candOne, candTwo]
        "").2 candTwo = true ∧
      Event.Close candTwo ∉
        (selectDevice (sampleWorld identTwo (fun _ => 1) (some 0)) [candOne, candTwo] "").2 ∧
      Event.Done candTwo ∉
        (selectDevice (sampleWorld identTwo (fun _ => 1) (some 0)) [candOne, candTwo] "").2) ∧
    ((selectDevice (sampleWorld identFirstOnly (fun _ => 1) none) [candOne, candTwo] "").1 =
        Outcome.error (SelectError.id 1 "LIBUSB_ERROR_IO") ∧
      Event.Close candTwo ∈
        (selectDevice (sampleWorld identFirstOnly (fun _ => 1) none) [candOne, candTwo] "").2 ∧
      Event.Done candTwo ∉
        (selectDevice (sampleWorld identFirstOnly (fun _ => 1) none) [candOne, candTwo] "").2 ∧
      isOpen (selectDevice (sampleWorld identFirstOnly (fun _ => 1) none) [candOne, candTwo]
        "").2 candOne = true ∧
      Event.Done candOne ∉
        (selectDevice (sampleWorld identFirstOnly (fun _ => 1) none) [candOne, candTwo] "").2) ∧
    ((selectDevice (faultyWorld (fun _ => true) identTwo (fun _ => .error "LIBUSB_ERROR_IO")
        true none) [candOne] "").1 =
        Outcome.error (SelectError.getConfiguration "Vendor:0x1 Bus:1" "LIBUSB_ERROR_IO") ∧
      isOpen (selectDevice (faultyWorld (fun _ => true) identTwo
        (fun _ => .error "LIBUSB_ERROR_IO") true none) [candOne] "").2 candOne = true ∧
      Event.Done candOne ∉ (selectDevice (faultyWorld (fun _ => true) identTwo
        (fun _ => .error "LIBUSB_ERROR_IO") true none) [candOne] "").2) := by
  decide

/-! ## The candidates of `FindDevices` are pairwise distinct -/

theorem candidate_dev (d : usb.Device) (m : Device)
    (h : (candidateFromDeviceDescriptor d).1 = some m) : m.dev = some d.ptr := by
  obtain ⟨dd, i, c, iface, a, _, _, _, _, _, _, hm⟩ := candidate_sound d m h
  rw [hm]
  rfl

/-- Devices at pairwise distinct addresses give pairwise distinct candidates,
so the list that `FindDevices` hands to `selectDevice` has no repetition. -/
theorem FindDevices_nodup (c : usb.Context) (l : List usb.Device) (cands : List Device)
    (err : Option usb.Error)
    (hl : c.GetDeviceList = .ok l) (hnd : (l.map (fun d => d.ptr)).Nodup)
    (hfind : FindDevices c = some (cands, err)) : cands.Nodup := by
  have hfd : cands = l.filterMap (fun d => (candidateFromDeviceDescriptor d).1) := by
    unfold FindDevices at hfind
    simp only [hl, collect_eq, List.nil_append] at hfind
    cases hdone : usb.DeviceList.Done l with
    | none => rw [hdone] at hfind; cases hfind
    | some u =>
      rw [hdone] at hfind
      simp only [Option.some.injEq, Prod.mk.injEq] at hfind
      exact hfind.1.symm
  rw [hfd]
  clear hfd hl hfind
  induction l with
  | nil => simp
  | cons d rest ih =>
    simp only [List.map_cons, List.nodup_cons] at hnd
    cases hd : (candidateFromDeviceDescriptor d).1 with
    | none =>
      simp only [List.filterMap_cons, hd]
      exact ih hnd.2
    | some m =>
      simp only [List.filterMap_cons, hd, List.nodup_cons]
      refine ⟨?_, ih hnd.2⟩
      intro hmem
      obtain ⟨d2, hd2, hm2⟩ := List.mem_filterMap.mp hmem
      have h1 := candidate_dev d m hd
      have h2 := candidate_dev d2 m hm2
      rw [h1] at h2
      simp only [Option.some.injEq] at h2
      apply hnd.1
      rw [h2]
      exact List.mem_map.mpr ⟨d2, hd2, rfl⟩

end mtp
